import Mathlib

/-!
# gitlab2gitea: a shallow embedding of `main.go`

The migrator talks to two remote services.  A remote service is embedded as a
record of reply functions (`Remote`): the reply to a request is a function of
the history of the run so far and of the request's arguments.  The history
(`Trace`) is the chronological list of every request issued and every line
logged; each embedded function takes the trace and returns the extended trace
together with its Go return value.  The `for page := 1; ; page++` loops have no
bound in the source, so they are embedded with a fuel argument: `none` means the
fuel ran out before the loop returned.
-/

namespace Gitlab2Gitea

/-! ## Data model -/

/-- Go `error` values, carried as their message. -/
abbrev Err := String

/-- Due dates and deadlines, carried verbatim from source to destination. -/
abbrev Time := String

/-- The fields of `gitlab.User` read by the migrator. -/
structure GitlabUser where
  Username : String
  Email : String
  Name : String
deriving DecidableEq, Repr

/-- The fields of `gitlab.Group` read by the migrator. -/
structure GitlabGroup where
  FullPath : String
  Name : String
  Description : String
  WebURL : String
deriving DecidableEq, Repr

/-- The field of `gitlab.ProjectNamespace` read by the migrator. -/
structure GitlabNamespace where
  FullPath : String
deriving DecidableEq, Repr

/-- The fields of `gitlab.Project` read by the migrator. -/
structure GitlabProject where
  ID : Int
  Path : String
  Namespace : GitlabNamespace
  HTTPURLToRepo : String
  Description : String
deriving DecidableEq, Repr

/-- The fields of `gitlab.Milestone` read by the migrator. -/
structure GitlabMilestone where
  Title : String
  Description : String
  DueDate : Option Time
  State : String
deriving DecidableEq, Repr

/-- The fields of `gitlab.Label` read by the migrator. -/
structure GitlabLabel where
  Name : String
  Description : String
  Color : String
deriving DecidableEq, Repr

/-- The fields of `gitlab.Issue` read by the migrator; `Milestone` is a pointer in Go. -/
structure GitlabIssue where
  Title : String
  Description : String
  DueDate : Option Time
  Milestone : Option GitlabMilestone
  Labels : List String
  State : String
deriving DecidableEq, Repr

/-- The type `gitea.StateType` of the Gitea SDK is a string type. -/
abbrev StateType := String

/-- The SDK constant `gitea.StateOpen`. -/
def StateOpen : StateType := "open"

/-- The SDK constant `gitea.StateClosed`. -/
def StateClosed : StateType := "closed"

/-- The type `gitea.VisibleType` of the Gitea SDK is a string type. -/
abbrev VisibleType := String

/-- The SDK constant `gitea.VisibleTypePublic`. -/
def VisibleTypePublic : VisibleType := "public"

/-- The SDK constant `gitea.GitServiceGitlab`. -/
def GitServiceGitlab : String := "gitlab"

/-- The field of `gitea.User` read by the migrator. -/
structure GiteaUser where
  UserName : String
deriving DecidableEq, Repr

/-- A destination milestone (`gitea.Milestone`). -/
structure GiteaMilestone where
  ID : Int
  Title : String
  Description : String
  State : StateType
  Deadline : Option Time
deriving DecidableEq, Repr

/-- A destination label (`gitea.Label`). -/
structure GiteaLabel where
  ID : Int
  Name : String
  Color : String
  Description : String
deriving DecidableEq, Repr

/-- A destination issue (`gitea.Issue`). -/
structure GiteaIssue where
  Index : Int
  Title : String
  Body : String
  State : StateType
  Labels : List Int
  Milestone : Int
deriving DecidableEq, Repr

/-- The fields of `gitea.CreateUserOption` set by the migrator. -/
structure CreateUserOption where
  SourceID : Int
  Email : String
  Username : String
  FullName : String
  Password : String
  MustChangePassword : Option Bool
  Visibility : Option VisibleType
deriving DecidableEq, Repr

/-- The fields of `gitea.CreateOrgOption` set by the migrator. -/
structure CreateOrgOption where
  Name : String
  FullName : String
  Description : String
  Website : String
  Visibility : VisibleType
  RepoAdminChangeTeamAccess : Bool
deriving DecidableEq, Repr

/-- The fields of `gitea.MigrateRepoOption` set by the migrator. -/
structure MigrateRepoOption where
  CloneAddr : String
  RepoName : String
  Service : String
  AuthToken : String
  Mirror : Bool
  Private : Bool
  Labels : Bool
  Issues : Bool
  Wiki : Bool
  Milestones : Bool
  PullRequests : Bool
  Releases : Bool
  Description : String
  MirrorInterval : String
  RepoOwner : String
deriving DecidableEq, Repr

/-- The fields of `gitea.CreateMilestoneOption` set by the migrator. -/
structure CreateMilestoneOption where
  Title : String
  Description : String
  Deadline : Option Time
  State : StateType
deriving DecidableEq, Repr

/-- The fields of `gitea.CreateLabelOption` set by the migrator. -/
structure CreateLabelOption where
  Name : String
  Description : String
  Color : String
deriving DecidableEq, Repr

/-- The fields of `gitea.CreateIssueOption` set by the migrator; the zero value
of `Milestone` is `0` and of `Labels` is the empty slice. -/
structure CreateIssueOption where
  Title : String
  Body : String
  Deadline : Option Time
  Milestone : Int
  Labels : List Int
deriving DecidableEq, Repr

/-- The fields of `gitea.EditIssueOption` set by the migrator (`Body`, `Milestone`
and `State` are pointers in Go). -/
structure EditIssueOption where
  Title : String
  Body : Option String
  Milestone : Option Int
  Deadline : Option Time
  State : Option StateType
deriving DecidableEq, Repr

/-- The type `gitea.IssueLabelsOption`. -/
structure IssueLabelsOption where
  Labels : List Int
deriving DecidableEq, Repr

/-- The type `gitea.ListMilestoneOption`: `Page` is the embedded `ListOptions.Page`,
whose zero value is `0`. -/
structure ListMilestoneOption where
  Page : Nat
  State : String
deriving DecidableEq, Repr

/-- The type `gitea.ListLabelsOptions`; its zero value has `Page = 0`. -/
structure ListLabelsOptions where
  Page : Nat
deriving DecidableEq, Repr

/-- The type `gitea.ListIssueOption`. -/
structure ListIssueOption where
  Page : Nat
  State : String
deriving DecidableEq, Repr

/-! ## Requests, log lines and the run history -/

/-- Every remote request the migrator can issue, with its arguments. -/
inductive Call where
  | ListUsers (page perPage : Nat)
  | ListGroups (page perPage : Nat) (allAvailable : Bool)
  | ListProjects (page perPage : Nat)
  | ListMilestones (pid : Int) (page perPage : Nat) (state : String)
  | ListLabels (pid : Int) (page perPage : Nat)
  | ListProjectIssues (pid : Int) (page perPage : Nat)
  | GetUserInfo (user : String)
  | AdminCreateUser (o : CreateUserOption)
  | GetOrg (name : String)
  | AdminCreateOrg (user : String) (o : CreateOrgOption)
  | GetRepo (owner repo : String)
  | MigrateRepo (o : MigrateRepoOption)
  | ListRepoMilestones (owner repo : String) (o : ListMilestoneOption)
  | ListRepoLabels (owner repo : String) (o : ListLabelsOptions)
  | ListRepoIssues (owner repo : String) (o : ListIssueOption)
  | CreateMilestone (owner repo : String) (o : CreateMilestoneOption)
  | CreateLabel (owner repo : String) (o : CreateLabelOption)
  | CreateIssue (owner repo : String) (o : CreateIssueOption)
  | EditIssue (owner repo : String) (index : Int) (o : EditIssueOption)
  | ReplaceIssueLabels (owner repo : String) (index : Int) (o : IssueLabelsOption)
deriving DecidableEq, Repr

/-- Logger levels used by the migrator. -/
inductive Level where
  | Info
  | Error
deriving DecidableEq, Repr

/-- One observable step of a run: a remote request, a logger line with its
string fields, or a line printed with `fmt.Printf`. -/
inductive Event where
  | call (c : Call)
  | log (level : Level) (msg : String) (fields : List (String × String))
  | print (text : String)
deriving DecidableEq, Repr

/-- The history of a run, oldest event first. -/
abbrev Trace := List Event

/-- The two remote services.  Each field gives the reply to one kind of request
as a function of the history before the request and of its arguments. -/
structure Remote where
  ListUsers : Trace → Nat → Nat → Except Err (List GitlabUser)
  ListGroups : Trace → Nat → Nat → Bool → Except Err (List GitlabGroup)
  ListProjects : Trace → Nat → Nat → Except Err (List GitlabProject)
  ListMilestones : Trace → Int → Nat → Nat → String → Except Err (List GitlabMilestone)
  ListLabels : Trace → Int → Nat → Nat → Except Err (List GitlabLabel)
  ListProjectIssues : Trace → Int → Nat → Nat → Except Err (List GitlabIssue)
  GetUserInfo : Trace → String → Except Err Unit
  AdminCreateUser : Trace → CreateUserOption → Except Err GiteaUser
  GetOrg : Trace → String → Except Err Unit
  AdminCreateOrg : Trace → String → CreateOrgOption → Except Err Unit
  GetRepo : Trace → String → String → Except Err Unit
  MigrateRepo : Trace → MigrateRepoOption → Except Err Unit
  ListRepoMilestones : Trace → String → String → ListMilestoneOption → Except Err (List GiteaMilestone)
  ListRepoLabels : Trace → String → String → ListLabelsOptions → Except Err (List GiteaLabel)
  ListRepoIssues : Trace → String → String → ListIssueOption → Except Err (List GiteaIssue)
  CreateMilestone : Trace → String → String → CreateMilestoneOption → Except Err Unit
  CreateLabel : Trace → String → String → CreateLabelOption → Except Err Unit
  CreateIssue : Trace → String → String → CreateIssueOption → Except Err Unit
  EditIssue : Trace → String → String → Int → EditIssueOption → Except Err Unit
  ReplaceIssueLabels : Trace → String → String → Int → IssueLabelsOption → Except Err Unit

/-- The command line arguments read after start-up, and the global `GiteaAdminUser`. -/
structure Arguments where
  GitlabToken : String
  GiteaAdmin : String
deriving DecidableEq, Repr

/-- The result of a function that may loop: `none` when the fuel ran out, else the
Go return value together with the history at the moment of return. -/
abbrev Outcome (α : Type) := Option (Except Err α × Trace)

/-! ## Go maps keyed by string -/

/-- A Go `map[string]T`: an association list in which the first binding of a key
is the current one. -/
abbrev GoMap (α : Type) := List (String × α)

/-- The assignment `m[k] = v`. -/
def GoMap.set {α : Type} (m : GoMap α) (k : String) (v : α) : GoMap α := (k, v) :: m

/-- The lookup `v, ok := m[k]`. -/
def GoMap.get? {α : Type} (m : GoMap α) (k : String) : Option α := List.lookup k m

/-! ## `strings.ReplaceAll` -/

/-- Left-to-right replacement of the non-overlapping occurrences of a non-empty
`old`; the first argument bounds the number of steps. -/
def replaceChars (old new : List Char) : Nat → List Char → List Char
  | 0, s => s
  | _ + 1, [] => []
  | n + 1, c :: cs =>
    if (c :: cs).take old.length = old then
      new ++ replaceChars old new n ((c :: cs).drop old.length)
    else c :: replaceChars old new n cs

/-- Go `strings.ReplaceAll(s, old, new)`.  An empty `old` matches before every
character and at the end. -/
def ReplaceAll (s old new : String) : String :=
  if old.data = [] then
    String.mk (new.data ++ (s.data.map (fun c => c :: new.data)).flatten)
  else String.mk (replaceChars old.data new.data s.data.length s.data)

/-! ## Loops -/

/-- A `for _, x := range items` loop whose body may `continue` (return `ok`) or
`return err`; `acc` is the state the body updates. -/
def forRange {σ α : Type} (body : σ → α → Trace → Outcome σ) :
    List α → σ → Trace → Outcome σ
  | [], acc, t => some (.ok acc, t)
  | x :: xs, acc, t =>
    match body acc x t with
    | some (.ok acc1, t1) => forRange body xs acc1 t1
    | r => r

/-- The loop shape shared by every pager of the source:
`for page := 1; ; page++ { items, err := list(page); if err != nil { return err };
if len(items) == 0 { return }; for _, x := range items { body } }`,
started at `page` with `fuel` iterations allowed. -/
def forPages {σ α : Type} (list : Nat → Trace → Except Err (List α) × Trace)
    (body : σ → α → Trace → Outcome σ) : Nat → Nat → σ → Trace → Outcome σ
  | 0, _, _, _ => none
  | fuel + 1, page, acc, t =>
    match list page t with
    | (.error e, t1) => some (.error e, t1)
    | (.ok items, t1) =>
      if items.length = 0 then some (.ok acc, t1)
      else
        match forRange body items acc t1 with
        | some (.ok acc1, t2) => forPages list body fuel (page + 1) acc1 t2
        | r => r

/-! ## Index builders (`giteaMilestones`, `giteaLabels`, `giteaIssues`) -/

/-- The range loop of `giteaMilestones`: starting from the empty map,
`milestones[milestone.Title] = milestone` for every listed milestone in order. -/
def milestoneIndex (listed : List GiteaMilestone) : GoMap GiteaMilestone :=
  listed.foldl (fun milestones milestone => milestones.set milestone.Title milestone) []

/-- The range loop of `giteaLabels`: starting from the empty map,
`labels[label.Name] = label` for every listed label in order. -/
def labelIndex (listed : List GiteaLabel) : GoMap GiteaLabel :=
  listed.foldl (fun labels label => labels.set label.Name label) []

/-- The map that `giteaIssues` holds after `issues[issue.Title] = issue` for every
issue of `listed` in order, starting from the empty map. -/
def issueIndex (listed : List GiteaIssue) : GoMap GiteaIssue :=
  listed.foldl (fun issues issue => issues.set issue.Title issue) []

/-- The request of `giteaMilestones`: one `ListRepoMilestones` call with state
filter "all" and the zero value of the list options. -/
def giteaMilestonesOpt : ListMilestoneOption := { Page := 0, State := "all" }

/-- Source function `giteaMilestones`: a single listing call, then one map entry per
returned milestone, keyed by title. -/
def giteaMilestones (w : Remote) (giteaOwner giteaRepo : String) (t : Trace) :
    Except Err (GoMap GiteaMilestone) × Trace :=
  let t1 := t ++ [Event.call (.ListRepoMilestones giteaOwner giteaRepo giteaMilestonesOpt)]
  match w.ListRepoMilestones t giteaOwner giteaRepo giteaMilestonesOpt with
  | .error e => (.error e, t1)
  | .ok listed => (.ok (milestoneIndex listed), t1)

/-- The request of `giteaLabels`: the zero value of `gitea.ListLabelsOptions`. -/
def giteaLabelsOpt : ListLabelsOptions := { Page := 0 }

/-- Source function `giteaLabels`: a single listing call, then one map entry per
returned label, keyed by name. -/
def giteaLabels (w : Remote) (giteaOwner giteaRepo : String) (t : Trace) :
    Except Err (GoMap GiteaLabel) × Trace :=
  let t1 := t ++ [Event.call (.ListRepoLabels giteaOwner giteaRepo giteaLabelsOpt)]
  match w.ListRepoLabels t giteaOwner giteaRepo giteaLabelsOpt with
  | .error e => (.error e, t1)
  | .ok listed => (.ok (labelIndex listed), t1)

/-- The listing request of `giteaIssues` for one page. -/
def giteaIssuesList (w : Remote) (giteaOwner giteaRepo : String) (page : Nat) (t : Trace) :
    Except Err (List GiteaIssue) × Trace :=
  (w.ListRepoIssues t giteaOwner giteaRepo { Page := page, State := "all" },
    t ++ [Event.call (.ListRepoIssues giteaOwner giteaRepo { Page := page, State := "all" })])

/-- The range body of `giteaIssues`: `issues[issue.Title] = issue`. -/
def giteaIssuesItem (issues : GoMap GiteaIssue) (issue : GiteaIssue) (t : Trace) :
    Outcome (GoMap GiteaIssue) :=
  some (.ok (issues.set issue.Title issue), t)

/-- Source function `giteaIssues`: pages from page 1 until an empty page. -/
def giteaIssues (fuel : Nat) (w : Remote) (giteaOwner giteaRepo : String) (t : Trace) :
    Outcome (GoMap GiteaIssue) :=
  forPages (giteaIssuesList w giteaOwner giteaRepo) giteaIssuesItem fuel 1 [] t

/-! ## State translation -/

/-- The `switch milestone.State` of `migrateMilestones`; `var state gitea.StateType`
starts at the zero value, the empty string. -/
def milestoneState (s : String) : StateType :=
  if s = "open" then StateOpen
  else if s = "opened" then StateOpen
  else if s = "close" then StateClosed
  else if s = "closed" then StateClosed
  else ""

/-- The `switch issue.State` of `migrateIssue`. -/
def issueState (s : String) : StateType :=
  if s = "open" then StateOpen
  else if s = "opened" then StateOpen
  else if s = "close" then StateClosed
  else if s = "closed" then StateClosed
  else ""

/-! ## Milestones and labels -/

/-- The listing request of `migrateMilestones` for one page. -/
def migrateMilestonesList (w : Remote) (gitlabProjectID : Int) (page : Nat) (t : Trace) :
    Except Err (List GitlabMilestone) × Trace :=
  (w.ListMilestones t gitlabProjectID page 100 "active",
    t ++ [Event.call (.ListMilestones gitlabProjectID page 100 "active")])

/-- The option built by `migrateMilestones` for a source milestone. -/
def createMilestoneOption (milestone : GitlabMilestone) : CreateMilestoneOption :=
  { Title := milestone.Title
    Description := milestone.Description
    Deadline := milestone.DueDate
    State := milestoneState milestone.State }

/-- The range body of `migrateMilestones`. -/
def migrateMilestonesItem (w : Remote) (giteaOwner giteaRepo : String)
    (existing : GoMap GiteaMilestone) (_ : Unit) (milestone : GitlabMilestone) (t : Trace) :
    Outcome Unit :=
  if (existing.get? milestone.Title).isSome then some (.ok (), t)
  else
    let o := createMilestoneOption milestone
    let t1 := t ++ [Event.call (.CreateMilestone giteaOwner giteaRepo o)]
    match w.CreateMilestone t giteaOwner giteaRepo o with
    | .error e => some (.error e, t1)
    | .ok _ => some (.ok (), t1 ++ [Event.log .Info "Created milestone" [("title", o.Title)]])

/-- Source function `migrateMilestones`. -/
def migrateMilestones (fuel : Nat) (w : Remote) (gitlabProjectID : Int)
    (giteaOwner giteaRepo : String) (t : Trace) : Outcome Unit :=
  match giteaMilestones w giteaOwner giteaRepo t with
  | (.error e, t1) => some (.error e, t1)
  | (.ok existing, t1) =>
    forPages (migrateMilestonesList w gitlabProjectID)
      (migrateMilestonesItem w giteaOwner giteaRepo existing) fuel 1 () t1

/-- The listing request of `migrateLabels` for one page. -/
def migrateLabelsList (w : Remote) (gitlabProjectID : Int) (page : Nat) (t : Trace) :
    Except Err (List GitlabLabel) × Trace :=
  (w.ListLabels t gitlabProjectID page 100,
    t ++ [Event.call (.ListLabels gitlabProjectID page 100)])

/-- The option built by `migrateLabels` for a source label. -/
def createLabelOption (label : GitlabLabel) : CreateLabelOption :=
  { Name := label.Name, Description := label.Description, Color := label.Color }

/-- The range body of `migrateLabels`. -/
def migrateLabelsItem (w : Remote) (giteaOwner giteaRepo : String)
    (existing : GoMap GiteaLabel) (_ : Unit) (label : GitlabLabel) (t : Trace) :
    Outcome Unit :=
  if (existing.get? label.Name).isSome then some (.ok (), t)
  else
    let o := createLabelOption label
    let t1 := t ++ [Event.call (.CreateLabel giteaOwner giteaRepo o)]
    match w.CreateLabel t giteaOwner giteaRepo o with
    | .error e => some (.error e, t1)
    | .ok _ =>
      some (.ok (), t1 ++ [Event.log .Info "Created label" [("name", o.Name), ("color", o.Color)]])

/-- Source function `migrateLabels`. -/
def migrateLabels (fuel : Nat) (w : Remote) (gitlabProjectID : Int)
    (giteaOwner giteaRepo : String) (t : Trace) : Outcome Unit :=
  match giteaLabels w giteaOwner giteaRepo t with
  | (.error e, t1) => some (.error e, t1)
  | (.ok existing, t1) =>
    forPages (migrateLabelsList w gitlabProjectID)
      (migrateLabelsItem w giteaOwner giteaRepo existing) fuel 1 () t1

/-! ## Issues -/

/-- The milestone lookup of `migrateIssue`: the destination ID to attach (the zero
value `0` when nothing is attached) and the lines logged. -/
def resolveMilestone (giteaMilestones : GoMap GiteaMilestone) (issue : GitlabIssue) :
    Int × List Event :=
  match issue.Milestone with
  | none => (0, [])
  | some ms =>
    match giteaMilestones.get? ms.Title with
    | some milestone => (milestone.ID, [])
    | none => (0, [Event.log .Error "Unknown milestone" [("milestone", ms.Title)]])

/-- The label loop of `migrateIssue`: `o.Labels` after appending the ID of every
source label name found in the index, and the lines logged for the others. -/
def resolveLabels (giteaLabels : GoMap GiteaLabel) : List String → List Int × List Event
  | [] => ([], [])
  | l :: ls =>
    match giteaLabels.get? l with
    | some label => (label.ID :: (resolveLabels giteaLabels ls).1, (resolveLabels giteaLabels ls).2)
    | none =>
      ((resolveLabels giteaLabels ls).1,
        Event.log .Error "Unknown label" [("label", l)] :: (resolveLabels giteaLabels ls).2)

/-- The `gitea.CreateIssueOption` that `migrateIssue` holds in `o` after both
resolution steps. -/
def issueOption (giteaMilestones : GoMap GiteaMilestone) (giteaLabels : GoMap GiteaLabel)
    (issue : GitlabIssue) : CreateIssueOption :=
  { Title := issue.Title
    Body := issue.Description
    Deadline := issue.DueDate
    Milestone := (resolveMilestone giteaMilestones issue).1
    Labels := (resolveLabels giteaLabels issue.Labels).1 }

/-- The lines logged by `migrateIssue` during the two resolution steps, in order. -/
def issueLogs (giteaMilestones : GoMap GiteaMilestone) (giteaLabels : GoMap GiteaLabel)
    (issue : GitlabIssue) : List Event :=
  (resolveMilestone giteaMilestones issue).2 ++ (resolveLabels giteaLabels issue.Labels).2

/-- The `gitea.EditIssueOption` built by `migrateIssue` from `o` and the source state. -/
def editIssueOption (o : CreateIssueOption) (issue : GitlabIssue) : EditIssueOption :=
  { Title := o.Title
    Body := some o.Body
    Milestone := some o.Milestone
    Deadline := o.Deadline
    State := some (issueState issue.State) }

/-- Source function `migrateIssue`. -/
def migrateIssue (w : Remote) (giteaOwner giteaRepo : String) (issue : GitlabIssue)
    (giteaMilestones : GoMap GiteaMilestone) (giteaLabels : GoMap GiteaLabel)
    (giteaIssues : GoMap GiteaIssue) (t : Trace) : Except Err Unit × Trace :=
  let o := issueOption giteaMilestones giteaLabels issue
  let t1 := t ++ issueLogs giteaMilestones giteaLabels issue
  match giteaIssues.get? issue.Title with
  | none =>
    let t2 := t1 ++ [Event.call (.CreateIssue giteaOwner giteaRepo o)]
    match w.CreateIssue t1 giteaOwner giteaRepo o with
    | .error e => (.error e, t2)
    | .ok _ => (.ok (), t2 ++ [Event.log .Info "Created issue" [("title", o.Title)]])
  | some existing =>
    let editOptions := editIssueOption o issue
    let t2 := t1 ++ [Event.call (.EditIssue giteaOwner giteaRepo existing.Index editOptions)]
    match w.EditIssue t1 giteaOwner giteaRepo existing.Index editOptions with
    | .error e => (.error e, t2)
    | .ok _ =>
      let labelOptions : IssueLabelsOption := { Labels := o.Labels }
      let t3 := t2 ++
        [Event.call (.ReplaceIssueLabels giteaOwner giteaRepo existing.Index labelOptions)]
      match w.ReplaceIssueLabels t2 giteaOwner giteaRepo existing.Index labelOptions with
      | .error e => (.error e, t3)
      | .ok _ => (.ok (), t3 ++ [Event.log .Info "Updated issue" [("title", o.Title)]])

/-- The listing request of `migrateIssues` for one page. -/
def migrateIssuesList (w : Remote) (gitlabProjectID : Int) (page : Nat) (t : Trace) :
    Except Err (List GitlabIssue) × Trace :=
  (w.ListProjectIssues t gitlabProjectID page 100,
    t ++ [Event.call (.ListProjectIssues gitlabProjectID page 100)])

/-- The range body of `migrateIssues`. -/
def migrateIssuesItem (w : Remote) (giteaOwner giteaRepo : String)
    (giteaMilestones : GoMap GiteaMilestone) (giteaLabels : GoMap GiteaLabel)
    (giteaIssues : GoMap GiteaIssue) (_ : Unit) (issue : GitlabIssue) (t : Trace) :
    Outcome Unit :=
  some (migrateIssue w giteaOwner giteaRepo issue giteaMilestones giteaLabels giteaIssues t)

/-- Source function `migrateIssues`. -/
def migrateIssues (fuel : Nat) (w : Remote) (gitlabProjectID : Int)
    (giteaOwner giteaRepo : String) (t : Trace) : Outcome Unit :=
  match giteaIssues fuel w giteaOwner giteaRepo t with
  | none => none
  | some (.error e, t1) => some (.error e, t1)
  | some (.ok issues, t1) =>
    match giteaMilestones w giteaOwner giteaRepo t1 with
    | (.error e, t2) => some (.error e, t2)
    | (.ok milestones, t2) =>
      match giteaLabels w giteaOwner giteaRepo t2 with
      | (.error e, t3) => some (.error e, t3)
      | (.ok labels, t3) =>
        forPages (migrateIssuesList w gitlabProjectID)
          (migrateIssuesItem w giteaOwner giteaRepo milestones labels issues) fuel 1 () t3

/-! ## Per-repository sub-migration -/

/-- Source function `migrateProject`: milestones, then labels, then issues, each
error wrapped with the name of its phase. -/
def migrateProject (fuel : Nat) (w : Remote) (gitlabProjectID : Int)
    (giteaOwner giteaRepo : String) (t : Trace) : Outcome Unit :=
  match migrateMilestones fuel w gitlabProjectID giteaOwner giteaRepo
      (t ++ [Event.log .Info "Migrating milestones" []]) with
  | none => none
  | some (.error e, t1) => some (.error ("migrating milestones: " ++ e), t1)
  | some (.ok _, t1) =>
    match migrateLabels fuel w gitlabProjectID giteaOwner giteaRepo
        (t1 ++ [Event.log .Info "Migrating labels" []]) with
    | none => none
    | some (.error e, t2) => some (.error ("migrating labels: " ++ e), t2)
    | some (.ok _, t2) =>
      match migrateIssues fuel w gitlabProjectID giteaOwner giteaRepo
          (t2 ++ [Event.log .Info "Migrating issues" []]) with
      | none => none
      | some (.error e, t3) => some (.error ("migrating issues: " ++ e), t3)
      | some (.ok _, t3) => some (.ok (), t3)

/-! ## Users, organizations, repositories -/

/-- The listing request of `migrateUsers` for one page. -/
def migrateUsersList (w : Remote) (page : Nat) (t : Trace) :
    Except Err (List GitlabUser) × Trace :=
  (w.ListUsers t page 100, t ++ [Event.call (.ListUsers page 100)])

/-- The option built by `migrateUsers` for a source user. -/
def createUserOption (user : GitlabUser) : CreateUserOption :=
  { SourceID := 0
    Email := user.Email
    Username := user.Username
    FullName := user.Name
    Password := "FD12345678"
    MustChangePassword := some true
    Visibility := some VisibleTypePublic }

/-- The range body of `migrateUsers`; the state is `m.userCache`. -/
def migrateUsersItem (w : Remote) (userCache : GoMap String) (user : GitlabUser) (t : Trace) :
    Outcome (GoMap String) :=
  let userCache := userCache.set user.Username user.Username
  if user.Username = "ghost" then some (.ok userCache, t)
  else
    let t1 := t ++ [Event.log .Info "Migrating user" [("username", user.Username)]]
    let t2 := t1 ++ [Event.call (.GetUserInfo user.Username)]
    match w.GetUserInfo t1 user.Username with
    | .ok _ =>
      some (.ok userCache,
        t2 ++ [Event.log .Info "Skipping user, already exists" [("username", user.Username)]])
    | .error _ =>
      let o := createUserOption user
      let t3 := t2 ++ [Event.call (.AdminCreateUser o)]
      match w.AdminCreateUser t2 o with
      | .error e => some (.error e, t3)
      | .ok giteaUser =>
        some (.ok userCache,
          t3 ++ [Event.log .Info "Created user" [("username", giteaUser.UserName)]])

/-- Source function `migrateUsers`, from the user cache held by the migrator. -/
def migrateUsers (fuel : Nat) (w : Remote) (userCache : GoMap String) (t : Trace) :
    Outcome (GoMap String) :=
  forPages (migrateUsersList w) (migrateUsersItem w) fuel 1 userCache t

/-- The listing request of `migrateOrgs` for one page (`AllAvailable` is true). -/
def migrateOrgsList (w : Remote) (page : Nat) (t : Trace) :
    Except Err (List GitlabGroup) × Trace :=
  (w.ListGroups t page 100 true, t ++ [Event.call (.ListGroups page 100 true)])

/-- The organization name derived by `migrateOrgs`:
`strings.ReplaceAll(org.FullPath, "/", "_")`. -/
def orgPath (org : GitlabGroup) : String := ReplaceAll org.FullPath "/" "_"

/-- The option built by `migrateOrgs` for a source group. -/
def createOrgOption (org : GitlabGroup) : CreateOrgOption :=
  { Name := orgPath org
    FullName := org.Name
    Description := org.Description
    Website := org.WebURL
    Visibility := VisibleTypePublic
    RepoAdminChangeTeamAccess := true }

/-- The range body of `migrateOrgs`. -/
def migrateOrgsItem (w : Remote) (args : Arguments) (_ : Unit) (org : GitlabGroup) (t : Trace) :
    Outcome Unit :=
  let path := orgPath org
  let t1 := t ++ [Event.log .Info "Migrating org" [("org", path)]]
  let t2 := t1 ++ [Event.call (.GetOrg path)]
  match w.GetOrg t1 path with
  | .ok _ => some (.ok (), t2 ++ [Event.log .Info "Skipping org, already exists" [("org", path)]])
  | .error _ =>
    let o := createOrgOption org
    let t3 := t2 ++ [Event.call (.AdminCreateOrg args.GiteaAdmin o)]
    match w.AdminCreateOrg t2 args.GiteaAdmin o with
    | .error e => some (.error e, t3)
    | .ok _ => some (.ok (), t3 ++ [Event.log .Info "Created org" [("orgname", org.Name)]])

/-- Source function `migrateOrgs`. -/
def migrateOrgs (fuel : Nat) (w : Remote) (args : Arguments) (t : Trace) : Outcome Unit :=
  forPages (migrateOrgsList w) (migrateOrgsItem w args) fuel 1 () t

/-- The listing request of `migrateRepo` for one page. -/
def migrateRepoList (w : Remote) (page : Nat) (t : Trace) :
    Except Err (List GitlabProject) × Trace :=
  (w.ListProjects t page 100, t ++ [Event.call (.ListProjects page 100)])

/-- The repository owner derived by `migrateRepo`:
`strings.ReplaceAll(repo.Namespace.FullPath, "/", "_")`. -/
def repoOwner (repo : GitlabProject) : String := ReplaceAll repo.Namespace.FullPath "/" "_"

/-- The mirror-import option built by `migrateRepo` for a source repository. -/
def migrateRepoOption (args : Arguments) (repo : GitlabProject) : MigrateRepoOption :=
  { CloneAddr := repo.HTTPURLToRepo
    RepoName := repo.Path
    Service := GitServiceGitlab
    AuthToken := args.GitlabToken
    Mirror := true
    Private := true
    Labels := true
    Issues := true
    Wiki := true
    Milestones := true
    PullRequests := true
    Releases := true
    Description := repo.Description
    MirrorInterval := "20m"
    RepoOwner := repoOwner repo }

/-- The tail of the range body of `migrateRepo`: the sub-migration, whose error is
printed and not returned.  The value printed is the outer `err` of the listing
call, which is nil at this point. -/
def migrateRepoSub (fuel : Nat) (w : Remote) (repo : GitlabProject) (t : Trace) : Outcome Unit :=
  match migrateProject fuel w repo.ID (repoOwner repo) repo.Path t with
  | none => none
  | some (.error _, t1) => some (.ok (), t1 ++ [Event.print "迁移repo额外数据失败: <nil> \n"])
  | some (.ok _, t1) => some (.ok (), t1)

/-- The head of the range body of `migrateRepo`: the existence check and, when it
fails, the mirror-import request. -/
def migrateRepoCreate (w : Remote) (args : Arguments) (repo : GitlabProject) (t : Trace) :
    Except Err Unit × Trace :=
  let name := repoOwner repo ++ "/" ++ repo.Path
  let t1 := t ++ [Event.log .Info "Migrating repo" [("repo", name)]]
  let t2 := t1 ++ [Event.call (.GetRepo (repoOwner repo) repo.Path)]
  match w.GetRepo t1 (repoOwner repo) repo.Path with
  | .ok _ => (.ok (), t2 ++ [Event.log .Info "Skipping repo, already exists" [("repo", name)]])
  | .error _ =>
    let o := migrateRepoOption args repo
    let t3 := t2 ++ [Event.call (.MigrateRepo o)]
    match w.MigrateRepo t2 o with
    | .error e => (.error e, t3)
    | .ok _ => (.ok (), t3)

/-- The range body of `migrateRepo`: `return err` when the import fails, else the
sub-migration. -/
def migrateRepoItem (fuel : Nat) (w : Remote) (args : Arguments) (_ : Unit)
    (repo : GitlabProject) (t : Trace) : Outcome Unit :=
  match migrateRepoCreate w args repo t with
  | (.error e, t3) => some (.error e, t3)
  | (.ok _, t3) => migrateRepoSub fuel w repo t3

/-- Source function `migrateRepo`. -/
def migrateRepo (fuel : Nat) (w : Remote) (args : Arguments) (t : Trace) : Outcome Unit :=
  forPages (migrateRepoList w) (migrateRepoItem fuel w args) fuel 1 () t

/-! ## Destination models and example worlds -/

/-- The character map that sends the path separator to an underscore. -/
def slashToUnderscore (c : Char) : Char := if c = '/' then '_' else c

/-- A remote in which every request succeeds and every listing is empty. -/
def quietRemote : Remote where
  ListUsers := fun _ _ _ => .ok []
  ListGroups := fun _ _ _ _ => .ok []
  ListProjects := fun _ _ _ => .ok []
  ListMilestones := fun _ _ _ _ _ => .ok []
  ListLabels := fun _ _ _ _ => .ok []
  ListProjectIssues := fun _ _ _ _ => .ok []
  GetUserInfo := fun _ _ => .ok ()
  AdminCreateUser := fun _ o => .ok ⟨o.Username⟩
  GetOrg := fun _ _ => .ok ()
  AdminCreateOrg := fun _ _ _ => .ok ()
  GetRepo := fun _ _ _ => .ok ()
  MigrateRepo := fun _ _ => .ok ()
  ListRepoMilestones := fun _ _ _ _ => .ok []
  ListRepoLabels := fun _ _ _ _ => .ok []
  ListRepoIssues := fun _ _ _ _ => .ok []
  CreateMilestone := fun _ _ _ _ => .ok ()
  CreateLabel := fun _ _ _ _ => .ok ()
  CreateIssue := fun _ _ _ _ => .ok ()
  EditIssue := fun _ _ _ _ _ => .ok ()
  ReplaceIssueLabels := fun _ _ _ _ _ => .ok ()

/-- Whether an event is a `CreateIssue` request. -/
def Event.isCreateIssue : Event → Bool
  | .call (.CreateIssue _ _ _) => true
  | _ => false

/-- Whether an event is a `ReplaceIssueLabels` request. -/
def Event.isReplaceIssueLabels : Event → Bool
  | .call (.ReplaceIssueLabels _ _ _ _) => true
  | _ => false

/-- Whether an event is a logger line of the given level and message. -/
def Event.isLog (level : Level) (msg : String) : Event → Bool
  | .log l m _ => decide (l = level ∧ m = msg)
  | _ => false

/-- Destination model of an issue's label set: going through the events `evs` that
follow the history `h`, a `ReplaceIssueLabels` request on the issue that the remote
accepts sets the label set to the request's list; a refused request and every other
event leave it as it is. -/
def issueLabelsAfter (w : Remote) (owner repo : String) (index : Int) :
    Trace → List Int → List Event → List Int
  | _, current, [] => current
  | h, current, e :: evs =>
    issueLabelsAfter w owner repo index (h ++ [e])
      (match e with
        | .call (.ReplaceIssueLabels o r i opt) =>
          if o = owner ∧ r = repo ∧ i = index ∧ (w.ReplaceIssueLabels h o r i opt).isOk = true
          then opt.Labels else current
        | _ => current) evs

/-- A source issue titled "bug" that refers to the milestone "v1" and carries the
labels "B", "C" and "Z". -/
def sampleIssue : GitlabIssue :=
  { Title := "bug", Description := "text", DueDate := none,
    Milestone := some { Title := "v1", Description := "", DueDate := none, State := "active" },
    Labels := ["B", "C", "Z"], State := "opened" }

/-- A destination label index with the labels A, B and C (IDs 1, 2 and 3). -/
def sampleLabels : GoMap GiteaLabel :=
  [("A", ⟨1, "A", "", ""⟩), ("B", ⟨2, "B", "", ""⟩), ("C", ⟨3, "C", "", ""⟩)]

/-- A destination issue index in which "bug" is issue 7, currently labelled A and B. -/
def sampleIssues : GoMap GiteaIssue := [("bug", ⟨7, "bug", "old", "open", [1, 2], 0⟩)]

/-- A remote whose `EditIssue` request always fails. -/
def editFailsRemote : Remote :=
  { quietRemote with EditIssue := fun _ _ _ _ _ => .error "edit refused" }

/-- The classifier of events that is `k` on requests and false on log and print lines. -/
def onCalls (k : Call → Bool) : Event → Bool
  | .call c => k c
  | _ => false

/-- Whether a request is a listing request to the source service. -/
def Call.isSourceList : Call → Bool
  | .ListUsers _ _ => true
  | .ListGroups _ _ _ => true
  | .ListProjects _ _ => true
  | .ListMilestones _ _ _ _ => true
  | .ListLabels _ _ _ => true
  | .ListProjectIssues _ _ _ => true
  | _ => false

/-- Whether a request is a `MigrateRepo` request. -/
def Call.isMigrateRepo : Call → Bool
  | .MigrateRepo _ => true
  | _ => false

/-- Whether a request is one of those issued by the repository loop itself:
`ListProjects`, `GetRepo` or `MigrateRepo`. -/
def Call.isRepoLevel : Call → Bool
  | .ListProjects _ _ => true
  | .GetRepo _ _ => true
  | .MigrateRepo _ => true
  | _ => false

/-- Whether a request is a source listing or a request of the repository loop. -/
def Call.isOuter (c : Call) : Bool := c.isSourceList || c.isRepoLevel

/-- The history `t1` extends the history `t` by events on which the classifier `q`
is false. -/
abbrev Ext (q : Event → Bool) (t t1 : Trace) : Prop :=
  ∃ evs : List Event, t1 = t ++ evs ∧ ∀ e ∈ evs, q e = false

/-- An outcome, if there is one, extends the history `t` by events on which the
classifier `q` is false. -/
def Avoids {σ : Type} (q : Event → Bool) (t : Trace) (o : Outcome σ) : Prop :=
  ∀ r t1, o = some (r, t1) → Ext q t t1

/-- A collection served in pages: pages `1..n` are non-empty and page `n + 1` is empty. -/
def ServedInPages {α : Type} (coll : Nat → List α) (n : Nat) : Prop :=
  (∀ p, 1 ≤ p → p ≤ n → coll p ≠ []) ∧ coll (n + 1) = []

/-- Reference run of a pager over a known collection: request page `page`, process
its items in order with the loop body, go on with the next page, `n` times; then
request one more page and return.  A body error stops the run. -/
def consumePages {σ α : Type} (list : Nat → Trace → Except Err (List α) × Trace)
    (body : σ → α → Trace → Outcome σ) (coll : Nat → List α) :
    Nat → Nat → σ → Trace → Outcome σ
  | 0, page, acc, t => some (.ok acc, (list page t).2)
  | n + 1, page, acc, t =>
    match forRange body (coll page) acc (list page t).2 with
    | some (.ok acc1, t1) => consumePages list body coll n (page + 1) acc1 t1
    | r => r

/-- The expected observation of a pager run over `n` non-empty pages starting at
`page`: what the request for a page contributes, then what each item of that page
contributes, in order, page after page, and finally what the request for the page
after the last contributes. -/
def pagedRun {α : Type} (req : Nat → List Event) (contrib : α → List Event)
    (coll : Nat → List α) : Nat → Nat → List Event
  | 0, page => req page
  | n + 1, page =>
    req page ++ (coll page).flatMap contrib ++ pagedRun req contrib coll n (page + 1)

/-- The items of the `n` pages of a collection that start at `page`, in order. -/
def pagesFrom {α : Type} (coll : Nat → List α) : Nat → Nat → List α
  | 0, _ => []
  | n + 1, page => coll page ++ pagesFrom coll n (page + 1)

/-- Two source repositories under the namespace "grp/sub". -/
def repoA : GitlabProject :=
  { ID := 1, Path := "a", Namespace := ⟨"grp/sub"⟩, HTTPURLToRepo := "http://src/a.git",
    Description := "first" }

/-- The second sample repository. -/
def repoB : GitlabProject :=
  { ID := 2, Path := "b", Namespace := ⟨"grp/sub"⟩, HTTPURLToRepo := "http://src/b.git",
    Description := "second" }

/-- A remote with the two sample repositories on page 1, both already present at the
destination, and whose destination milestone listing always fails, so that every
sub-migration fails in its first phase. -/
def subFailsRemote : Remote :=
  { quietRemote with
    ListProjects := fun _ page _ => if page = 1 then .ok [repoA, repoB] else .ok []
    ListRepoMilestones := fun _ _ _ _ => .error "boom" }

/-- A remote with the two sample repositories on page 1, none present at the
destination, and whose mirror-import request always fails. -/
def importFailsRemote : Remote :=
  { quietRemote with
    ListProjects := fun _ page _ => if page = 1 then .ok [repoA, repoB] else .ok []
    GetRepo := fun _ _ _ => .error "not found"
    MigrateRepo := fun _ _ => .error "import refused" }

/-- Sample command line arguments. -/
def sampleArgs : Arguments := { GitlabToken := "tok", GiteaAdmin := "icepie" }

/-- The first sample destination label. -/
def labelOne : GiteaLabel := { ID := 1, Name := "one", Color := "", Description := "" }

/-- The second sample destination label. -/
def labelTwo : GiteaLabel := { ID := 2, Name := "two", Color := "", Description := "" }

/-- The first sample destination milestone. -/
def milestoneOne : GiteaMilestone :=
  { ID := 1, Title := "one", Description := "", State := "open", Deadline := none }

/-- The second sample destination milestone. -/
def milestoneTwo : GiteaMilestone :=
  { ID := 2, Title := "two", Description := "", State := "open", Deadline := none }

/-- The first sample destination issue. -/
def issueOne : GiteaIssue :=
  { Index := 1, Title := "one", Body := "", State := "open", Labels := [], Milestone := 0 }

/-- The second sample destination issue. -/
def issueTwo : GiteaIssue :=
  { Index := 2, Title := "two", Body := "", State := "open", Labels := [], Milestone := 0 }

/-- The page of a collection that a Gitea listing request with page option `page`
is served: the SDK turns the zero value of the page option into page 1. -/
def servedPage (page : Nat) : Nat := if page = 0 then 1 else page

/-- A destination whose labels, milestones and issues are each served in two
non-empty pages (one entity per page) followed by an empty page. -/
def twoPageRemote : Remote :=
  { quietRemote with
    ListRepoLabels := fun _ _ _ opt =>
      if servedPage opt.Page = 1 then .ok [labelOne]
      else if servedPage opt.Page = 2 then .ok [labelTwo] else .ok []
    ListRepoMilestones := fun _ _ _ opt =>
      if servedPage opt.Page = 1 then .ok [milestoneOne]
      else if servedPage opt.Page = 2 then .ok [milestoneTwo] else .ok []
    ListRepoIssues := fun _ _ _ opt =>
      if servedPage opt.Page = 1 then .ok [issueOne]
      else if servedPage opt.Page = 2 then .ok [issueTwo] else .ok [] }

/-- The requests that show the progress of `migrateUsers`: page requests and
existence checks. -/
def Call.isUserStep : Call → Bool
  | .ListUsers _ _ => true
  | .GetUserInfo _ => true
  | _ => false

/-- The requests that show the progress of `migrateOrgs`. -/
def Call.isOrgStep : Call → Bool
  | .ListGroups _ _ _ => true
  | .GetOrg _ => true
  | _ => false

/-- The requests that show the progress of `migrateRepo`. -/
def Call.isRepoStep : Call → Bool
  | .ListProjects _ _ => true
  | .GetRepo _ _ => true
  | _ => false

/-- The requests that show the progress of `migrateMilestones`: page requests and
creations. -/
def Call.isMilestoneStep : Call → Bool
  | .ListMilestones _ _ _ _ => true
  | .CreateMilestone _ _ _ => true
  | _ => false

/-- The requests that show the progress of `migrateLabels`. -/
def Call.isLabelStep : Call → Bool
  | .ListLabels _ _ _ => true
  | .CreateLabel _ _ _ => true
  | _ => false

/-- The requests that show the progress of `migrateIssues`: page requests,
creations and edits. -/
def Call.isIssueStep : Call → Bool
  | .ListProjectIssues _ _ _ => true
  | .CreateIssue _ _ _ => true
  | .EditIssue _ _ _ _ => true
  | _ => false

/-- The one write request that `migrateIssue` starts with for a source issue:
`CreateIssue` when the title is absent from the issue index, else `EditIssue` on the
indexed destination issue. -/
def issueRequest (giteaOwner giteaRepo : String) (giteaMilestones : GoMap GiteaMilestone)
    (giteaLabels : GoMap GiteaLabel) (giteaIssues : GoMap GiteaIssue) (issue : GitlabIssue) :
    Event :=
  match giteaIssues.get? issue.Title with
  | none =>
    Event.call (.CreateIssue giteaOwner giteaRepo (issueOption giteaMilestones giteaLabels issue))
  | some existing =>
    Event.call (.EditIssue giteaOwner giteaRepo existing.Index
      (editIssueOption (issueOption giteaMilestones giteaLabels issue) issue))

/-- The listing requests of `giteaIssues` for the pages `page, ..., page + n`. -/
def issuePageCalls (giteaOwner giteaRepo : String) : Nat → Nat → List Event
  | 0, page => [Event.call (.ListRepoIssues giteaOwner giteaRepo ⟨page, "all"⟩)]
  | n + 1, page =>
    Event.call (.ListRepoIssues giteaOwner giteaRepo ⟨page, "all"⟩) ::
      issuePageCalls giteaOwner giteaRepo n (page + 1)

/-- A sample source user. -/
def sampleUser : GitlabUser := { Username := "ann", Email := "ann@example.org", Name := "Ann" }

/-- A sample source group. -/
def sampleGroup : GitlabGroup :=
  { FullPath := "grp/sub", Name := "Sub", Description := "", WebURL := "http://src/grp/sub" }

/-- A sample source milestone. -/
def sampleMilestone : GitlabMilestone :=
  { Title := "v1", Description := "", DueDate := none, State := "active" }

/-- A sample source label. -/
def sampleLabel : GitlabLabel := { Name := "B", Description := "", Color := "#ff0000" }

/-- The collection with the single item `x` on page 1 and nothing after. -/
def onePage {α : Type} (x : α) (page : Nat) : List α := if page = 1 then [x] else []

/-- A remote whose every source collection has one item on page 1 and an empty
page 2, and whose destination is empty and accepts every request. -/
def onePageRemote : Remote :=
  { quietRemote with
    ListUsers := fun _ page _ => .ok (onePage sampleUser page)
    ListGroups := fun _ page _ _ => .ok (onePage sampleGroup page)
    ListProjects := fun _ page _ => .ok (onePage repoA page)
    ListMilestones := fun _ _ page _ _ => .ok (onePage sampleMilestone page)
    ListLabels := fun _ _ page _ => .ok (onePage sampleLabel page)
    ListProjectIssues := fun _ _ page _ => .ok (onePage sampleIssue page) }

/-- Whether a request is a `CreateLabel` or a `CreateMilestone` request. -/
def Call.isCreate : Call → Bool
  | .CreateLabel _ _ _ => true
  | .CreateMilestone _ _ _ => true
  | _ => false

/-- The options of the `CreateLabel` requests on the repository `owner/repo` that a
history records, oldest first. -/
def createdLabels (owner repo : String) (t : Trace) : List CreateLabelOption :=
  t.filterMap (fun e =>
    match e with
    | .call (.CreateLabel o r opt) => if o = owner ∧ r = repo then some opt else none
    | _ => none)

/-- The options of the `CreateMilestone` requests on the repository `owner/repo`
that a history records, oldest first. -/
def createdMilestones (owner repo : String) (t : Trace) : List CreateMilestoneOption :=
  t.filterMap (fun e =>
    match e with
    | .call (.CreateMilestone o r opt) => if o = owner ∧ r = repo then some opt else none
    | _ => none)

/-- The destination labels made from creation options, with IDs counted up from `id`. -/
def numberLabels : Int → List CreateLabelOption → List GiteaLabel
  | _, [] => []
  | id, o :: os =>
    { ID := id, Name := o.Name, Color := o.Color, Description := o.Description } ::
      numberLabels (id + 1) os

/-- The destination milestones made from creation options, with IDs counted up from
`id`. -/
def numberMilestones : Int → List CreateMilestoneOption → List GiteaMilestone
  | _, [] => []
  | id, o :: os =>
    { ID := id, Title := o.Title, Description := o.Description, State := o.State,
      Deadline := o.Deadline } :: numberMilestones (id + 1) os

/-- Destination model: the labels of a repository after a history are its initial
labels followed by one label for every `CreateLabel` request on it. -/
def repoLabels (init : List GiteaLabel) (owner repo : String) (t : Trace) : List GiteaLabel :=
  init ++ numberLabels (init.length + 1) (createdLabels owner repo t)

/-- Destination model: the milestones of a repository after a history are its
initial milestones followed by one milestone for every `CreateMilestone` request
on it. -/
def repoMilestones (init : List GiteaMilestone) (owner repo : String) (t : Trace) :
    List GiteaMilestone :=
  init ++ numberMilestones (init.length + 1) (createdMilestones owner repo t)

/-- The model remote of the create-only reconcilers: the source is a fixed snapshot
(`srcLabels pid page`, `srcMilestones pid page` are the replies to the page
requests), `CreateLabel` and `CreateMilestone` succeed and add the entity to the
repository, and the destination listings return the repository's entities. -/
def modelRemote (srcLabels : Int → Nat → Except Err (List GitlabLabel))
    (srcMilestones : Int → Nat → Except Err (List GitlabMilestone))
    (initLabels : String → String → List GiteaLabel)
    (initMilestones : String → String → List GiteaMilestone) : Remote :=
  { quietRemote with
    ListLabels := fun _ pid page _ => srcLabels pid page
    ListMilestones := fun _ pid page _ _ => srcMilestones pid page
    ListRepoLabels := fun t owner repo _ => .ok (repoLabels (initLabels owner repo) owner repo t)
    ListRepoMilestones := fun t owner repo _ =>
      .ok (repoMilestones (initMilestones owner repo) owner repo t)
    CreateLabel := fun _ _ _ _ => .ok ()
    CreateMilestone := fun _ _ _ _ => .ok () }

/-- Whether a request is a `CreateLabel` with the name `k`. -/
def Call.isLabelNamed (k : String) : Call → Bool
  | .CreateLabel _ _ opt => decide (opt.Name = k)
  | _ => false

/-- Whether a request is a `CreateMilestone` with the title `k`. -/
def Call.isMilestoneTitled (k : String) : Call → Bool
  | .CreateMilestone _ _ opt => decide (opt.Title = k)
  | _ => false

/-- Whether a request is a `CreateIssue` or an `EditIssue` with the title `k`. -/
def Call.isIssueTitled (k : String) : Call → Bool
  | .CreateIssue _ _ opt => decide (opt.Title = k)
  | .EditIssue _ _ _ opt => decide (opt.Title = k)
  | _ => false

/-- The options of the `CreateIssue` requests on the repository `owner/repo` that a
history records, oldest first; in a destination model where create adds an issue,
these are the issues the run added. -/
def createdIssues (owner repo : String) (t : Trace) : List CreateIssueOption :=
  t.filterMap (fun e =>
    match e with
    | .call (.CreateIssue o r opt) => if o = owner ∧ r = repo then some opt else none
    | _ => none)

/-- A source issue titled "dup". -/
def dupIssueOne : GitlabIssue :=
  { Title := "dup", Description := "first", DueDate := none, Milestone := none, Labels := [],
    State := "opened" }

/-- Another source issue with the same title "dup". -/
def dupIssueTwo : GitlabIssue :=
  { Title := "dup", Description := "second", DueDate := none, Milestone := none, Labels := [],
    State := "opened" }

/-- The source labels of the sample repository: two labels named "dup" on page 1. -/
def dupLabelPages (page : Nat) : List GitlabLabel :=
  if page = 1 then [⟨"dup", "first", "#111111"⟩, ⟨"dup", "second", "#222222"⟩] else []

/-- The source milestones of the sample repository: two milestones titled "dup" on
page 1. -/
def dupMilestonePages (page : Nat) : List GitlabMilestone :=
  if page = 1 then [⟨"dup", "first", none, "active"⟩, ⟨"dup", "second", none, "active"⟩]
  else []

/-- The source issues of the sample repository: two issues titled "dup" on page 1. -/
def dupIssuePages (page : Nat) : List GitlabIssue :=
  if page = 1 then [dupIssueOne, dupIssueTwo] else []

/-- The model remote with the duplicate-key source inventory and an empty
destination. -/
def dupRemote : Remote :=
  { modelRemote (fun _ page => .ok (dupLabelPages page))
      (fun _ page => .ok (dupMilestonePages page)) (fun _ _ => []) (fun _ _ => []) with
    ListProjectIssues := fun _ _ page _ => .ok (dupIssuePages page) }

/-- The property `P` holds of every invocation of the loop body in the run of
`forRange` over `xs` from `(acc, t)`, each taken at the state and the history with
which the run reaches it. -/
def EachStep {σ α : Type} (body : σ → α → Trace → Outcome σ) (P : σ → α → Trace → Prop) :
    List α → σ → Trace → Prop
  | [], _, _ => True
  | x :: xs, acc, t =>
    P acc x t ∧ ∀ acc1 t1, body acc x t = some (.ok acc1, t1) → EachStep body P xs acc1 t1

/-- The property `P` holds of every invocation of the loop body in the run of a
pager over the `n` pages of `coll` that start at `page`, each taken at the state and
the history with which the run reaches it. -/
def EachPage {σ α : Type} (list : Nat → Trace → Except Err (List α) × Trace)
    (body : σ → α → Trace → Outcome σ) (coll : Nat → List α) (P : σ → α → Trace → Prop) :
    Nat → Nat → σ → Trace → Prop
  | 0, _, _, _ => True
  | n + 1, page, acc, t =>
    EachStep body P (coll page) acc (list page t).2 ∧
    ∀ acc1 t1, forRange body (coll page) acc (list page t).2 = some (.ok acc1, t1) →
      EachPage list body coll P n (page + 1) acc1 t1

/-- The sub-migration that the loop body of `migrateRepo` starts for `repo`, when
the body is entered with the history `t`, returns (with success or with an error)
within the fuel. -/
def SubMigrationReturns (fuel : Nat) (w : Remote) (args : Arguments) (_ : Unit)
    (repo : GitlabProject) (t : Trace) : Prop :=
  (migrateProject fuel w repo.ID (repoOwner repo) repo.Path
    (migrateRepoCreate w args repo t).2).isSome = true

/-- The destination issues made from creation options, with indexes counted up
from `id`. -/
def numberIssues : Int → List CreateIssueOption → List GiteaIssue
  | _, [] => []
  | id, o :: os =>
    { Index := id, Title := o.Title, Body := o.Body, State := "open", Labels := o.Labels,
      Milestone := o.Milestone } :: numberIssues (id + 1) os

/-- Destination model that lists created issues: page `page` of the issues of a
repository after a history holds the `page`-th issue created on it, one issue per
page. -/
def listedIssues (owner repo : String) (t : Trace) (page : Nat) : List GiteaIssue :=
  ((numberIssues 1 (createdIssues owner repo t)).drop (page - 1)).take 1

/-- The one-item source of `onePageRemote` with a destination that lists the issues
created so far, one per page; the longer the history of creations, the more pages
its issue listing has. -/
def listingRemote : Remote :=
  { onePageRemote with
    ListRepoIssues := fun t owner repo opt => .ok (listedIssues owner repo t opt.Page) }

/-- The duplicate-key source of `dupRemote` with a destination that lists the issues
created so far, one per page. -/
def dupListingRemote : Remote :=
  { dupRemote with
    ListRepoIssues := fun t owner repo opt => .ok (listedIssues owner repo t opt.Page) }

/-- No remote error in the body of `migrateUsers` for the user `x` entered with the
history `t`: the `AdminCreateUser` request, which the body issues when the user is
not the ghost and the existence check fails, is accepted. -/
def UserWritesOk (w : Remote) (_ : GoMap String) (x : GitlabUser) (t : Trace) : Prop :=
  x.Username ≠ "ghost" →
  (w.GetUserInfo (t ++ [Event.log .Info "Migrating user" [("username", x.Username)]])
    x.Username).isOk = false →
  (w.AdminCreateUser
    (t ++ [Event.log .Info "Migrating user" [("username", x.Username)]] ++
      [Event.call (.GetUserInfo x.Username)]) (createUserOption x)).isOk = true

/-- No remote error in the body of `migrateOrgs` for the group `x` entered with the
history `t`: the `AdminCreateOrg` request, issued when the existence check fails, is
accepted. -/
def OrgWritesOk (w : Remote) (args : Arguments) (_ : Unit) (x : GitlabGroup) (t : Trace) :
    Prop :=
  (w.GetOrg (t ++ [Event.log .Info "Migrating org" [("org", orgPath x)]])
    (orgPath x)).isOk = false →
  (w.AdminCreateOrg
    (t ++ [Event.log .Info "Migrating org" [("org", orgPath x)]] ++
      [Event.call (.GetOrg (orgPath x))]) args.GiteaAdmin (createOrgOption x)).isOk = true

/-- No remote error in the body of `migrateRepo` for the repository `x` entered with
the history `t`: the `MigrateRepo` request, issued when the existence check fails,
is accepted. -/
def ImportOk (w : Remote) (args : Arguments) (x : GitlabProject) (t : Trace) : Prop :=
  (w.GetRepo (t ++ [Event.log .Info "Migrating repo"
    [("repo", repoOwner x ++ "/" ++ x.Path)]]) (repoOwner x) x.Path).isOk = false →
  (w.MigrateRepo
    (t ++ [Event.log .Info "Migrating repo" [("repo", repoOwner x ++ "/" ++ x.Path)]] ++
      [Event.call (.GetRepo (repoOwner x) x.Path)]) (migrateRepoOption args x)).isOk = true

/-- The body of `migrateRepo` for `x` entered with the history `t` meets no remote
error of its own and its sub-migration returns. -/
def RepoStepOk (fuel : Nat) (w : Remote) (args : Arguments) (u : Unit) (x : GitlabProject)
    (t : Trace) : Prop :=
  ImportOk w args x t ∧ SubMigrationReturns fuel w args u x t

/-- No remote error in the body of `migrateMilestones` for the milestone `x` entered
with the history `t`: the `CreateMilestone` request, issued when the title is absent
from the index, is accepted. -/
def MilestoneWritesOk (w : Remote) (o r : String) (existing : GoMap GiteaMilestone) (_ : Unit)
    (x : GitlabMilestone) (t : Trace) : Prop :=
  (existing.get? x.Title).isSome = false →
  (w.CreateMilestone t o r (createMilestoneOption x)).isOk = true

/-- No remote error in the body of `migrateLabels` for the label `x` entered with
the history `t`: the `CreateLabel` request, issued when the name is absent from the
index, is accepted. -/
def LabelWritesOk (w : Remote) (o r : String) (existing : GoMap GiteaLabel) (_ : Unit)
    (x : GitlabLabel) (t : Trace) : Prop :=
  (existing.get? x.Name).isSome = false →
  (w.CreateLabel t o r (createLabelOption x)).isOk = true

/-- No remote error in `migrateIssue` for the issue `x` entered with the history
`t`: the `CreateIssue` request, issued when the title is absent from the issue
index, is accepted; when the title is present, the `EditIssue` request and the
`ReplaceIssueLabels` request that follows it are accepted. -/
def IssueWritesOk (w : Remote) (o r : String) (ms : GoMap GiteaMilestone)
    (ls : GoMap GiteaLabel) (is : GoMap GiteaIssue) (_ : Unit) (x : GitlabIssue) (t : Trace) :
    Prop :=
  match is.get? x.Title with
  | none => (w.CreateIssue (t ++ issueLogs ms ls x) o r (issueOption ms ls x)).isOk = true
  | some ex =>
    (w.EditIssue (t ++ issueLogs ms ls x) o r ex.Index
      (editIssueOption (issueOption ms ls x) x)).isOk = true ∧
    (w.ReplaceIssueLabels
      (t ++ issueLogs ms ls x ++
        [Event.call (.EditIssue o r ex.Index (editIssueOption (issueOption ms ls x) x))])
      o r ex.Index ⟨(issueOption ms ls x).Labels⟩).isOk = true

/-! ## General lemmas -/

theorem replaceChars_slash (n : Nat) (l : List Char) (h : l.length ≤ n) :
    replaceChars ['/'] ['_'] n l = l.map slashToUnderscore := by
  induction n generalizing l with
  | zero =>
    have : l = [] := List.length_eq_zero.mp (Nat.le_zero.mp h)
    subst this; rfl
  | succ n ih =>
    cases l with
    | nil => rfl
    | cons c cs =>
      have hcs : cs.length ≤ n := by simpa using h
      by_cases hc : c = '/'
      · subst hc
        simp [replaceChars, slashToUnderscore, ih cs hcs]
      · simp [replaceChars, slashToUnderscore, ih cs hcs, hc]

theorem ReplaceAll_slash (s : String) :
    ReplaceAll s "/" "_" = String.mk (s.data.map slashToUnderscore) := by
  have h1 : ("/" : String).data = ['/'] := rfl
  have h2 : ("_" : String).data = ['_'] := rfl
  simp only [ReplaceAll, h1, h2]
  rw [if_neg (by simp)]
  rw [replaceChars_slash _ _ (le_refl _)]

theorem slash_not_mem_map (l : List Char) : '/' ∉ l.map slashToUnderscore := by
  intro h
  obtain ⟨c, _, hc⟩ := List.mem_map.mp h
  unfold slashToUnderscore at hc
  split at hc
  · exact absurd hc (by decide)
  · next hne => exact hne hc

/-! ### Loops -/

theorem Ext.refl (q : Event → Bool) (t : Trace) : Ext q t t := ⟨[], by simp, by simp⟩

theorem Ext.snoc {q : Event → Bool} {t t1 : Trace} (h : Ext q t t1) (e : Event)
    (he : q e = false) : Ext q t (t1 ++ [e]) := by
  obtain ⟨evs, h1, h2⟩ := h
  refine ⟨evs ++ [e], by rw [h1, List.append_assoc], ?_⟩
  intro x hx
  rcases List.mem_append.mp hx with h3 | h3
  · exact h2 x h3
  · simp only [List.mem_singleton] at h3
    subst h3; exact he

theorem Ext.append {q : Event → Bool} {t t1 : Trace} (h : Ext q t t1) (es : List Event)
    (hes : ∀ e ∈ es, q e = false) : Ext q t (t1 ++ es) := by
  obtain ⟨evs, h1, h2⟩ := h
  refine ⟨evs ++ es, by rw [h1, List.append_assoc], ?_⟩
  intro x hx
  rcases List.mem_append.mp hx with h3 | h3
  · exact h2 x h3
  · exact hes x h3

theorem Ext.trans {q : Event → Bool} {t t1 t2 : Trace} (h : Ext q t t1) (h1 : Ext q t1 t2) :
    Ext q t t2 := by
  obtain ⟨evs, h2, h3⟩ := h1
  rw [h2]
  exact h.append evs h3

theorem Ext.filter {q : Event → Bool} {t t1 : Trace} (h : Ext q t t1) :
    t1.filter q = t.filter q := by
  obtain ⟨evs, h1, h2⟩ := h
  have : evs.filter q = [] := by
    rw [List.filter_eq_nil_iff]
    intro e he
    simp [h2 e he]
  rw [h1, List.filter_append, this, List.append_nil]

theorem forRange_cons_ok {σ α : Type} (body : σ → α → Trace → Outcome σ) (x : α) (xs : List α)
    (acc acc1 : σ) (t t1 : Trace) (h : body acc x t = some (.ok acc1, t1)) :
    forRange body (x :: xs) acc t = forRange body xs acc1 t1 := by
  simp [forRange, h]

theorem forRange_cons_error {σ α : Type} (body : σ → α → Trace → Outcome σ) (x : α)
    (xs : List α) (acc : σ) (t t1 : Trace) (e : Err) (h : body acc x t = some (.error e, t1)) :
    forRange body (x :: xs) acc t = some (.error e, t1) := by
  simp [forRange, h]

theorem forRange_cons_none {σ α : Type} (body : σ → α → Trace → Outcome σ) (x : α)
    (xs : List α) (acc : σ) (t : Trace) (h : body acc x t = none) :
    forRange body (x :: xs) acc t = none := by
  simp [forRange, h]

theorem forRange_append {σ α : Type} (body : σ → α → Trace → Outcome σ) (xs ys : List α)
    (acc acc1 : σ) (t t1 : Trace) (h : forRange body xs acc t = some (.ok acc1, t1)) :
    forRange body (xs ++ ys) acc t = forRange body ys acc1 t1 := by
  induction xs generalizing acc t with
  | nil =>
    simp only [forRange, Option.some.injEq, Prod.mk.injEq, Except.ok.injEq] at h
    obtain ⟨h1, h2⟩ := h
    subst h1; subst h2; rfl
  | cons x xs ih =>
    rw [List.cons_append]
    rcases hb : body acc x t with _ | ⟨r, t2⟩
    · rw [forRange_cons_none body x xs acc t hb] at h; cases h
    · cases r with
      | error e => rw [forRange_cons_error body x xs acc t t2 e hb] at h; cases h
      | ok a2 =>
        rw [forRange_cons_ok body x xs acc a2 t t2 hb] at h
        rw [forRange_cons_ok body x _ acc a2 t t2 hb]
        exact ih a2 t2 h

theorem Avoids.mono {σ : Type} {q q1 : Event → Bool} {t : Trace} {o : Outcome σ}
    (h : Avoids q t o) (hq : ∀ e, q e = false → q1 e = false) : Avoids q1 t o := by
  intro r t1 ho
  obtain ⟨evs, h1, h2⟩ := h r t1 ho
  exact ⟨evs, h1, fun e he => hq e (h2 e he)⟩

theorem Avoids.prepend {τ : Type} {q : Event → Bool} {t : Trace} (evs : List Event)
    (hevs : ∀ e ∈ evs, q e = false) {o : Outcome τ} (h : Avoids q (t ++ evs) o) :
    Avoids q t o := by
  intro r t1 ho
  obtain ⟨evs1, h1, h2⟩ := h r t1 ho
  refine ⟨evs ++ evs1, by rw [h1, List.append_assoc], ?_⟩
  intro e he
  rcases List.mem_append.mp he with h3 | h3
  · exact hevs e h3
  · exact h2 e h3

theorem forRange_avoids {σ α : Type} (q : Event → Bool) (body : σ → α → Trace → Outcome σ)
    (hbody : ∀ acc x t, Avoids q t (body acc x t)) (xs : List α) (acc : σ) (t : Trace) :
    Avoids q t (forRange body xs acc t) := by
  induction xs generalizing acc t with
  | nil =>
    intro r t1 h
    simp only [forRange, Option.some.injEq, Prod.mk.injEq] at h
    exact ⟨[], by simp [h.2], by simp⟩
  | cons x xs ih =>
    rcases hb : body acc x t with _ | ⟨r, t2⟩
    · rw [forRange_cons_none body x xs acc t hb]
      intro r t1 h; cases h
    · obtain ⟨evs, h1, h2⟩ := hbody acc x t r t2 hb
      cases r with
      | error e =>
        rw [forRange_cons_error body x xs acc t t2 e hb]
        intro r t1 h
        simp only [Option.some.injEq, Prod.mk.injEq] at h
        exact ⟨evs, by rw [← h.2, h1], h2⟩
      | ok a2 =>
        rw [forRange_cons_ok body x xs acc a2 t t2 hb]
        subst h1
        exact Avoids.prepend evs h2 (ih a2 (t ++ evs))

theorem forPages_avoids {σ α : Type} (q : Event → Bool)
    (list : Nat → Trace → Except Err (List α) × Trace) (body : σ → α → Trace → Outcome σ)
    (hlist : ∀ p t, ∃ evs : List Event, (list p t).2 = t ++ evs ∧ ∀ e ∈ evs, q e = false)
    (hbody : ∀ acc x t, Avoids q t (body acc x t)) (fuel page : Nat) (acc : σ) (t : Trace) :
    Avoids q t (forPages list body fuel page acc t) := by
  induction fuel generalizing page acc t with
  | zero => intro r t1 h; simp [forPages] at h
  | succ fuel ih =>
    obtain ⟨evs, h1, h2⟩ := hlist page t
    rcases hl : list page t with ⟨r, t2⟩
    rw [hl] at h1
    simp only at h1
    subst h1
    cases r with
    | error e =>
      intro r t1 h
      simp only [forPages, hl, Option.some.injEq, Prod.mk.injEq] at h
      exact ⟨evs, h.2.symm, h2⟩
    | ok items =>
      by_cases hlen : items.length = 0
      · intro r t1 h
        simp only [forPages, hl, hlen, if_true, Option.some.injEq, Prod.mk.injEq] at h
        exact ⟨evs, h.2.symm, h2⟩
      · apply Avoids.prepend evs h2
        have hr := forRange_avoids q body hbody items acc (t ++ evs)
        rcases hf : forRange body items acc (t ++ evs) with _ | ⟨r, t3⟩
        · intro r t1 h
          simp [forPages, hl, hlen, hf] at h
        · obtain ⟨evs1, h3, h4⟩ := hr r t3 hf
          subst h3
          cases r with
          | error e =>
            intro r t1 h
            simp only [forPages, hl, hlen, if_false, hf, Option.some.injEq, Prod.mk.injEq] at h
            exact ⟨evs1, h.2.symm, h4⟩
          | ok a2 =>
            apply Avoids.prepend evs1 h4
            have := ih (page + 1) a2 (t ++ evs ++ evs1)
            simpa [forPages, hl, hlen, hf] using this

theorem forPages_eq_consumePages {σ α : Type}
    (list : Nat → Trace → Except Err (List α) × Trace) (body : σ → α → Trace → Outcome σ)
    (coll : Nat → List α) (hlist : ∀ p t, (list p t).1 = .ok (coll p)) (n : Nat) :
    ∀ (fuel page : Nat) (acc : σ) (t : Trace), n < fuel →
      (∀ i, i < n → coll (page + i) ≠ []) → coll (page + n) = [] →
      forPages list body fuel page acc t = consumePages list body coll n page acc t := by
  induction n with
  | zero =>
    intro fuel page acc t hfuel _ hempty
    obtain ⟨fuel, rfl⟩ : ∃ k, fuel = k + 1 := ⟨fuel - 1, by omega⟩
    have h1 := hlist page t
    rcases hl : list page t with ⟨r, t2⟩
    rw [hl] at h1
    simp only at h1
    subst h1
    simp only [Nat.add_zero] at hempty
    simp [forPages, consumePages, hl, hempty]
  | succ n ih =>
    intro fuel page acc t hfuel hne hempty
    obtain ⟨fuel, rfl⟩ : ∃ k, fuel = k + 1 := ⟨fuel - 1, by omega⟩
    have h1 := hlist page t
    rcases hl : list page t with ⟨r, t2⟩
    rw [hl] at h1
    simp only at h1
    subst h1
    have hne0 : coll page ≠ [] := by simpa using hne 0 (by omega)
    have hlen : ¬ (coll page).length = 0 := by
      intro h; exact hne0 (List.length_eq_zero.mp h)
    rcases hf : forRange body (coll page) acc t2 with _ | ⟨r, t3⟩
    · simp [forPages, consumePages, hl, hlen, hf]
    · cases r with
      | error e => simp [forPages, consumePages, hl, hlen, hf]
      | ok a2 =>
        have := ih fuel (page + 1) a2 t3 (by omega)
          (fun i hi => by
            have := hne (i + 1) (by omega)
            rwa [show page + (i + 1) = page + 1 + i by omega] at this)
          (by rwa [show page + (n + 1) = page + 1 + n by omega] at hempty)
        simp [forPages, consumePages, hl, hlen, hf, this]

theorem forRange_filter_each {σ α : Type} (q : Event → Bool)
    (body : σ → α → Trace → Outcome σ) (contrib : α → List Event) (P : σ → α → Trace → Prop)
    (hbody : ∀ acc x t, P acc x t → ∃ acc1 evs, body acc x t = some (.ok acc1, t ++ evs) ∧
      evs.filter q = contrib x) (xs : List α) (acc : σ) (t : Trace)
    (h : EachStep body P xs acc t) :
    ∃ acc1 evs, forRange body xs acc t = some (.ok acc1, t ++ evs) ∧
      evs.filter q = xs.flatMap contrib := by
  induction xs generalizing acc t with
  | nil => exact ⟨acc, [], by simp [forRange], by simp⟩
  | cons x xs ih =>
    obtain ⟨a1, evs, h1, h2⟩ := hbody acc x t h.1
    obtain ⟨a2, evs2, h3, h4⟩ := ih a1 (t ++ evs) (h.2 a1 _ h1)
    refine ⟨a2, evs ++ evs2, ?_, ?_⟩
    · rw [forRange_cons_ok body x xs acc a1 t _ h1, h3, List.append_assoc]
    · rw [List.filter_append, h2, h4, List.flatMap_cons]

theorem consumePages_filter_each {σ α : Type} (q : Event → Bool) (rq : Nat → Event)
    (list : Nat → Trace → Except Err (List α) × Trace) (body : σ → α → Trace → Outcome σ)
    (contrib : α → List Event) (coll : Nat → List α) (P : σ → α → Trace → Prop)
    (hlist : ∀ p t, (list p t).2 = t ++ [rq p])
    (hbody : ∀ acc x t, P acc x t → ∃ acc1 evs, body acc x t = some (.ok acc1, t ++ evs) ∧
      evs.filter q = contrib x) (n : Nat) :
    ∀ (page : Nat) (acc : σ) (t : Trace), EachPage list body coll P n page acc t →
      ∃ acc1 evs, consumePages list body coll n page acc t = some (.ok acc1, t ++ evs) ∧
        evs.filter q = pagedRun (fun p => [rq p].filter q) contrib coll n page := by
  induction n with
  | zero =>
    intro page acc t _
    exact ⟨acc, [rq page], by simp [consumePages, hlist], by simp [pagedRun]⟩
  | succ n ih =>
    intro page acc t h
    have h' := h
    simp only [EachPage, hlist] at h'
    obtain ⟨a1, evs, h1, h2⟩ := forRange_filter_each q body contrib P hbody (coll page) acc
      (t ++ [rq page]) h'.1
    obtain ⟨a2, evs2, h3, h4⟩ := ih (page + 1) a1 (t ++ [rq page] ++ evs) (h'.2 a1 _ h1)
    refine ⟨a2, [rq page] ++ evs ++ evs2, ?_, ?_⟩
    · simp only [List.append_assoc] at h1 h3
      simp only [consumePages, hlist, h1, h3, List.append_assoc]
    · rw [List.filter_append, List.filter_append, h2, h4]
      simp only [pagedRun]

theorem forPages_run_each {σ α : Type} (q : Event → Bool) (rq : Nat → Event)
    (list : Nat → Trace → Except Err (List α) × Trace) (body : σ → α → Trace → Outcome σ)
    (contrib : α → List Event) (coll : Nat → List α) (P : σ → α → Trace → Prop) (n fuel : Nat)
    (hlist : ∀ p t, list p t = (.ok (coll p), t ++ [rq p]))
    (hserved : ServedInPages coll n) (hfuel : n < fuel)
    (hbody : ∀ acc x t, P acc x t → ∃ acc1 evs, body acc x t = some (.ok acc1, t ++ evs) ∧
      evs.filter q = contrib x) (acc : σ) (t : Trace)
    (h : EachPage list body coll P n 1 acc t) :
    ∃ acc1 evs, forPages list body fuel 1 acc t = some (.ok acc1, t ++ evs) ∧
      evs.filter q = pagedRun (fun p => [rq p].filter q) contrib coll n 1 := by
  rw [forPages_eq_consumePages list body coll (fun p t => by rw [hlist]) n fuel 1 acc t hfuel
    (fun i hi => hserved.1 (1 + i) (by omega) (by omega))
    (by rw [Nat.add_comm]; exact hserved.2)]
  exact consumePages_filter_each q rq list body contrib coll P (fun p t => by rw [hlist]) hbody
    n 1 acc t h

theorem eachStep_of_forall {σ α : Type} (body : σ → α → Trace → Outcome σ)
    (P : σ → α → Trace → Prop) (hP : ∀ acc x t, P acc x t) (xs : List α) :
    ∀ (acc : σ) (t : Trace), EachStep body P xs acc t := by
  induction xs with
  | nil => intro acc t; trivial
  | cons x xs ih => intro acc t; exact ⟨hP acc x t, fun a1 t1 _ => ih a1 t1⟩

theorem eachPage_of_forall {σ α : Type} (list : Nat → Trace → Except Err (List α) × Trace)
    (body : σ → α → Trace → Outcome σ) (coll : Nat → List α) (P : σ → α → Trace → Prop)
    (hP : ∀ acc x t, P acc x t) (n : Nat) :
    ∀ (page : Nat) (acc : σ) (t : Trace), EachPage list body coll P n page acc t := by
  induction n with
  | zero => intro page acc t; trivial
  | succ n ih =>
    intro page acc t
    exact ⟨eachStep_of_forall body P hP _ _ _, fun a1 t1 _ => ih _ a1 t1⟩

theorem pagedRun_filter {α : Type} (q : Event → Bool) (req : Nat → List Event)
    (contrib : α → List Event) (coll : Nat → List α) (n page : Nat) :
    (pagedRun req contrib coll n page).filter q =
      pagedRun (fun p => (req p).filter q) (fun x => (contrib x).filter q) coll n page := by
  induction n generalizing page with
  | zero => rfl
  | succ n ih =>
    simp only [pagedRun, List.filter_append, ih, List.filter_flatMap]

theorem pagedRun_nil_req {α : Type} (contrib : α → List Event) (coll : Nat → List α)
    (n page : Nat) :
    pagedRun (fun _ => []) contrib coll n page = (pagesFrom coll n page).flatMap contrib := by
  induction n generalizing page with
  | zero => rfl
  | succ n ih =>
    simp only [pagedRun, pagesFrom, ih, List.nil_append, List.flatMap_append]

/-! ## C4: state mapping -/

/-- C4: the state translation used when a milestone is created and the one used
when an existing issue is updated are the same function of the source state;
"open" and "opened" give the open state, "close" and "closed" the closed state,
and every other string gives the zero value, the empty state.  The translated
state is the one placed in the create-milestone and edit-issue requests. -/
theorem state_mapping (s : String) :
    milestoneState s = issueState s ∧
    (s = "open" ∨ s = "opened" → milestoneState s = StateOpen) ∧
    (s = "close" ∨ s = "closed" → milestoneState s = StateClosed) ∧
    (s ≠ "open" → s ≠ "opened" → s ≠ "close" → s ≠ "closed" → milestoneState s = "") ∧
    (∀ m : GitlabMilestone, m.State = s → (createMilestoneOption m).State = milestoneState s) ∧
    (∀ (o : CreateIssueOption) (i : GitlabIssue), i.State = s →
      (editIssueOption o i).State = some (issueState s)) := by
  refine ⟨rfl, ?_, ?_, ?_, ?_, ?_⟩
  · rintro (h | h) <;> subst h <;> decide
  · rintro (h | h) <;> subst h <;> decide
  · intro h1 h2 h3 h4
    simp [milestoneState, h1, h2, h3, h4]
  · intro m hm
    simp [createMilestoneOption, hm]
  · intro o i hi
    simp [editIssueOption, hi]

/-- C4 at the unrecognised state "pending": both translations agree and give the
empty state. -/
theorem state_mapping_witness :
    milestoneState "pending" = issueState "pending" ∧ milestoneState "pending" = "" :=
  ⟨(state_mapping "pending").1,
    (state_mapping "pending").2.2.2.1 (by decide) (by decide) (by decide) (by decide)⟩

/-! ## C5: key normalization -/

/-- C5: for a group and a project namespace with the same full path `s`, the
organization name derived by `migrateOrgs` equals the repository owner derived by
`migrateRepo`; both are `s` with every "/" replaced by "_" and contain no "/";
these are the names placed in the create-organization and mirror-import requests;
"a/b" and "a_b" both normalize to "a_b". -/
theorem key_normalization (s : String) (org : GitlabGroup) (repo : GitlabProject)
    (args : Arguments) (horg : org.FullPath = s) (hrepo : repo.Namespace.FullPath = s) :
    orgPath org = repoOwner repo ∧
    repoOwner repo = String.mk (s.data.map slashToUnderscore) ∧
    '/' ∉ (repoOwner repo).data ∧
    (createOrgOption org).Name = orgPath org ∧
    (migrateRepoOption args repo).RepoOwner = repoOwner repo ∧
    ReplaceAll "a/b" "/" "_" = "a_b" ∧ ReplaceAll "a_b" "/" "_" = "a_b" := by
  have h1 : orgPath org = String.mk (s.data.map slashToUnderscore) := by
    rw [orgPath, horg, ReplaceAll_slash]
  have h2 : repoOwner repo = String.mk (s.data.map slashToUnderscore) := by
    rw [repoOwner, hrepo, ReplaceAll_slash]
  refine ⟨h1.trans h2.symm, h2, ?_, rfl, rfl, by decide, by decide⟩
  rw [h2]
  exact slash_not_mem_map _

/-- C5 at the namespaces "a/b" and "a_b": the mirror-import requests of two
projects under these namespaces both target the owner "a_b". -/
theorem key_normalization_witness :
    (migrateRepoOption ⟨"tok", "admin"⟩ ⟨1, "r", ⟨"a/b"⟩, "u", "d"⟩).RepoOwner = "a_b" ∧
    (migrateRepoOption ⟨"tok", "admin"⟩ ⟨2, "r", ⟨"a_b"⟩, "u", "d"⟩).RepoOwner = "a_b" ∧
    orgPath ⟨"a/b", "n", "d", "u"⟩ = "a_b" := by
  have k1 := key_normalization "a/b" ⟨"a/b", "n", "d", "u"⟩ ⟨1, "r", ⟨"a/b"⟩, "u", "d"⟩
    ⟨"tok", "admin"⟩ rfl rfl
  have k2 := key_normalization "a_b" ⟨"a_b", "n", "d", "u"⟩ ⟨2, "r", ⟨"a_b"⟩, "u", "d"⟩
    ⟨"tok", "admin"⟩ rfl rfl
  refine ⟨?_, ?_, ?_⟩
  · rw [k1.2.2.2.2.1, k1.2.1]; decide
  · rw [k2.2.2.2.2.1, k2.2.1]; decide
  · rw [k1.1, k1.2.1]; decide

/-! ## C7 and C8: issue reconciliation -/

theorem resolveLabels_logs (ls : GoMap GiteaLabel) (names : List String) :
    ∀ e ∈ (resolveLabels ls names).2, e.isLog .Error "Unknown label" = true := by
  induction names with
  | nil => simp [resolveLabels]
  | cons l rest ih =>
    unfold resolveLabels
    split
    · exact ih
    · intro e he
      rcases List.mem_cons.mp he with h | h
      · subst h; simp [Event.isLog]
      · exact ih e h

theorem resolveLabels_ids (ls : GoMap GiteaLabel) (names : List String) :
    (resolveLabels ls names).1 = names.filterMap (fun l => (ls.get? l).map (fun x => x.ID)) := by
  induction names with
  | nil => simp [resolveLabels]
  | cons l rest ih =>
    unfold resolveLabels
    cases h : ls.get? l with
    | none => simp [List.filterMap_cons, h, ih]
    | some label => simp [List.filterMap_cons, h, ih]

theorem resolveLabels_filter (ls : GoMap GiteaLabel) (names : List String) (p : Event → Bool)
    (hp : ∀ e, e.isLog .Error "Unknown label" = true → p e = false) :
    (resolveLabels ls names).2.filter p = [] := by
  rw [List.filter_eq_nil_iff]
  intro e he
  simp [hp e (resolveLabels_logs ls names e he)]

/-- C7: for a source issue whose title is absent from the destination issue index
and whose milestone title is absent from the destination milestone index,
`migrateIssue` issues exactly one `CreateIssue` request, that request has the
milestone field at its zero value, exactly one "Unknown milestone" error is logged
and it names that title, and `migrateIssue` returns what the create request
returned (success whenever the create succeeds). -/
theorem reference_resolution (w : Remote) (giteaOwner giteaRepo : String) (issue : GitlabIssue)
    (ms : GitlabMilestone) (giteaMilestones : GoMap GiteaMilestone)
    (giteaLabels : GoMap GiteaLabel) (giteaIssues : GoMap GiteaIssue) (t : Trace)
    (hms : issue.Milestone = some ms) (hm : giteaMilestones.get? ms.Title = none)
    (hi : giteaIssues.get? issue.Title = none) :
    ∃ evs : List Event,
      (migrateIssue w giteaOwner giteaRepo issue giteaMilestones giteaLabels giteaIssues t).2
        = t ++ evs ∧
      evs.filter Event.isCreateIssue =
        [Event.call (.CreateIssue giteaOwner giteaRepo
          (issueOption giteaMilestones giteaLabels issue))] ∧
      (issueOption giteaMilestones giteaLabels issue).Milestone = 0 ∧
      evs.filter (Event.isLog .Error "Unknown milestone") =
        [Event.log .Error "Unknown milestone" [("milestone", ms.Title)]] ∧
      (migrateIssue w giteaOwner giteaRepo issue giteaMilestones giteaLabels giteaIssues t).1
        = w.CreateIssue (t ++ issueLogs giteaMilestones giteaLabels issue) giteaOwner giteaRepo
            (issueOption giteaMilestones giteaLabels issue) := by
  have hres : resolveMilestone giteaMilestones issue =
      (0, [Event.log .Error "Unknown milestone" [("milestone", ms.Title)]]) := by
    simp [resolveMilestone, hms, hm]
  have hl1 := resolveLabels_filter giteaLabels issue.Labels Event.isCreateIssue
    (by intro e he; cases e <;> simp_all [Event.isLog, Event.isCreateIssue])
  have hl2 := resolveLabels_filter giteaLabels issue.Labels (Event.isLog .Error "Unknown milestone")
    (by
      intro e he
      cases e with
      | log l m f =>
        simp only [Event.isLog, decide_eq_true_eq] at he
        simp [Event.isLog, he.2]
      | call c => rfl
      | print s => rfl)
  have hmile : (issueOption giteaMilestones giteaLabels issue).Milestone = 0 := by
    simp [issueOption, hres]
  cases hc : w.CreateIssue (t ++ issueLogs giteaMilestones giteaLabels issue) giteaOwner giteaRepo
      (issueOption giteaMilestones giteaLabels issue) with
  | error e =>
    refine ⟨issueLogs giteaMilestones giteaLabels issue ++
      [Event.call (.CreateIssue giteaOwner giteaRepo
        (issueOption giteaMilestones giteaLabels issue))], ?_, ?_, hmile, ?_, ?_⟩
    · simp [migrateIssue, hi, hc]
    · simp [issueLogs, hres, hl1, Event.isCreateIssue, Event.isLog]
    · simp [issueLogs, hres, hl2, Event.isCreateIssue, Event.isLog]
    · simp [migrateIssue, hi, hc]
  | ok u =>
    refine ⟨issueLogs giteaMilestones giteaLabels issue ++
      [Event.call (.CreateIssue giteaOwner giteaRepo
        (issueOption giteaMilestones giteaLabels issue)),
       Event.log .Info "Created issue"
        [("title", (issueOption giteaMilestones giteaLabels issue).Title)]], ?_, ?_, hmile, ?_, ?_⟩
    · simp [migrateIssue, hi, hc]
    · simp [issueLogs, hres, hl1, Event.isCreateIssue, Event.isLog]
    · simp [issueLogs, hres, hl2, Event.isCreateIssue, Event.isLog]
    · simp [migrateIssue, hi, hc]

/-- C7 on the sample issue with empty destination indexes: the run logs the unknown
milestone "v1" once, issues one `CreateIssue` request and returns success. -/
theorem reference_resolution_witness :
    ∃ evs : List Event,
      (migrateIssue quietRemote "o" "r" sampleIssue [] sampleLabels [] []).2 = [] ++ evs ∧
      evs.filter Event.isCreateIssue =
        [Event.call (.CreateIssue "o" "r" (issueOption [] sampleLabels sampleIssue))] ∧
      (issueOption [] sampleLabels sampleIssue).Milestone = 0 ∧
      evs.filter (Event.isLog .Error "Unknown milestone") =
        [Event.log .Error "Unknown milestone" [("milestone", "v1")]] ∧
      (migrateIssue quietRemote "o" "r" sampleIssue [] sampleLabels [] []).1 = .ok () :=
  reference_resolution quietRemote "o" "r" sampleIssue
    ⟨"v1", "", none, "active"⟩ [] sampleLabels [] [] rfl rfl rfl

/-- C8 fails as stated: "bug" is present in the destination issue index, yet when
the `EditIssue` request fails `migrateIssue` returns that error and issues no
`ReplaceIssueLabels` request at all. -/
theorem label_replace_counterexample :
    sampleIssues.get? sampleIssue.Title = some ⟨7, "bug", "old", "open", [1, 2], 0⟩ ∧
    (migrateIssue editFailsRemote "o" "r" sampleIssue [] sampleLabels sampleIssues []).1
      = .error "edit refused" ∧
    (migrateIssue editFailsRemote "o" "r" sampleIssue [] sampleLabels sampleIssues []).2.filter
      Event.isReplaceIssueLabels = [] := by
  refine ⟨by decide, rfl, by decide⟩

theorem issueLabelsAfter_append (w : Remote) (o r : String) (i : Int) (a b : List Event) :
    ∀ (h : Trace) (cur : List Int),
      issueLabelsAfter w o r i h cur (a ++ b) =
        issueLabelsAfter w o r i (h ++ a) (issueLabelsAfter w o r i h cur a) b := by
  induction a with
  | nil => intro h cur; simp [issueLabelsAfter]
  | cons e a ih =>
    intro h cur
    simp only [List.cons_append, issueLabelsAfter]
    rw [show h ++ e :: a = h ++ [e] ++ a by simp]
    exact ih _ _

theorem issueLabelsAfter_unchanged (w : Remote) (o r : String) (i : Int) (evs : List Event)
    (hevs : ∀ e ∈ evs, e.isReplaceIssueLabels = false) :
    ∀ (h : Trace) (cur : List Int), issueLabelsAfter w o r i h cur evs = cur := by
  induction evs with
  | nil => intro h cur; rfl
  | cons e evs ih =>
    intro h cur
    have he := hevs e (List.mem_cons_self _ _)
    have hrest := ih (fun x hx => hevs x (List.mem_cons_of_mem _ hx))
    cases e with
    | call c =>
      cases c <;> first
        | (simp only [issueLabelsAfter]; exact hrest _ _)
        | (simp [Event.isReplaceIssueLabels] at he)
    | log l m f => simp only [issueLabelsAfter]; exact hrest _ _
    | print text => simp only [issueLabelsAfter]; exact hrest _ _

theorem issueLogs_no_replace (ms : GoMap GiteaMilestone) (ls : GoMap GiteaLabel)
    (issue : GitlabIssue) : ∀ e ∈ issueLogs ms ls issue, e.isReplaceIssueLabels = false := by
  intro e he
  unfold issueLogs at he
  rcases List.mem_append.mp he with h | h
  · unfold resolveMilestone at h
    split at h
    · simp at h
    · split at h
      · simp at h
      · simp only [List.mem_singleton] at h
        subst h; rfl
  · have := resolveLabels_logs ls issue.Labels e h
    cases e with
    | call c => simp [Event.isLog] at this
    | log l m f => rfl
    | print text => rfl

/-- C8, amended: for a source issue whose title is present in the destination issue
index, when the preceding `EditIssue` request succeeds, `migrateIssue` issues
exactly one `ReplaceIssueLabels` request, on the index of the existing destination
issue, with exactly the destination IDs of the source label names found in the
label index, in source order, unresolved names dropped; the list does not depend
on the labels the destination issue has, and in a destination model where an
accepted replace sets the label set the issue ends with exactly that list (and
keeps its labels when the remote refuses the replace).  When `EditIssue` fails,
`migrateIssue` returns that error and issues no `ReplaceIssueLabels` request. -/
theorem label_replace (w : Remote) (giteaOwner giteaRepo : String) (issue : GitlabIssue)
    (existing : GiteaIssue) (giteaMilestones : GoMap GiteaMilestone)
    (giteaLabels : GoMap GiteaLabel) (giteaIssues : GoMap GiteaIssue) (t : Trace)
    (hi : giteaIssues.get? issue.Title = some existing) :
    (w.EditIssue (t ++ issueLogs giteaMilestones giteaLabels issue) giteaOwner giteaRepo
        existing.Index (editIssueOption (issueOption giteaMilestones giteaLabels issue) issue)
        = .ok () →
      ∃ evs : List Event,
        (migrateIssue w giteaOwner giteaRepo issue giteaMilestones giteaLabels giteaIssues t).2
          = t ++ evs ∧
        evs.filter Event.isReplaceIssueLabels =
          [Event.call (.ReplaceIssueLabels giteaOwner giteaRepo existing.Index
            ⟨issue.Labels.filterMap (fun l => (giteaLabels.get? l).map (fun x => x.ID))⟩)] ∧
        ∀ current : List Int,
          issueLabelsAfter w giteaOwner giteaRepo existing.Index t current evs =
            if (w.ReplaceIssueLabels
                (t ++ issueLogs giteaMilestones giteaLabels issue ++
                  [Event.call (.EditIssue giteaOwner giteaRepo existing.Index
                    (editIssueOption (issueOption giteaMilestones giteaLabels issue) issue))])
                giteaOwner giteaRepo existing.Index
                ⟨issue.Labels.filterMap
                  (fun l => (giteaLabels.get? l).map (fun x => x.ID))⟩).isOk = true
            then issue.Labels.filterMap (fun l => (giteaLabels.get? l).map (fun x => x.ID))
            else current) ∧
    (∀ e : Err,
      w.EditIssue (t ++ issueLogs giteaMilestones giteaLabels issue) giteaOwner giteaRepo
        existing.Index (editIssueOption (issueOption giteaMilestones giteaLabels issue) issue)
        = .error e →
      (migrateIssue w giteaOwner giteaRepo issue giteaMilestones giteaLabels giteaIssues t).1
        = .error e ∧
      ∃ evs : List Event,
        (migrateIssue w giteaOwner giteaRepo issue giteaMilestones giteaLabels giteaIssues t).2
          = t ++ evs ∧
        evs.filter Event.isReplaceIssueLabels = []) := by
  have hids := resolveLabels_ids giteaLabels issue.Labels
  have hlab : (issueOption giteaMilestones giteaLabels issue).Labels =
      issue.Labels.filterMap (fun l => (giteaLabels.get? l).map (fun x => x.ID)) := by
    simp [issueOption, hids]
  have hlogs := issueLogs_no_replace giteaMilestones giteaLabels issue
  have hlogsf : (issueLogs giteaMilestones giteaLabels issue).filter Event.isReplaceIssueLabels
      = [] := by
    rw [List.filter_eq_nil_iff]
    intro e he
    simp [hlogs e he]
  constructor
  · intro hedit
    rw [← hlab]
    cases hr : w.ReplaceIssueLabels
        (t ++ issueLogs giteaMilestones giteaLabels issue ++
          [Event.call (.EditIssue giteaOwner giteaRepo existing.Index
            (editIssueOption (issueOption giteaMilestones giteaLabels issue) issue))])
        giteaOwner giteaRepo existing.Index
        ⟨(issueOption giteaMilestones giteaLabels issue).Labels⟩ with
    | error e =>
      refine ⟨issueLogs giteaMilestones giteaLabels issue ++
        [Event.call (.EditIssue giteaOwner giteaRepo existing.Index
            (editIssueOption (issueOption giteaMilestones giteaLabels issue) issue)),
         Event.call (.ReplaceIssueLabels giteaOwner giteaRepo existing.Index
            ⟨(issueOption giteaMilestones giteaLabels issue).Labels⟩)], ?_, ?_, ?_⟩
      · simp only [List.append_assoc] at hr
        simp [migrateIssue, hi, hedit, hr]
      · simp [hlogsf, Event.isReplaceIssueLabels]
      · intro current
        rw [issueLabelsAfter_append, issueLabelsAfter_unchanged _ _ _ _ _ hlogs]
        simp only [issueLabelsAfter, hr]
        simp [Except.isOk, Except.toBool]
    | ok u =>
      refine ⟨issueLogs giteaMilestones giteaLabels issue ++
        [Event.call (.EditIssue giteaOwner giteaRepo existing.Index
            (editIssueOption (issueOption giteaMilestones giteaLabels issue) issue)),
         Event.call (.ReplaceIssueLabels giteaOwner giteaRepo existing.Index
            ⟨(issueOption giteaMilestones giteaLabels issue).Labels⟩),
         Event.log .Info "Updated issue"
            [("title", (issueOption giteaMilestones giteaLabels issue).Title)]], ?_, ?_, ?_⟩
      · simp only [List.append_assoc] at hr
        simp [migrateIssue, hi, hedit, hr]
      · simp [hlogsf, Event.isReplaceIssueLabels]
      · intro current
        rw [issueLabelsAfter_append, issueLabelsAfter_unchanged _ _ _ _ _ hlogs]
        simp only [issueLabelsAfter, hr]
        simp [Except.isOk, Except.toBool]
  · intro e hedit
    refine ⟨by simp [migrateIssue, hi, hedit], issueLogs giteaMilestones giteaLabels issue ++
      [Event.call (.EditIssue giteaOwner giteaRepo existing.Index
        (editIssueOption (issueOption giteaMilestones giteaLabels issue) issue))], ?_, ?_⟩
    · simp [migrateIssue, hi, hedit]
    · simp [hlogsf, Event.isReplaceIssueLabels]

/-- C8, amended, on the sample: the destination issue labelled A and B (IDs 1, 2),
updated from a source issue labelled "B", "C" and the unknown "Z", ends with
exactly B and C (IDs 2, 3); and when the remote refuses the edit, `migrateIssue`
returns that error. -/
theorem label_replace_witness :
    (∃ evs : List Event,
      (migrateIssue quietRemote "o" "r" sampleIssue [] sampleLabels sampleIssues []).2
        = [] ++ evs ∧
      issueLabelsAfter quietRemote "o" "r" 7 [] [1, 2] evs = [2, 3]) ∧
    (migrateIssue editFailsRemote "o" "r" sampleIssue [] sampleLabels sampleIssues []).1
      = .error "edit refused" :=
  ⟨((label_replace quietRemote "o" "r" sampleIssue ⟨7, "bug", "old", "open", [1, 2], 0⟩ []
      sampleLabels sampleIssues [] rfl).1 rfl).elim
      (fun evs h => ⟨evs, h.1, (h.2.2 [1, 2]).trans rfl⟩),
   ((label_replace editFailsRemote "o" "r" sampleIssue ⟨7, "bug", "old", "open", [1, 2], 0⟩ []
      sampleLabels sampleIssues [] rfl).2 "edit refused" rfl).1⟩

/-! ## What each function adds to the history -/

theorem onCalls_mono {k k1 : Call → Bool} (h : ∀ c, k1 c = true → k c = true) (e : Event)
    (he : onCalls k e = false) : onCalls k1 e = false := by
  cases e with
  | call c =>
    simp only [onCalls] at he ⊢
    cases h1 : k1 c with
    | false => rfl
    | true => rw [h c h1] at he; cases he
  | log l m f => rfl
  | print s => rfl

theorem isOuter_of_isRepoLevel (c : Call) (h : c.isRepoLevel = true) : c.isOuter = true := by
  simp [Call.isOuter, h]

theorem isRepoLevel_of_isMigrateRepo (c : Call) (h : c.isMigrateRepo = true) :
    c.isRepoLevel = true := by
  cases c <;> simp_all [Call.isMigrateRepo, Call.isRepoLevel]

theorem resolveLabels_onCalls (k : Call → Bool) (ls : GoMap GiteaLabel) (names : List String) :
    ∀ e ∈ (resolveLabels ls names).2, onCalls k e = false := by
  intro e he
  have := resolveLabels_logs ls names e he
  cases e with
  | call c => simp [Event.isLog] at this
  | log l m f => rfl
  | print s => rfl

theorem issueLogs_onCalls (k : Call → Bool) (ms : GoMap GiteaMilestone) (ls : GoMap GiteaLabel)
    (issue : GitlabIssue) : ∀ e ∈ issueLogs ms ls issue, onCalls k e = false := by
  intro e he
  unfold issueLogs at he
  rcases List.mem_append.mp he with h | h
  · unfold resolveMilestone at h
    split at h
    · simp at h
    · split at h
      · simp at h
      · simp only [List.mem_singleton] at h
        subst h; rfl
  · exact resolveLabels_onCalls k ls _ e h

theorem migrateMilestonesItem_avoids (w : Remote) (o r : String) (ex : GoMap GiteaMilestone)
    (u : Unit) (x : GitlabMilestone) (t : Trace) :
    Avoids (onCalls Call.isOuter) t (migrateMilestonesItem w o r ex u x t) := by
  intro res t1 h
  simp only [migrateMilestonesItem] at h
  split at h
  · simp only [Option.some.injEq, Prod.mk.injEq] at h
    rw [← h.2]; exact Ext.refl _ _
  · split at h <;> simp only [Option.some.injEq, Prod.mk.injEq] at h <;> rw [← h.2]
    · exact (Ext.refl _ _).snoc _ rfl
    · exact ((Ext.refl _ _).snoc _ rfl).snoc _ rfl

theorem migrateLabelsItem_avoids (w : Remote) (o r : String) (ex : GoMap GiteaLabel)
    (u : Unit) (x : GitlabLabel) (t : Trace) :
    Avoids (onCalls Call.isOuter) t (migrateLabelsItem w o r ex u x t) := by
  intro res t1 h
  simp only [migrateLabelsItem] at h
  split at h
  · simp only [Option.some.injEq, Prod.mk.injEq] at h
    rw [← h.2]; exact Ext.refl _ _
  · split at h <;> simp only [Option.some.injEq, Prod.mk.injEq] at h <;> rw [← h.2]
    · exact (Ext.refl _ _).snoc _ rfl
    · exact ((Ext.refl _ _).snoc _ rfl).snoc _ rfl

theorem migrateIssue_avoids (w : Remote) (o r : String) (x : GitlabIssue)
    (ms : GoMap GiteaMilestone) (ls : GoMap GiteaLabel) (is : GoMap GiteaIssue) (t : Trace) :
    Ext (onCalls Call.isOuter) t (migrateIssue w o r x ms ls is t).2 := by
  have hlogs : Ext (onCalls Call.isOuter) t (t ++ issueLogs ms ls x) :=
    (Ext.refl _ _).append _ (issueLogs_onCalls Call.isOuter ms ls x)
  simp only [migrateIssue]
  split
  · split
    · refine Ext.snoc hlogs _ ?_; rfl
    · refine Ext.snoc (Ext.snoc hlogs _ ?_) _ ?_ <;> rfl
  · split
    · refine Ext.snoc hlogs _ ?_; rfl
    · split
      · refine Ext.snoc (Ext.snoc hlogs _ ?_) _ ?_ <;> rfl
      · refine Ext.snoc (Ext.snoc (Ext.snoc hlogs _ ?_) _ ?_) _ ?_ <;> rfl

theorem migrateIssuesItem_avoids (w : Remote) (o r : String) (ms : GoMap GiteaMilestone)
    (ls : GoMap GiteaLabel) (is : GoMap GiteaIssue) (u : Unit) (x : GitlabIssue) (t : Trace) :
    Avoids (onCalls Call.isOuter) t (migrateIssuesItem w o r ms ls is u x t) := by
  intro res t1 h
  have h1 := migrateIssue_avoids w o r x ms ls is t
  simp only [migrateIssuesItem, Option.some.injEq] at h
  rw [h] at h1
  exact h1

theorem giteaIssues_avoids (fuel : Nat) (w : Remote) (o r : String) (t : Trace) :
    Avoids (onCalls Call.isOuter) t (giteaIssues fuel w o r t) := by
  unfold giteaIssues
  apply forPages_avoids
  · intro p t
    exact ⟨[_], rfl, by simp [onCalls, Call.isOuter, Call.isSourceList, Call.isRepoLevel]⟩
  · intro acc x t res t1 h
    simp only [giteaIssuesItem, Option.some.injEq, Prod.mk.injEq] at h
    exact ⟨[], by simp [h.2], by simp⟩

theorem giteaMilestones_trace (w : Remote) (o r : String) (t : Trace) :
    (giteaMilestones w o r t).2 =
      t ++ [Event.call (.ListRepoMilestones o r giteaMilestonesOpt)] := by
  simp only [giteaMilestones]
  split <;> rfl

theorem giteaLabels_trace (w : Remote) (o r : String) (t : Trace) :
    (giteaLabels w o r t).2 = t ++ [Event.call (.ListRepoLabels o r giteaLabelsOpt)] := by
  simp only [giteaLabels]
  split <;> rfl

theorem migrateMilestones_avoids (fuel : Nat) (w : Remote) (pid : Int) (o r : String)
    (t : Trace) : Avoids (onCalls Call.isRepoLevel) t (migrateMilestones fuel w pid o r t) := by
  have ht := giteaMilestones_trace w o r t
  unfold migrateMilestones
  rcases hg : giteaMilestones w o r t with ⟨res, t1⟩
  rw [hg] at ht
  simp only at ht
  subst ht
  cases res with
  | error e =>
    intro res t2 h
    simp only [Option.some.injEq, Prod.mk.injEq] at h
    exact ⟨_, h.2.symm, by simp [onCalls, Call.isRepoLevel]⟩
  | ok ex =>
    apply Avoids.prepend [Event.call (.ListRepoMilestones o r giteaMilestonesOpt)]
      (by simp [onCalls, Call.isRepoLevel])
    apply forPages_avoids
    · intro p t
      exact ⟨[_], rfl, by simp [onCalls, Call.isRepoLevel]⟩
    · intro acc x t
      exact (migrateMilestonesItem_avoids w o r ex acc x t).mono
        (onCalls_mono isOuter_of_isRepoLevel)

theorem migrateLabels_avoids (fuel : Nat) (w : Remote) (pid : Int) (o r : String)
    (t : Trace) : Avoids (onCalls Call.isRepoLevel) t (migrateLabels fuel w pid o r t) := by
  have ht := giteaLabels_trace w o r t
  unfold migrateLabels
  rcases hg : giteaLabels w o r t with ⟨res, t1⟩
  rw [hg] at ht
  simp only at ht
  subst ht
  cases res with
  | error e =>
    intro res t2 h
    simp only [Option.some.injEq, Prod.mk.injEq] at h
    exact ⟨_, h.2.symm, by simp [onCalls, Call.isRepoLevel]⟩
  | ok ex =>
    apply Avoids.prepend [Event.call (.ListRepoLabels o r giteaLabelsOpt)]
      (by simp [onCalls, Call.isRepoLevel])
    apply forPages_avoids
    · intro p t
      exact ⟨[_], rfl, by simp [onCalls, Call.isRepoLevel]⟩
    · intro acc x t
      exact (migrateLabelsItem_avoids w o r ex acc x t).mono
        (onCalls_mono isOuter_of_isRepoLevel)

theorem migrateIssues_avoids (fuel : Nat) (w : Remote) (pid : Int) (o r : String)
    (t : Trace) : Avoids (onCalls Call.isRepoLevel) t (migrateIssues fuel w pid o r t) := by
  intro res tz h
  unfold migrateIssues at h
  rcases hi : giteaIssues fuel w o r t with _ | ⟨ri, t1⟩
  · rw [hi] at h; cases h
  · have e1 : Ext (onCalls Call.isRepoLevel) t t1 :=
      (giteaIssues_avoids fuel w o r t).mono (onCalls_mono isOuter_of_isRepoLevel) ri t1 hi
    rw [hi] at h
    cases ri with
    | error e =>
      simp only [Option.some.injEq, Prod.mk.injEq] at h
      rw [← h.2]; exact e1
    | ok issues =>
      simp only at h
      have hm := giteaMilestones_trace w o r t1
      rcases hgm : giteaMilestones w o r t1 with ⟨rm, t2⟩
      rw [hgm] at hm h
      simp only at hm h
      have e2 : Ext (onCalls Call.isRepoLevel) t t2 := by
        rw [hm]; exact e1.snoc _ rfl
      cases rm with
      | error e =>
        simp only [Option.some.injEq, Prod.mk.injEq] at h
        rw [← h.2]; exact e2
      | ok milestones =>
        simp only at h
        have hl := giteaLabels_trace w o r t2
        rcases hgl : giteaLabels w o r t2 with ⟨rl, t3⟩
        rw [hgl] at hl h
        simp only at hl h
        have e3 : Ext (onCalls Call.isRepoLevel) t t3 := by
          rw [hl]; exact e2.snoc _ rfl
        cases rl with
        | error e =>
          simp only [Option.some.injEq, Prod.mk.injEq] at h
          rw [← h.2]; exact e3
        | ok labels =>
          simp only at h
          refine e3.trans (forPages_avoids (onCalls Call.isRepoLevel) _ _ ?_ ?_ fuel 1 () t3
            res tz h)
          · intro p t
            exact ⟨[_], rfl, by simp [onCalls, Call.isRepoLevel]⟩
          · intro acc x t
            exact (migrateIssuesItem_avoids w o r milestones labels issues acc x t).mono
              (onCalls_mono isOuter_of_isRepoLevel)

theorem migrateProject_avoids (fuel : Nat) (w : Remote) (pid : Int) (o r : String)
    (t : Trace) : Avoids (onCalls Call.isRepoLevel) t (migrateProject fuel w pid o r t) := by
  intro res tz h
  unfold migrateProject at h
  have e0 : Ext (onCalls Call.isRepoLevel) t (t ++ [Event.log .Info "Migrating milestones" []]) :=
    (Ext.refl _ _).snoc _ rfl
  rcases h1 : migrateMilestones fuel w pid o r (t ++ [Event.log .Info "Migrating milestones" []])
    with _ | ⟨r1, t1⟩
  · rw [h1] at h; cases h
  · have e1 := e0.trans (migrateMilestones_avoids fuel w pid o r _ r1 t1 h1)
    rw [h1] at h
    cases r1 with
    | error e =>
      simp only [Option.some.injEq, Prod.mk.injEq] at h
      rw [← h.2]; exact e1
    | ok u1 =>
      simp only at h
      have e1b : Ext (onCalls Call.isRepoLevel) t (t1 ++ [Event.log .Info "Migrating labels" []]) :=
        e1.snoc _ rfl
      rcases h2 : migrateLabels fuel w pid o r (t1 ++ [Event.log .Info "Migrating labels" []])
        with _ | ⟨r2, t2⟩
      · rw [h2] at h; cases h
      · have e2 := e1b.trans (migrateLabels_avoids fuel w pid o r _ r2 t2 h2)
        rw [h2] at h
        cases r2 with
        | error e =>
          simp only [Option.some.injEq, Prod.mk.injEq] at h
          rw [← h.2]; exact e2
        | ok u2 =>
          simp only at h
          have e2b : Ext (onCalls Call.isRepoLevel) t
              (t2 ++ [Event.log .Info "Migrating issues" []]) := e2.snoc _ rfl
          rcases h3 : migrateIssues fuel w pid o r
            (t2 ++ [Event.log .Info "Migrating issues" []]) with _ | ⟨r3, t3⟩
          · rw [h3] at h; cases h
          · have e3 := e2b.trans (migrateIssues_avoids fuel w pid o r _ r3 t3 h3)
            rw [h3] at h
            cases r3 with
            | error e =>
              simp only [Option.some.injEq, Prod.mk.injEq] at h
              rw [← h.2]; exact e3
            | ok u3 =>
              simp only [Option.some.injEq, Prod.mk.injEq] at h
              rw [← h.2]; exact e3

theorem migrateRepoSub_avoids (fuel : Nat) (w : Remote) (repo : GitlabProject) (t : Trace) :
    Avoids (onCalls Call.isRepoLevel) t (migrateRepoSub fuel w repo t) := by
  intro res tz h
  unfold migrateRepoSub at h
  rcases h1 : migrateProject fuel w repo.ID (repoOwner repo) repo.Path t with _ | ⟨r1, t1⟩
  · rw [h1] at h; cases h
  · have e1 := migrateProject_avoids fuel w repo.ID (repoOwner repo) repo.Path t r1 t1 h1
    rw [h1] at h
    cases r1 with
    | error e =>
      simp only [Option.some.injEq, Prod.mk.injEq] at h
      rw [← h.2]; exact e1.snoc _ rfl
    | ok u =>
      simp only [Option.some.injEq, Prod.mk.injEq] at h
      rw [← h.2]; exact e1

theorem migrateRepoSub_ok (fuel : Nat) (w : Remote) (repo : GitlabProject) (t : Trace)
    (res : Except Err Unit) (t1 : Trace) (h : migrateRepoSub fuel w repo t = some (res, t1)) :
    res = .ok () := by
  unfold migrateRepoSub at h
  split at h
  · cases h
  · simp only [Option.some.injEq, Prod.mk.injEq] at h; exact h.1.symm
  · simp only [Option.some.injEq, Prod.mk.injEq] at h; exact h.1.symm

theorem forRange_error {σ α : Type} (body : σ → α → Trace → Outcome σ) (xs : List α) (acc : σ)
    (t t1 : Trace) (e : Err) (h : forRange body xs acc t = some (.error e, t1)) :
    ∃ acc0 x t0, x ∈ xs ∧ body acc0 x t0 = some (.error e, t1) := by
  induction xs generalizing acc t with
  | nil => simp [forRange] at h
  | cons x xs ih =>
    rcases hb : body acc x t with _ | ⟨r, t2⟩
    · rw [forRange_cons_none body x xs acc t hb] at h; cases h
    · cases r with
      | error e2 =>
        rw [forRange_cons_error body x xs acc t t2 e2 hb] at h
        simp only [Option.some.injEq, Prod.mk.injEq, Except.error.injEq] at h
        exact ⟨acc, x, t, by simp, by rw [hb, h.1, h.2]⟩
      | ok a2 =>
        rw [forRange_cons_ok body x xs acc a2 t t2 hb] at h
        obtain ⟨a0, y, t0, hy, hb0⟩ := ih a2 t2 h
        exact ⟨a0, y, t0, List.mem_cons_of_mem _ hy, hb0⟩

theorem forPages_error {σ α : Type} (list : Nat → Trace → Except Err (List α) × Trace)
    (body : σ → α → Trace → Outcome σ) (fuel page : Nat) (acc : σ) (t t1 : Trace) (e : Err)
    (h : forPages list body fuel page acc t = some (.error e, t1)) :
    (∃ p t0, list p t0 = (.error e, t1)) ∨
    (∃ acc0 x t0, body acc0 x t0 = some (.error e, t1)) := by
  induction fuel generalizing page acc t with
  | zero => simp [forPages] at h
  | succ fuel ih =>
    rcases hl : list page t with ⟨r, t2⟩
    cases r with
    | error e2 =>
      simp only [forPages, hl, Option.some.injEq, Prod.mk.injEq, Except.error.injEq] at h
      exact Or.inl ⟨page, t, by rw [hl, h.1, h.2]⟩
    | ok items =>
      by_cases hlen : items.length = 0
      · simp [forPages, hl, hlen] at h
      · rcases hf : forRange body items acc t2 with _ | ⟨r, t3⟩
        · simp [forPages, hl, hlen, hf] at h
        · cases r with
          | error e2 =>
            simp only [forPages, hl, hlen, if_false, hf, Option.some.injEq, Prod.mk.injEq,
              Except.error.injEq] at h
            obtain ⟨a0, x, t0, _, hb⟩ := forRange_error body items acc t2 t3 e2 hf
            exact Or.inr ⟨a0, x, t0, by rw [hb, h.1, h.2]⟩
          | ok a2 =>
            simp only [forPages, hl, hlen, if_false, hf] at h
            exact ih (page + 1) a2 t3 h

/-! ## C10 and C3: the repository loop -/

theorem migrateRepoCreate_filter (w : Remote) (args : Arguments) (repo : GitlabProject)
    (t : Trace) :
    (migrateRepoCreate w args repo t).2.filter (onCalls Call.isMigrateRepo) =
      t.filter (onCalls Call.isMigrateRepo) ++
        (if (w.GetRepo (t ++ [Event.log .Info "Migrating repo"
              [("repo", repoOwner repo ++ "/" ++ repo.Path)]]) (repoOwner repo) repo.Path).isOk
          then [] else [Event.call (.MigrateRepo (migrateRepoOption args repo))]) := by
  simp only [migrateRepoCreate]
  split
  · next u hg => simp [hg, Except.isOk, Except.toBool, List.filter_append, onCalls, Call.isMigrateRepo]
  · next e hg =>
    split <;>
      simp [hg, Except.isOk, Except.toBool, List.filter_append, onCalls, Call.isMigrateRepo]

/-- C10: for every source repository, the loop body of `migrateRepo` issues the
mirror-import request (owner = normalized namespace, name = `repo.Path`, all eight
flags true, interval "20m") if and only if the existence check `GetRepo` fails;
when the repository exists only the creation is skipped and the sub-migration
`migrateProject(repo.ID, owner, repo.Path)` is still run; when the import request
fails the body returns that error at once, with no sub-migration, and the loop
returns it without processing any further repository. -/
theorem repo_step (fuel : Nat) (w : Remote) (args : Arguments) (repo : GitlabProject)
    (t : Trace) :
    let name := repoOwner repo ++ "/" ++ repo.Path
    let t1 := t ++ [Event.log .Info "Migrating repo" [("repo", name)]]
    let t2 := t1 ++ [Event.call (.GetRepo (repoOwner repo) repo.Path)]
    let o := migrateRepoOption args repo
    let t3 := t2 ++ [Event.call (.MigrateRepo o)]
    (o.RepoOwner = ReplaceAll repo.Namespace.FullPath "/" "_" ∧ o.RepoName = repo.Path ∧
      o.Mirror = true ∧ o.Private = true ∧ o.Labels = true ∧ o.Issues = true ∧ o.Wiki = true ∧
      o.Milestones = true ∧ o.PullRequests = true ∧ o.Releases = true ∧
      o.MirrorInterval = "20m") ∧
    (∀ r tz, migrateRepoItem fuel w args () repo t = some (r, tz) →
      tz.filter (onCalls Call.isMigrateRepo) = t.filter (onCalls Call.isMigrateRepo) ++
        (if (w.GetRepo t1 (repoOwner repo) repo.Path).isOk then []
          else [Event.call (.MigrateRepo o)])) ∧
    ((w.GetRepo t1 (repoOwner repo) repo.Path).isOk = true →
      migrateRepoItem fuel w args () repo t =
        migrateRepoSub fuel w repo
          (t2 ++ [Event.log .Info "Skipping repo, already exists" [("repo", name)]])) ∧
    ((w.GetRepo t1 (repoOwner repo) repo.Path).isOk = false →
      (w.MigrateRepo t2 o).isOk = true →
      migrateRepoItem fuel w args () repo t = migrateRepoSub fuel w repo t3) ∧
    (∀ ts, migrateRepoSub fuel w repo ts =
      (migrateProject fuel w repo.ID (repoOwner repo) repo.Path ts).map
        (fun p => (.ok (),
          match p.1 with
          | .ok _ => p.2
          | .error _ => p.2 ++ [Event.print "迁移repo额外数据失败: <nil> \n"]))) ∧
    (∀ e, (w.GetRepo t1 (repoOwner repo) repo.Path).isOk = false →
      w.MigrateRepo t2 o = .error e →
      migrateRepoItem fuel w args () repo t = some (.error e, t3) ∧
      (∀ rest, forRange (migrateRepoItem fuel w args) (repo :: rest) () t
        = some (.error e, t3)) ∧
      (∀ fuel1 page t0 pre rest, w.ListProjects t0 page 100 = .ok (pre ++ repo :: rest) →
        forRange (migrateRepoItem fuel w args) pre ()
          (t0 ++ [Event.call (.ListProjects page 100)]) = some (.ok (), t) →
        forPages (migrateRepoList w) (migrateRepoItem fuel w args) (fuel1 + 1) page () t0
          = some (.error e, t3))) := by
  intro name t1 t2 o t3
  refine ⟨⟨rfl, rfl, rfl, rfl, rfl, rfl, rfl, rfl, rfl, rfl, rfl⟩, ?_, ?_, ?_, ?_, ?_⟩
  · intro r tz h
    have hc := migrateRepoCreate_filter w args repo t
    unfold migrateRepoItem at h
    rcases hcr : migrateRepoCreate w args repo t with ⟨rc, tc⟩
    rw [hcr] at h hc
    simp only at hc
    cases rc with
    | error e =>
      simp only [Option.some.injEq, Prod.mk.injEq] at h
      rw [← h.2]; exact hc
    | ok u =>
      simp only at h
      have hext := (migrateRepoSub_avoids fuel w repo tc).mono
        (onCalls_mono isRepoLevel_of_isMigrateRepo) r tz h
      rw [hext.filter]; exact hc
  · intro hg
    cases hgr : w.GetRepo t1 (repoOwner repo) repo.Path with
    | error e => rw [hgr] at hg; cases hg
    | ok u => simp only [migrateRepoItem, migrateRepoCreate, t1, hgr, t2, name]
  · intro hg hm
    cases hgr : w.GetRepo t1 (repoOwner repo) repo.Path with
    | ok u => rw [hgr] at hg; cases hg
    | error e =>
      cases hmr : w.MigrateRepo t2 o with
      | error e2 => rw [hmr] at hm; cases hm
      | ok u => simp only [migrateRepoItem, migrateRepoCreate, t1, hgr, t2, name, o, hmr, t3]
  · intro ts
    unfold migrateRepoSub
    rcases migrateProject fuel w repo.ID (repoOwner repo) repo.Path ts with _ | ⟨r, tq⟩
    · rfl
    · cases r <;> rfl
  · intro e hg hm
    have hitem : migrateRepoItem fuel w args () repo t = some (.error e, t3) := by
      cases hgr : w.GetRepo t1 (repoOwner repo) repo.Path with
      | ok u => rw [hgr] at hg; cases hg
      | error e1 => simp only [migrateRepoItem, migrateRepoCreate, t1, hgr, t2, name, o, hm, t3]
    refine ⟨hitem, fun rest => forRange_cons_error _ repo rest () t t3 e hitem, ?_⟩
    intro fuel1 page t0 pre rest hl hpre
    have hr : forRange (migrateRepoItem fuel w args) (pre ++ repo :: rest) ()
        (t0 ++ [Event.call (.ListProjects page 100)]) = some (.error e, t3) := by
      rw [forRange_append _ pre (repo :: rest) () () _ t hpre]
      exact forRange_cons_error _ repo rest () t t3 e hitem
    simp [forPages, migrateRepoList, hl, hr]

/-- C10 on the sample world in which no repository exists and the import is
refused: `migrateRepo` returns the import error right after the first import
request; the second repository is never looked at. -/
theorem repo_step_witness :
    migrateRepo 2 importFailsRemote sampleArgs [] =
      some (.error "import refused",
        [Event.call (.ListProjects 1 100),
         Event.log .Info "Migrating repo" [("repo", "grp_sub/a")],
         Event.call (.GetRepo "grp_sub" "a"),
         Event.call (.MigrateRepo (migrateRepoOption sampleArgs repoA))]) :=
  ((repo_step 2 importFailsRemote sampleArgs repoA [Event.call (.ListProjects 1 100)]).2.2.2.2.2
    "import refused" rfl rfl).2.2 1 1 [] [] [repoB] rfl rfl

theorem migrateRepoItem_error (fuel : Nat) (w : Remote) (args : Arguments) (u : Unit)
    (repo : GitlabProject) (t tz : Trace) (e : Err)
    (h : migrateRepoItem fuel w args u repo t = some (.error e, tz)) :
    ∃ t0 o, tz = t0 ++ [Event.call (.MigrateRepo o)] ∧ w.MigrateRepo t0 o = .error e := by
  unfold migrateRepoItem at h
  rcases hc : migrateRepoCreate w args repo t with ⟨rc, tc⟩
  rw [hc] at h
  cases rc with
  | ok v =>
    simp only at h
    have := migrateRepoSub_ok fuel w repo tc _ tz h
    cases this
  | error e1 =>
    simp only [Option.some.injEq, Prod.mk.injEq, Except.error.injEq] at h
    obtain ⟨h1, h2⟩ := h
    subst h1; subst h2
    simp only [migrateRepoCreate] at hc
    split at hc
    · cases hc
    · split at hc
      · next e2 hm =>
        simp only [Prod.mk.injEq, Except.error.injEq] at hc
        exact ⟨_, _, hc.2.symm, by rw [hm, hc.1]⟩
      · cases hc

/-- C3 fails as stated: in the sample world the sub-migration of the first
repository returns an error ("migrating milestones: boom"), yet `migrateRepo`
returns success and goes on to process the second repository (its `GetRepo`
request and its own sub-migration follow the printed failure line). -/
theorem sub_failure_counterexample :
    migrateProject 3 subFailsRemote repoA.ID (repoOwner repoA) repoA.Path
      [Event.call (.ListProjects 1 100),
       Event.log .Info "Migrating repo" [("repo", "grp_sub/a")],
       Event.call (.GetRepo "grp_sub" "a"),
       Event.log .Info "Skipping repo, already exists" [("repo", "grp_sub/a")]]
      = some (.error "migrating milestones: boom",
        [Event.call (.ListProjects 1 100),
         Event.log .Info "Migrating repo" [("repo", "grp_sub/a")],
         Event.call (.GetRepo "grp_sub" "a"),
         Event.log .Info "Skipping repo, already exists" [("repo", "grp_sub/a")],
         Event.log .Info "Migrating milestones" [],
         Event.call (.ListRepoMilestones "grp_sub" "a" giteaMilestonesOpt)]) ∧
    migrateRepo 3 subFailsRemote sampleArgs [] =
      some (.ok (),
        [Event.call (.ListProjects 1 100),
         Event.log .Info "Migrating repo" [("repo", "grp_sub/a")],
         Event.call (.GetRepo "grp_sub" "a"),
         Event.log .Info "Skipping repo, already exists" [("repo", "grp_sub/a")],
         Event.log .Info "Migrating milestones" [],
         Event.call (.ListRepoMilestones "grp_sub" "a" giteaMilestonesOpt),
         Event.print "迁移repo额外数据失败: <nil> \n",
         Event.log .Info "Migrating repo" [("repo", "grp_sub/b")],
         Event.call (.GetRepo "grp_sub" "b"),
         Event.log .Info "Skipping repo, already exists" [("repo", "grp_sub/b")],
         Event.log .Info "Migrating milestones" [],
         Event.call (.ListRepoMilestones "grp_sub" "b" giteaMilestonesOpt),
         Event.print "迁移repo额外数据失败: <nil> \n",
         Event.call (.ListProjects 2 100)]) := by
  constructor <;> rfl

/-- C3, amended: when the sub-migration of a repository returns an error, the loop
body of `migrateRepo` prints a line and returns success, and the loop continues
with the remaining repositories; `migrateRepo` itself returns an error only when a
`ListProjects` or a `MigrateRepo` request failed, and then that request is the last
event of the run. -/
theorem sub_failure_continues (fuel : Nat) (w : Remote) (args : Arguments) :
    (∀ (repo : GitlabProject) (t ts t1 : Trace) (e : Err),
      migrateRepoCreate w args repo t = (.ok (), ts) →
      migrateProject fuel w repo.ID (repoOwner repo) repo.Path ts = some (.error e, t1) →
      ∃ line, migrateRepoItem fuel w args () repo t = some (.ok (), t1 ++ [Event.print line]) ∧
        ∀ rest, forRange (migrateRepoItem fuel w args) (repo :: rest) () t =
          forRange (migrateRepoItem fuel w args) rest () (t1 ++ [Event.print line])) ∧
    (∀ (t tz : Trace) (e : Err), migrateRepo fuel w args t = some (.error e, tz) →
      ∃ t0 c, tz = t0 ++ [Event.call c] ∧
        ((∃ page, c = .ListProjects page 100 ∧ w.ListProjects t0 page 100 = .error e) ∨
         (∃ o, c = .MigrateRepo o ∧ w.MigrateRepo t0 o = .error e))) := by
  constructor
  · intro repo t ts t1 e hc hs
    have hitem : migrateRepoItem fuel w args () repo t =
        some (.ok (), t1 ++ [Event.print "迁移repo额外数据失败: <nil> \n"]) := by
      simp only [migrateRepoItem, hc, migrateRepoSub, hs]
    exact ⟨_, hitem, fun rest => forRange_cons_ok _ repo rest () () t _ hitem⟩
  · intro t tz e h
    unfold migrateRepo at h
    rcases forPages_error _ _ fuel 1 () t tz e h with ⟨p, t0, hl⟩ | ⟨a0, x, t0, hb⟩
    · simp only [migrateRepoList, Prod.mk.injEq] at hl
      exact ⟨t0, _, hl.2.symm, Or.inl ⟨p, rfl, hl.1⟩⟩
    · obtain ⟨t2, o, h1, h2⟩ := migrateRepoItem_error fuel w args a0 x t0 tz e hb
      exact ⟨t2, _, h1, Or.inr ⟨o, rfl, h2⟩⟩

/-- C3, amended, on the sample world: after the failed sub-migration of the first
repository the loop goes on with the second one. -/
theorem sub_failure_continues_witness :
    ∃ line, forRange (migrateRepoItem 3 subFailsRemote sampleArgs) [repoA, repoB] ()
        [Event.call (.ListProjects 1 100)] =
      forRange (migrateRepoItem 3 subFailsRemote sampleArgs) [repoB] ()
        ([Event.call (.ListProjects 1 100),
          Event.log .Info "Migrating repo" [("repo", "grp_sub/a")],
          Event.call (.GetRepo "grp_sub" "a"),
          Event.log .Info "Skipping repo, already exists" [("repo", "grp_sub/a")],
          Event.log .Info "Migrating milestones" [],
          Event.call (.ListRepoMilestones "grp_sub" "a" giteaMilestonesOpt)]
          ++ [Event.print line]) :=
  ((sub_failure_continues 3 subFailsRemote sampleArgs).1 repoA
    [Event.call (.ListProjects 1 100)] _ _ "migrating milestones: boom" rfl rfl).elim
    (fun line h => ⟨line, h.2 [repoB]⟩)

/-! ## C2: the existence indexes -/

/-- C2 fails on the code for the label and milestone indexes: on a destination
whose labels and milestones are served in two non-empty pages followed by an empty
one, `giteaLabels` and `giteaMilestones` each issue a single listing request (page
option at its zero value) and return an index that has the entity of page 1 only;
the key "two" of page 2 is missing.  `giteaIssues` pages through the same shape of
collection and indexes both issues. -/
theorem index_misses_later_pages :
    giteaLabels twoPageRemote "o" "r" [] =
      (.ok [("one", labelOne)], [Event.call (.ListRepoLabels "o" "r" ⟨0⟩)]) ∧
    giteaMilestones twoPageRemote "o" "r" [] =
      (.ok [("one", milestoneOne)], [Event.call (.ListRepoMilestones "o" "r" ⟨0, "all"⟩)]) ∧
    GoMap.get? [("one", labelOne)] "two" = none ∧
    GoMap.get? [("one", milestoneOne)] "two" = none ∧
    giteaIssues 3 twoPageRemote "o" "r" [] =
      some (.ok [("two", issueTwo), ("one", issueOne)],
        [Event.call (.ListRepoIssues "o" "r" ⟨1, "all"⟩),
         Event.call (.ListRepoIssues "o" "r" ⟨2, "all"⟩),
         Event.call (.ListRepoIssues "o" "r" ⟨3, "all"⟩)]) := by
  refine ⟨rfl, rfl, by decide, by decide, rfl⟩

/-! ## Runs of the pagers over a collection served in pages -/

theorem GoMap.get?_set {α : Type} (m : GoMap α) (k : String) (v : α) (k1 : String) :
    (m.set k v).get? k1 = if k1 = k then some v else m.get? k1 := by
  unfold GoMap.set GoMap.get?
  rw [List.lookup_cons]
  by_cases h : k1 = k
  · simp [h]
  · have hb : (k1 == k) = false := by simpa using h
    rw [hb, if_neg h]

theorem index_isSome {α : Type} (key : α → String) (l : List α) (m : GoMap α) (k : String) :
    ((l.foldl (fun m x => m.set (key x) x) m).get? k).isSome = true ↔
      (k ∈ l.map key ∨ (m.get? k).isSome = true) := by
  induction l generalizing m with
  | nil => simp
  | cons x xs ih =>
    rw [List.foldl_cons, ih, GoMap.get?_set]
    by_cases h : k = key x
    · simp [h]
    · simp only [h, if_false, List.map_cons, List.mem_cons, false_or]

theorem index_value {α : Type} (key : α → String) (l : List α) (m : GoMap α) (k : String)
    (v : α) (h : (l.foldl (fun m x => m.set (key x) x) m).get? k = some v) :
    (v ∈ l ∧ key v = k) ∨ m.get? k = some v := by
  induction l generalizing m with
  | nil => exact Or.inr h
  | cons x xs ih =>
    rw [List.foldl_cons] at h
    rcases ih _ h with ⟨h1, h2⟩ | h1
    · exact Or.inl ⟨List.mem_cons_of_mem _ h1, h2⟩
    · rw [GoMap.get?_set] at h1
      by_cases hk : k = key x
      · rw [if_pos hk] at h1
        cases h1
        exact Or.inl ⟨List.mem_cons_self _ _, hk.symm⟩
      · rw [if_neg hk] at h1
        exact Or.inr h1

theorem labelIndex_isSome (listed : List GiteaLabel) (k : String) :
    ((labelIndex listed).get? k).isSome = true ↔ k ∈ listed.map (fun x => x.Name) := by
  unfold labelIndex
  rw [index_isSome (fun x : GiteaLabel => x.Name)]
  simp [GoMap.get?]

theorem milestoneIndex_isSome (listed : List GiteaMilestone) (k : String) :
    ((milestoneIndex listed).get? k).isSome = true ↔ k ∈ listed.map (fun x => x.Title) := by
  unfold milestoneIndex
  rw [index_isSome (fun x : GiteaMilestone => x.Title)]
  simp [GoMap.get?]

theorem isOk_elim {α : Type} {r : Except Err α} (h : r.isOk = true) : ∃ a, r = .ok a := by
  cases r with
  | error e => simp [Except.isOk, Except.toBool] at h
  | ok a => exact ⟨a, rfl⟩

theorem isSome_false_of_not {α : Type} {x : Option α} (h : ¬ x.isSome = true) :
    x.isSome = false := by
  cases x <;> simp_all

theorem migrateLabelsItem_step (w : Remote) (o r : String) (ex : GoMap GiteaLabel)
    (u : Unit) (x : GitlabLabel) (t : Trace) (hP : LabelWritesOk w o r ex u x t) :
    ∃ (u1 : Unit) (evs : List Event),
      migrateLabelsItem w o r ex u x t = some (.ok u1, t ++ evs) ∧
      evs.filter (onCalls Call.isLabelStep) =
        (if (ex.get? x.Name).isSome then []
          else [Event.call (.CreateLabel o r (createLabelOption x))]) := by
  by_cases h : (ex.get? x.Name).isSome = true
  · exact ⟨(), [], by simp [migrateLabelsItem, h], by simp [h]⟩
  · obtain ⟨a, ha⟩ := isOk_elim (hP (isSome_false_of_not h))
    refine ⟨(), [Event.call (.CreateLabel o r (createLabelOption x)),
      Event.log .Info "Created label"
        [("name", (createLabelOption x).Name), ("color", (createLabelOption x).Color)]], ?_, ?_⟩
    · simp [migrateLabelsItem, h, ha]
    · simp [h, onCalls, Call.isLabelStep]

theorem migrateMilestonesItem_step (w : Remote) (o r : String) (ex : GoMap GiteaMilestone)
    (u : Unit) (x : GitlabMilestone) (t : Trace) (hP : MilestoneWritesOk w o r ex u x t) :
    ∃ (u1 : Unit) (evs : List Event),
      migrateMilestonesItem w o r ex u x t = some (.ok u1, t ++ evs) ∧
      evs.filter (onCalls Call.isMilestoneStep) =
        (if (ex.get? x.Title).isSome then []
          else [Event.call (.CreateMilestone o r (createMilestoneOption x))]) := by
  by_cases h : (ex.get? x.Title).isSome = true
  · exact ⟨(), [], by simp [migrateMilestonesItem, h], by simp [h]⟩
  · obtain ⟨a, ha⟩ := isOk_elim (hP (isSome_false_of_not h))
    refine ⟨(), [Event.call (.CreateMilestone o r (createMilestoneOption x)),
      Event.log .Info "Created milestone" [("title", (createMilestoneOption x).Title)]], ?_, ?_⟩
    · simp [migrateMilestonesItem, h, ha]
    · simp [h, onCalls, Call.isMilestoneStep]

theorem migrateLabels_run (w : Remote) (pid : Int) (o r : String) (coll : Nat → List GitlabLabel)
    (n fuel : Nat) (t : Trace) (listed : List GiteaLabel)
    (hsrc : ∀ t p, w.ListLabels t pid p 100 = .ok (coll p)) (hserved : ServedInPages coll n)
    (hfuel : n < fuel) (hidx : w.ListRepoLabels t o r giteaLabelsOpt = .ok listed)
    (hwrites : EachPage (migrateLabelsList w pid) (migrateLabelsItem w o r (labelIndex listed))
      coll (LabelWritesOk w o r (labelIndex listed)) n 1 ()
      (t ++ [Event.call (.ListRepoLabels o r giteaLabelsOpt)])) :
    ∃ evs : List Event, migrateLabels fuel w pid o r t = some (.ok (), t ++ evs) ∧
      evs.filter (onCalls Call.isLabelStep) =
        pagedRun (fun p => [Event.call (.ListLabels pid p 100)])
          (fun x => if x.Name ∈ listed.map (fun l => l.Name) then []
            else [Event.call (.CreateLabel o r (createLabelOption x))]) coll n 1 := by
  obtain ⟨u1, evs, h1, h2⟩ := forPages_run_each (onCalls Call.isLabelStep)
    (fun p => Event.call (.ListLabels pid p 100)) (migrateLabelsList w pid)
    (migrateLabelsItem w o r (labelIndex listed))
    (fun x => if ((labelIndex listed).get? x.Name).isSome then []
      else [Event.call (.CreateLabel o r (createLabelOption x))]) coll
    (LabelWritesOk w o r (labelIndex listed)) n fuel
    (fun p t => by simp [migrateLabelsList, hsrc]) hserved hfuel
    (migrateLabelsItem_step w o r (labelIndex listed)) ()
    (t ++ [Event.call (.ListRepoLabels o r giteaLabelsOpt)]) hwrites
  refine ⟨[Event.call (.ListRepoLabels o r giteaLabelsOpt)] ++ evs, ?_, ?_⟩
  · simp only [migrateLabels, giteaLabels, hidx, h1, List.append_assoc]
  · rw [List.filter_append, h2]
    simp only [labelIndex_isSome]
    simp [onCalls, Call.isLabelStep]

theorem migrateMilestones_run (w : Remote) (pid : Int) (o r : String)
    (coll : Nat → List GitlabMilestone) (n fuel : Nat) (t : Trace)
    (listed : List GiteaMilestone)
    (hsrc : ∀ t p, w.ListMilestones t pid p 100 "active" = .ok (coll p))
    (hserved : ServedInPages coll n) (hfuel : n < fuel)
    (hidx : w.ListRepoMilestones t o r giteaMilestonesOpt = .ok listed)
    (hwrites : EachPage (migrateMilestonesList w pid)
      (migrateMilestonesItem w o r (milestoneIndex listed)) coll
      (MilestoneWritesOk w o r (milestoneIndex listed)) n 1 ()
      (t ++ [Event.call (.ListRepoMilestones o r giteaMilestonesOpt)])) :
    ∃ evs : List Event, migrateMilestones fuel w pid o r t = some (.ok (), t ++ evs) ∧
      evs.filter (onCalls Call.isMilestoneStep) =
        pagedRun (fun p => [Event.call (.ListMilestones pid p 100 "active")])
          (fun x => if x.Title ∈ listed.map (fun l => l.Title) then []
            else [Event.call (.CreateMilestone o r (createMilestoneOption x))]) coll n 1 := by
  obtain ⟨u1, evs, h1, h2⟩ := forPages_run_each (onCalls Call.isMilestoneStep)
    (fun p => Event.call (.ListMilestones pid p 100 "active")) (migrateMilestonesList w pid)
    (migrateMilestonesItem w o r (milestoneIndex listed))
    (fun x => if ((milestoneIndex listed).get? x.Title).isSome then []
      else [Event.call (.CreateMilestone o r (createMilestoneOption x))]) coll
    (MilestoneWritesOk w o r (milestoneIndex listed)) n fuel
    (fun p t => by simp [migrateMilestonesList, hsrc]) hserved hfuel
    (migrateMilestonesItem_step w o r (milestoneIndex listed)) ()
    (t ++ [Event.call (.ListRepoMilestones o r giteaMilestonesOpt)]) hwrites
  refine ⟨[Event.call (.ListRepoMilestones o r giteaMilestonesOpt)] ++ evs, ?_, ?_⟩
  · simp only [migrateMilestones, giteaMilestones, hidx, h1, List.append_assoc]
  · rw [List.filter_append, h2]
    simp only [milestoneIndex_isSome]
    simp [onCalls, Call.isMilestoneStep]

theorem filter_nil_of_false (q : Event → Bool) (evs : List Event)
    (h : ∀ e ∈ evs, q e = false) : evs.filter q = [] := by
  rw [List.filter_eq_nil_iff]
  intro e he
  simp [h e he]

theorem isOk_false_of_error {α : Type} {r : Except Err α} {e : Err} (h : r = .error e) :
    r.isOk = false := by
  subst h; rfl

theorem migrateUsersItem_step (w : Remote) (cache : GoMap String)
    (x : GitlabUser) (t : Trace) (hP : UserWritesOk w cache x t) :
    ∃ (cache1 : GoMap String) (evs : List Event),
      migrateUsersItem w cache x t = some (.ok cache1, t ++ evs) ∧
      evs.filter (onCalls Call.isUserStep) =
        (if x.Username = "ghost" then [] else [Event.call (.GetUserInfo x.Username)]) := by
  by_cases h : x.Username = "ghost"
  · exact ⟨cache.set x.Username x.Username, [], by simp [migrateUsersItem, h], by simp [h]⟩
  · cases hg : w.GetUserInfo (t ++ [Event.log .Info "Migrating user" [("username", x.Username)]])
        x.Username with
    | ok u =>
      refine ⟨cache.set x.Username x.Username,
        [Event.log .Info "Migrating user" [("username", x.Username)],
        Event.call (.GetUserInfo x.Username),
        Event.log .Info "Skipping user, already exists" [("username", x.Username)]], ?_, ?_⟩
      · simp [migrateUsersItem, h, hg]
      · simp [h, onCalls, Call.isUserStep]
    | error e =>
      obtain ⟨a, ha⟩ := isOk_elim (hP h (isOk_false_of_error hg))
      refine ⟨cache.set x.Username x.Username,
        [Event.log .Info "Migrating user" [("username", x.Username)],
        Event.call (.GetUserInfo x.Username), Event.call (.AdminCreateUser (createUserOption x)),
        Event.log .Info "Created user" [("username", a.UserName)]], ?_, ?_⟩
      · simp only [List.append_assoc, List.cons_append, List.nil_append] at ha
        simp [migrateUsersItem, h, hg, ha]
      · simp [h, onCalls, Call.isUserStep]

theorem migrateOrgsItem_step (w : Remote) (args : Arguments) (u : Unit)
    (x : GitlabGroup) (t : Trace) (hP : OrgWritesOk w args u x t) :
    ∃ (u1 : Unit) (evs : List Event),
      migrateOrgsItem w args u x t = some (.ok u1, t ++ evs) ∧
      evs.filter (onCalls Call.isOrgStep) = [Event.call (.GetOrg (orgPath x))] := by
  cases hg : w.GetOrg (t ++ [Event.log .Info "Migrating org" [("org", orgPath x)]])
      (orgPath x) with
  | ok u =>
    refine ⟨(), [Event.log .Info "Migrating org" [("org", orgPath x)],
      Event.call (.GetOrg (orgPath x)),
      Event.log .Info "Skipping org, already exists" [("org", orgPath x)]], ?_, ?_⟩
    · simp [migrateOrgsItem, hg]
    · simp [onCalls, Call.isOrgStep]
  | error e =>
    obtain ⟨a, ha⟩ := isOk_elim (hP (isOk_false_of_error hg))
    refine ⟨(), [Event.log .Info "Migrating org" [("org", orgPath x)],
      Event.call (.GetOrg (orgPath x)),
      Event.call (.AdminCreateOrg args.GiteaAdmin (createOrgOption x)),
      Event.log .Info "Created org" [("orgname", x.Name)]], ?_, ?_⟩
    · simp only [List.append_assoc, List.cons_append, List.nil_append] at ha
      simp [migrateOrgsItem, hg, ha]
    · simp [onCalls, Call.isOrgStep]

theorem migrateUsers_run (w : Remote) (coll : Nat → List GitlabUser) (n fuel : Nat)
    (cache : GoMap String) (t : Trace)
    (hsrc : ∀ t p, w.ListUsers t p 100 = .ok (coll p)) (hserved : ServedInPages coll n)
    (hfuel : n < fuel)
    (hwrites : EachPage (migrateUsersList w) (migrateUsersItem w) coll (UserWritesOk w) n 1
      cache t) :
    ∃ (cache1 : GoMap String) (evs : List Event),
      migrateUsers fuel w cache t = some (.ok cache1, t ++ evs) ∧
      evs.filter (onCalls Call.isUserStep) =
        pagedRun (fun p => [Event.call (.ListUsers p 100)])
          (fun x => if x.Username = "ghost" then [] else [Event.call (.GetUserInfo x.Username)])
          coll n 1 := by
  obtain ⟨c1, evs, h1, h2⟩ := forPages_run_each (onCalls Call.isUserStep)
    (fun p => Event.call (.ListUsers p 100)) (migrateUsersList w) (migrateUsersItem w)
    (fun x => if x.Username = "ghost" then [] else [Event.call (.GetUserInfo x.Username)])
    coll (UserWritesOk w) n fuel (fun p t => by simp [migrateUsersList, hsrc]) hserved hfuel
    (migrateUsersItem_step w) cache t hwrites
  refine ⟨c1, evs, h1, ?_⟩
  rw [h2]
  simp [onCalls, Call.isUserStep]

theorem migrateOrgs_run (w : Remote) (args : Arguments) (coll : Nat → List GitlabGroup)
    (n fuel : Nat) (t : Trace)
    (hsrc : ∀ t p, w.ListGroups t p 100 true = .ok (coll p)) (hserved : ServedInPages coll n)
    (hfuel : n < fuel)
    (hwrites : EachPage (migrateOrgsList w) (migrateOrgsItem w args) coll (OrgWritesOk w args)
      n 1 () t) :
    ∃ evs : List Event, migrateOrgs fuel w args t = some (.ok (), t ++ evs) ∧
      evs.filter (onCalls Call.isOrgStep) =
        pagedRun (fun p => [Event.call (.ListGroups p 100 true)])
          (fun x => [Event.call (.GetOrg (orgPath x))]) coll n 1 := by
  obtain ⟨u1, evs, h1, h2⟩ := forPages_run_each (onCalls Call.isOrgStep)
    (fun p => Event.call (.ListGroups p 100 true)) (migrateOrgsList w) (migrateOrgsItem w args)
    (fun x => [Event.call (.GetOrg (orgPath x))])
    coll (OrgWritesOk w args) n fuel (fun p t => by simp [migrateOrgsList, hsrc]) hserved hfuel
    (migrateOrgsItem_step w args) () t hwrites
  refine ⟨evs, h1, ?_⟩
  rw [h2]
  simp [onCalls, Call.isOrgStep]

theorem isRepoLevel_of_isRepoStep (c : Call) (h : c.isRepoStep = true) :
    c.isRepoLevel = true := by
  cases c <;> simp_all [Call.isRepoStep, Call.isRepoLevel]

theorem migrateRepoItem_step (fuel : Nat) (w : Remote) (args : Arguments)
    (u : Unit) (x : GitlabProject) (t : Trace) (hP : RepoStepOk fuel w args u x t) :
    ∃ (u1 : Unit) (evs : List Event),
      migrateRepoItem fuel w args u x t = some (.ok u1, t ++ evs) ∧
      evs.filter (onCalls Call.isRepoStep) = [Event.call (.GetRepo (repoOwner x) x.Path)] := by
  have hcreate : ∃ e0, migrateRepoCreate w args x t =
      (.ok (), t ++ [Event.log .Info "Migrating repo"
        [("repo", repoOwner x ++ "/" ++ x.Path)], Event.call (.GetRepo (repoOwner x) x.Path), e0])
      ∧ onCalls Call.isRepoStep e0 = false := by
    simp only [migrateRepoCreate]
    cases hg : w.GetRepo (t ++ [Event.log .Info "Migrating repo"
        [("repo", repoOwner x ++ "/" ++ x.Path)]]) (repoOwner x) x.Path with
    | ok v =>
      exact ⟨Event.log .Info "Skipping repo, already exists"
        [("repo", repoOwner x ++ "/" ++ x.Path)], by simp, rfl⟩
    | error e =>
      obtain ⟨a, ha⟩ := isOk_elim (hP.1 (isOk_false_of_error hg))
      simp only [ha]
      exact ⟨Event.call (.MigrateRepo (migrateRepoOption args x)), by simp, rfl⟩
  have hsub := hP.2
  obtain ⟨e0, hc, he0⟩ := hcreate
  have hs : (migrateProject fuel w x.ID (repoOwner x) x.Path (t ++ [Event.log .Info
      "Migrating repo" [("repo", repoOwner x ++ "/" ++ x.Path)],
      Event.call (.GetRepo (repoOwner x) x.Path), e0])).isSome = true := by
    have := hsub
    unfold SubMigrationReturns at this
    rw [hc] at this
    exact this
  have hsome : ∃ r tz, migrateRepoSub fuel w x (t ++ [Event.log .Info "Migrating repo"
        [("repo", repoOwner x ++ "/" ++ x.Path)], Event.call (.GetRepo (repoOwner x) x.Path), e0])
        = some (r, tz) := by
    unfold migrateRepoSub
    rcases hp : migrateProject fuel w x.ID (repoOwner x) x.Path (t ++ [Event.log .Info
        "Migrating repo" [("repo", repoOwner x ++ "/" ++ x.Path)],
        Event.call (.GetRepo (repoOwner x) x.Path), e0]) with _ | ⟨r, tq⟩
    · rw [hp] at hs; cases hs
    · cases r with
      | error e => exact ⟨_, _, rfl⟩
      | ok v => exact ⟨_, _, rfl⟩
  obtain ⟨r, tz, hr⟩ := hsome
  have hok := migrateRepoSub_ok fuel w x _ r tz hr
  subst hok
  obtain ⟨evs, h1, h2⟩ := (migrateRepoSub_avoids fuel w x _).mono
    (onCalls_mono isRepoLevel_of_isRepoStep) _ tz hr
  refine ⟨(), [Event.log .Info "Migrating repo" [("repo", repoOwner x ++ "/" ++ x.Path)],
    Event.call (.GetRepo (repoOwner x) x.Path), e0] ++ evs, ?_, ?_⟩
  · simp only [migrateRepoItem, hc, hr, h1, List.append_assoc]
  · rw [List.filter_append, filter_nil_of_false _ evs h2]
    have h3 : onCalls Call.isRepoStep
        (Event.log .Info "Migrating repo" [("repo", repoOwner x ++ "/" ++ x.Path)]) = false := rfl
    have h4 : onCalls Call.isRepoStep (Event.call (.GetRepo (repoOwner x) x.Path)) = true := rfl
    simp only [List.filter_cons, h3, h4, he0, List.filter_nil, List.append_nil, if_true]
    simp

theorem migrateRepo_run (w : Remote) (args : Arguments) (coll : Nat → List GitlabProject)
    (n fuel : Nat) (t : Trace)
    (hsrc : ∀ t p, w.ListProjects t p 100 = .ok (coll p)) (hserved : ServedInPages coll n)
    (hfuel : n < fuel)
    (hsub : EachPage (migrateRepoList w) (migrateRepoItem fuel w args) coll
      (RepoStepOk fuel w args) n 1 () t) :
    ∃ evs : List Event, migrateRepo fuel w args t = some (.ok (), t ++ evs) ∧
      evs.filter (onCalls Call.isRepoStep) =
        pagedRun (fun p => [Event.call (.ListProjects p 100)])
          (fun x => [Event.call (.GetRepo (repoOwner x) x.Path)]) coll n 1 := by
  obtain ⟨u1, evs, h1, h2⟩ := forPages_run_each (onCalls Call.isRepoStep)
    (fun p => Event.call (.ListProjects p 100)) (migrateRepoList w)
    (migrateRepoItem fuel w args)
    (fun x => [Event.call (.GetRepo (repoOwner x) x.Path)]) coll
    (RepoStepOk fuel w args) n fuel
    (fun p t => by simp [migrateRepoList, hsrc]) hserved hfuel
    (migrateRepoItem_step fuel w args) () t hsub
  refine ⟨evs, h1, ?_⟩
  rw [h2]
  simp [onCalls, Call.isRepoStep]

theorem forRange_giteaIssuesItem (items : List GiteaIssue) (acc : GoMap GiteaIssue)
    (t : Trace) :
    forRange giteaIssuesItem items acc t =
      some (.ok (items.foldl (fun m x => m.set x.Title x) acc), t) := by
  induction items generalizing acc with
  | nil => rfl
  | cons x xs ih =>
    rw [forRange_cons_ok giteaIssuesItem x xs acc (acc.set x.Title x) t t rfl, ih]
    rfl

theorem issuePageCalls_avoid (k : Call → Bool)
    (hk : ∀ o r opt, k (.ListRepoIssues o r opt) = false) (o r : String) (n page : Nat) :
    ∀ e ∈ issuePageCalls o r n page, onCalls k e = false := by
  induction n generalizing page with
  | zero =>
    intro e he
    simp only [issuePageCalls, List.mem_singleton] at he
    subst he; exact hk _ _ _
  | succ n ih =>
    intro e he
    simp only [issuePageCalls, List.mem_cons] at he
    rcases he with h | h
    · subst h; exact hk _ _ _
    · exact ih (page + 1) e h

theorem giteaIssues_pages (w : Remote) (o r : String) (dcoll : Nat → List GiteaIssue)
    (n : Nat) :
    ∀ (fuel page : Nat) (acc : GoMap GiteaIssue) (t : Trace), n < fuel →
      (∀ i, i < n → dcoll (page + i) ≠ []) → dcoll (page + n) = [] →
      (∀ i, i ≤ n → w.ListRepoIssues (t ++ (issuePageCalls o r n page).take i) o r
        ⟨page + i, "all"⟩ = .ok (dcoll (page + i))) →
      forPages (giteaIssuesList w o r) giteaIssuesItem fuel page acc t =
        some (.ok ((pagesFrom dcoll n page).foldl (fun m x => m.set x.Title x) acc),
          t ++ issuePageCalls o r n page) := by
  induction n with
  | zero =>
    intro fuel page acc t hfuel _ hempty hd
    obtain ⟨fuel, rfl⟩ : ∃ k, fuel = k + 1 := ⟨fuel - 1, by omega⟩
    have h0 := hd 0 (le_refl _)
    simp only [List.take_zero, List.append_nil, Nat.add_zero] at h0 hempty
    simp [forPages, giteaIssuesList, h0, hempty, pagesFrom, issuePageCalls]
  | succ n ih =>
    intro fuel page acc t hfuel hne hempty hd
    obtain ⟨fuel, rfl⟩ : ∃ k, fuel = k + 1 := ⟨fuel - 1, by omega⟩
    have h0 := hd 0 (by omega)
    simp only [List.take_zero, List.append_nil, Nat.add_zero] at h0
    have hne0 : dcoll page ≠ [] := by simpa using hne 0 (by omega)
    have hlen : ¬ (dcoll page).length = 0 := by
      intro h; exact hne0 (List.length_eq_zero.mp h)
    have hrest := ih fuel (page + 1) ((dcoll page).foldl (fun m x => m.set x.Title x) acc)
      (t ++ [Event.call (.ListRepoIssues o r ⟨page, "all"⟩)]) (by omega)
      (fun i hi => by
        have := hne (i + 1) (by omega)
        rwa [show page + (i + 1) = page + 1 + i by omega] at this)
      (by rwa [show page + (n + 1) = page + 1 + n by omega] at hempty)
      (fun i hi => by
        have := hd (i + 1) (by omega)
        simp only [issuePageCalls, List.take_succ_cons] at this
        rw [show page + (i + 1) = page + 1 + i by omega] at this
        simpa [List.append_assoc] using this)
    simp only [forPages, giteaIssuesList, h0, hlen, if_false, forRange_giteaIssuesItem, hrest,
      pagesFrom, List.foldl_append, issuePageCalls, List.append_assoc, List.singleton_append]

theorem giteaIssues_run (w : Remote) (o r : String) (dcoll : Nat → List GiteaIssue)
    (m fuel : Nat) (t : Trace)
    (hd : ∀ i, i ≤ m → w.ListRepoIssues (t ++ (issuePageCalls o r m 1).take i) o r
      ⟨1 + i, "all"⟩ = .ok (dcoll (1 + i)))
    (hserved : ServedInPages dcoll m) (hfuel : m < fuel) :
    giteaIssues fuel w o r t =
      some (.ok (issueIndex (pagesFrom dcoll m 1)), t ++ issuePageCalls o r m 1) := by
  unfold giteaIssues
  rw [giteaIssues_pages w o r dcoll m fuel 1 [] t hfuel
    (fun i hi => hserved.1 (1 + i) (by omega) (by omega))
    (by rw [Nat.add_comm]; exact hserved.2) hd]
  rfl

theorem migrateIssuesItem_step (w : Remote) (o r : String) (ms : GoMap GiteaMilestone)
    (ls : GoMap GiteaLabel) (is : GoMap GiteaIssue)
    (u : Unit) (x : GitlabIssue) (t : Trace) (hP : IssueWritesOk w o r ms ls is u x t) :
    ∃ (u1 : Unit) (evs : List Event),
      migrateIssuesItem w o r ms ls is u x t = some (.ok u1, t ++ evs) ∧
      evs.filter (onCalls Call.isIssueStep) = [issueRequest o r ms ls is x] := by
  have hlogs := filter_nil_of_false _ _ (issueLogs_onCalls Call.isIssueStep ms ls x)
  cases hi : is.get? x.Title with
  | none =>
    simp only [IssueWritesOk, hi] at hP
    obtain ⟨a, ha⟩ := isOk_elim hP
    refine ⟨(), issueLogs ms ls x ++ [Event.call (.CreateIssue o r (issueOption ms ls x)),
      Event.log .Info "Created issue" [("title", (issueOption ms ls x).Title)]], ?_, ?_⟩
    · simp [migrateIssuesItem, migrateIssue, hi, ha]
    · rw [List.filter_append, hlogs]
      simp [issueRequest, hi, onCalls, Call.isIssueStep]
  | some ex =>
    simp only [IssueWritesOk, hi] at hP
    obtain ⟨a, ha⟩ := isOk_elim hP.1
    obtain ⟨b, hb⟩ := isOk_elim hP.2
    refine ⟨(), issueLogs ms ls x ++
      [Event.call (.EditIssue o r ex.Index (editIssueOption (issueOption ms ls x) x)),
       Event.call (.ReplaceIssueLabels o r ex.Index ⟨(issueOption ms ls x).Labels⟩),
       Event.log .Info "Updated issue" [("title", (issueOption ms ls x).Title)]], ?_, ?_⟩
    · simp only [List.append_assoc] at hb
      simp [migrateIssuesItem, migrateIssue, hi, ha, hb]
    · rw [List.filter_append, hlogs]
      simp [issueRequest, hi, onCalls, Call.isIssueStep]

theorem migrateIssues_run (w : Remote) (pid : Int) (o r : String)
    (coll : Nat → List GitlabIssue) (n : Nat) (dcoll : Nat → List GiteaIssue) (m fuel : Nat)
    (t : Trace) (listedM : List GiteaMilestone) (listedL : List GiteaLabel)
    (hsrc : ∀ t p, w.ListProjectIssues t pid p 100 = .ok (coll p))
    (hserved : ServedInPages coll n) (hfuel : n < fuel)
    (hd : ∀ i, i ≤ m → w.ListRepoIssues (t ++ (issuePageCalls o r m 1).take i) o r
      ⟨1 + i, "all"⟩ = .ok (dcoll (1 + i)))
    (hdserved : ServedInPages dcoll m) (hdfuel : m < fuel)
    (hm : w.ListRepoMilestones (t ++ issuePageCalls o r m 1) o r giteaMilestonesOpt
      = .ok listedM)
    (hl : w.ListRepoLabels
      (t ++ issuePageCalls o r m 1 ++ [Event.call (.ListRepoMilestones o r giteaMilestonesOpt)])
      o r giteaLabelsOpt = .ok listedL)
    (hwrites : EachPage (migrateIssuesList w pid)
      (migrateIssuesItem w o r (milestoneIndex listedM) (labelIndex listedL)
        (issueIndex (pagesFrom dcoll m 1))) coll
      (IssueWritesOk w o r (milestoneIndex listedM) (labelIndex listedL)
        (issueIndex (pagesFrom dcoll m 1))) n 1 ()
      (t ++ issuePageCalls o r m 1 ++ [Event.call (.ListRepoMilestones o r giteaMilestonesOpt)]
        ++ [Event.call (.ListRepoLabels o r giteaLabelsOpt)])) :
    ∃ evs : List Event, migrateIssues fuel w pid o r t = some (.ok (), t ++ evs) ∧
      evs.filter (onCalls Call.isIssueStep) =
        pagedRun (fun p => [Event.call (.ListProjectIssues pid p 100)])
          (fun x => [issueRequest o r (milestoneIndex listedM) (labelIndex listedL)
            (issueIndex (pagesFrom dcoll m 1)) x]) coll n 1 := by
  obtain ⟨u1, evs, h1, h2⟩ := forPages_run_each (onCalls Call.isIssueStep)
    (fun p => Event.call (.ListProjectIssues pid p 100)) (migrateIssuesList w pid)
    (migrateIssuesItem w o r (milestoneIndex listedM) (labelIndex listedL)
      (issueIndex (pagesFrom dcoll m 1)))
    (fun x => [issueRequest o r (milestoneIndex listedM) (labelIndex listedL)
      (issueIndex (pagesFrom dcoll m 1)) x]) coll
    (IssueWritesOk w o r (milestoneIndex listedM) (labelIndex listedL)
      (issueIndex (pagesFrom dcoll m 1))) n fuel
    (fun p t => by simp [migrateIssuesList, hsrc]) hserved hfuel
    (migrateIssuesItem_step w o r _ _ _) ()
    (t ++ issuePageCalls o r m 1 ++ [Event.call (.ListRepoMilestones o r giteaMilestonesOpt)]
      ++ [Event.call (.ListRepoLabels o r giteaLabelsOpt)]) hwrites
  refine ⟨issuePageCalls o r m 1 ++ [Event.call (.ListRepoMilestones o r giteaMilestonesOpt)]
      ++ [Event.call (.ListRepoLabels o r giteaLabelsOpt)] ++ evs, ?_, ?_⟩
  · simp only [List.append_assoc] at h1 hl
    simp only [migrateIssues, giteaIssues_run w o r dcoll m fuel t hd hdserved hdfuel,
      giteaMilestones, hm, giteaLabels, hl, h1, List.append_assoc]
  · rw [List.filter_append, List.filter_append, List.filter_append, h2,
      filter_nil_of_false _ _ (issuePageCalls_avoid Call.isIssueStep (fun _ _ _ => rfl) o r m 1)]
    simp [onCalls, Call.isIssueStep]

/-! ## C6: pagination termination -/

/-- C6: for a source collection whose pages `1..n` are non-empty and whose page
`n + 1` is empty, with no remote errors in the run (page requests return the pages;
each create, edit, replace and import request that the run issues is accepted at the
history at which the run issues it; the destination listings that build the indexes
succeed at the histories at which they are issued; and for `migrateRepo` every
sub-migration that the run starts returns, with success or with an error, from the
history at which it is started), each of the six source pager loops, given more
than `n` units of fuel, returns success, and the page requests and per-item
requests it issues are exactly: the request for page 1 with page size 100, the
requests for the items of page 1 in order, and so on up to page `n`, then the
request for page `n + 1`, and nothing after it. -/
theorem pagination_termination (w : Remote) (fuel : Nat) :
    (∀ (coll : Nat → List GitlabUser) (n : Nat) (cache : GoMap String) (t : Trace),
      (∀ t p, w.ListUsers t p 100 = .ok (coll p)) → ServedInPages coll n → n < fuel →
      EachPage (migrateUsersList w) (migrateUsersItem w) coll (UserWritesOk w) n 1 cache t →
      ∃ (cache1 : GoMap String) (evs : List Event),
        migrateUsers fuel w cache t = some (.ok cache1, t ++ evs) ∧
        evs.filter (onCalls Call.isUserStep) =
          pagedRun (fun p => [Event.call (.ListUsers p 100)])
            (fun x => if x.Username = "ghost" then []
              else [Event.call (.GetUserInfo x.Username)]) coll n 1) ∧
    (∀ (args : Arguments) (coll : Nat → List GitlabGroup) (n : Nat) (t : Trace),
      (∀ t p, w.ListGroups t p 100 true = .ok (coll p)) → ServedInPages coll n → n < fuel →
      EachPage (migrateOrgsList w) (migrateOrgsItem w args) coll (OrgWritesOk w args) n 1 () t →
      ∃ evs : List Event, migrateOrgs fuel w args t = some (.ok (), t ++ evs) ∧
        evs.filter (onCalls Call.isOrgStep) =
          pagedRun (fun p => [Event.call (.ListGroups p 100 true)])
            (fun x => [Event.call (.GetOrg (orgPath x))]) coll n 1) ∧
    (∀ (args : Arguments) (coll : Nat → List GitlabProject) (n : Nat) (t : Trace),
      (∀ t p, w.ListProjects t p 100 = .ok (coll p)) → ServedInPages coll n → n < fuel →
      EachPage (migrateRepoList w) (migrateRepoItem fuel w args) coll
        (RepoStepOk fuel w args) n 1 () t →
      ∃ evs : List Event, migrateRepo fuel w args t = some (.ok (), t ++ evs) ∧
        evs.filter (onCalls Call.isRepoStep) =
          pagedRun (fun p => [Event.call (.ListProjects p 100)])
            (fun x => [Event.call (.GetRepo (repoOwner x) x.Path)]) coll n 1) ∧
    (∀ (pid : Int) (o r : String) (coll : Nat → List GitlabMilestone) (n : Nat) (t : Trace)
      (listed : List GiteaMilestone),
      (∀ t p, w.ListMilestones t pid p 100 "active" = .ok (coll p)) → ServedInPages coll n →
      n < fuel → w.ListRepoMilestones t o r giteaMilestonesOpt = .ok listed →
      EachPage (migrateMilestonesList w pid)
        (migrateMilestonesItem w o r (milestoneIndex listed)) coll
        (MilestoneWritesOk w o r (milestoneIndex listed)) n 1 ()
        (t ++ [Event.call (.ListRepoMilestones o r giteaMilestonesOpt)]) →
      ∃ evs : List Event, migrateMilestones fuel w pid o r t = some (.ok (), t ++ evs) ∧
        evs.filter (onCalls Call.isMilestoneStep) =
          pagedRun (fun p => [Event.call (.ListMilestones pid p 100 "active")])
            (fun x => if x.Title ∈ listed.map (fun l => l.Title) then []
              else [Event.call (.CreateMilestone o r (createMilestoneOption x))]) coll n 1) ∧
    (∀ (pid : Int) (o r : String) (coll : Nat → List GitlabLabel) (n : Nat) (t : Trace)
      (listed : List GiteaLabel),
      (∀ t p, w.ListLabels t pid p 100 = .ok (coll p)) → ServedInPages coll n →
      n < fuel → w.ListRepoLabels t o r giteaLabelsOpt = .ok listed →
      EachPage (migrateLabelsList w pid) (migrateLabelsItem w o r (labelIndex listed)) coll
        (LabelWritesOk w o r (labelIndex listed)) n 1 ()
        (t ++ [Event.call (.ListRepoLabels o r giteaLabelsOpt)]) →
      ∃ evs : List Event, migrateLabels fuel w pid o r t = some (.ok (), t ++ evs) ∧
        evs.filter (onCalls Call.isLabelStep) =
          pagedRun (fun p => [Event.call (.ListLabels pid p 100)])
            (fun x => if x.Name ∈ listed.map (fun l => l.Name) then []
              else [Event.call (.CreateLabel o r (createLabelOption x))]) coll n 1) ∧
    (∀ (pid : Int) (o r : String) (coll : Nat → List GitlabIssue) (n : Nat)
      (dcoll : Nat → List GiteaIssue) (m : Nat) (t : Trace) (listedM : List GiteaMilestone)
      (listedL : List GiteaLabel),
      (∀ t p, w.ListProjectIssues t pid p 100 = .ok (coll p)) → ServedInPages coll n →
      n < fuel →
      (∀ i, i ≤ m → w.ListRepoIssues (t ++ (issuePageCalls o r m 1).take i) o r
        ⟨1 + i, "all"⟩ = .ok (dcoll (1 + i))) → ServedInPages dcoll m →
      m < fuel →
      w.ListRepoMilestones (t ++ issuePageCalls o r m 1) o r giteaMilestonesOpt
        = .ok listedM →
      w.ListRepoLabels
        (t ++ issuePageCalls o r m 1 ++
          [Event.call (.ListRepoMilestones o r giteaMilestonesOpt)])
        o r giteaLabelsOpt = .ok listedL →
      EachPage (migrateIssuesList w pid)
        (migrateIssuesItem w o r (milestoneIndex listedM) (labelIndex listedL)
          (issueIndex (pagesFrom dcoll m 1))) coll
        (IssueWritesOk w o r (milestoneIndex listedM) (labelIndex listedL)
          (issueIndex (pagesFrom dcoll m 1))) n 1 ()
        (t ++ issuePageCalls o r m 1 ++
          [Event.call (.ListRepoMilestones o r giteaMilestonesOpt)] ++
          [Event.call (.ListRepoLabels o r giteaLabelsOpt)]) →
      ∃ evs : List Event, migrateIssues fuel w pid o r t = some (.ok (), t ++ evs) ∧
        evs.filter (onCalls Call.isIssueStep) =
          pagedRun (fun p => [Event.call (.ListProjectIssues pid p 100)])
            (fun x => [issueRequest o r (milestoneIndex listedM) (labelIndex listedL)
              (issueIndex (pagesFrom dcoll m 1)) x]) coll n 1) := by
  refine ⟨?_, ?_, ?_, ?_, ?_, ?_⟩
  · intro coll n cache t h1 h2 h3 h4
    exact migrateUsers_run w coll n fuel cache t h1 h2 h3 h4
  · intro args coll n t h1 h2 h3 h4
    exact migrateOrgs_run w args coll n fuel t h1 h2 h3 h4
  · intro args coll n t h1 h2 h3 h4
    exact migrateRepo_run w args coll n fuel t h1 h2 h3 h4
  · intro pid o r coll n t listed h1 h2 h3 h4 h5
    exact migrateMilestones_run w pid o r coll n fuel t listed h1 h2 h3 h4 h5
  · intro pid o r coll n t listed h1 h2 h3 h4 h5
    exact migrateLabels_run w pid o r coll n fuel t listed h1 h2 h3 h4 h5
  · intro pid o r coll n dcoll m t listedM listedL h1 h2 h3 h4 h5 h6 h7 h8 h9
    exact migrateIssues_run w pid o r coll n dcoll m fuel t listedM listedL h1 h2 h3 h4 h5 h6
      h7 h8 h9

theorem onePage_served {α : Type} (x : α) : ServedInPages (onePage x) 1 := by
  refine ⟨?_, rfl⟩
  intro p h1 h2
  have : p = 1 := by omega
  subst this
  simp [onePage]

theorem empty_served {α : Type} : ServedInPages (fun _ => ([] : List α)) 0 := by
  refine ⟨?_, rfl⟩
  intro p h1 h2
  omega

theorem listingRemote_unreached_history :
    migrateProject 2 listingRemote repoA.ID (repoOwner repoA) repoA.Path
      [Event.call (.CreateIssue "grp_sub" "a" ⟨"x", "", none, 0, []⟩),
       Event.call (.CreateIssue "grp_sub" "a" ⟨"y", "", none, 0, []⟩)] = none := by
  rfl

/-- C6 on the sample world with one item on page 1 of every source collection: each
of the six pagers returns success after requesting pages 1 and 2; for `migrateRepo`
and `migrateIssues` the destination lists the issues created so far, so that the
sub-migration would not return from every history, but does from the one the run
reaches. -/
theorem pagination_termination_witness :
    (∃ cache1 evs, migrateUsers 2 onePageRemote [] [] = some (.ok cache1, [] ++ evs) ∧
      evs.filter (onCalls Call.isUserStep) =
        [Event.call (.ListUsers 1 100), Event.call (.GetUserInfo "ann"),
         Event.call (.ListUsers 2 100)]) ∧
    (∃ evs, migrateOrgs 2 onePageRemote sampleArgs [] = some (.ok (), [] ++ evs) ∧
      evs.filter (onCalls Call.isOrgStep) =
        [Event.call (.ListGroups 1 100 true), Event.call (.GetOrg (orgPath sampleGroup)),
         Event.call (.ListGroups 2 100 true)]) ∧
    (∃ evs, migrateRepo 2 listingRemote sampleArgs [] = some (.ok (), [] ++ evs) ∧
      evs.filter (onCalls Call.isRepoStep) =
        [Event.call (.ListProjects 1 100), Event.call (.GetRepo (repoOwner repoA) "a"),
         Event.call (.ListProjects 2 100)]) ∧
    (∃ evs, migrateMilestones 2 onePageRemote 1 "o" "r" [] = some (.ok (), [] ++ evs) ∧
      evs.filter (onCalls Call.isMilestoneStep) =
        [Event.call (.ListMilestones 1 1 100 "active"),
         Event.call (.CreateMilestone "o" "r" (createMilestoneOption sampleMilestone)),
         Event.call (.ListMilestones 1 2 100 "active")]) ∧
    (∃ evs, migrateLabels 2 onePageRemote 1 "o" "r" [] = some (.ok (), [] ++ evs) ∧
      evs.filter (onCalls Call.isLabelStep) =
        [Event.call (.ListLabels 1 1 100),
         Event.call (.CreateLabel "o" "r" (createLabelOption sampleLabel)),
         Event.call (.ListLabels 1 2 100)]) ∧
    (∃ evs, migrateIssues 2 listingRemote 1 "o" "r" [] = some (.ok (), [] ++ evs) ∧
      evs.filter (onCalls Call.isIssueStep) =
        [Event.call (.ListProjectIssues 1 1 100),
         Event.call (.CreateIssue "o" "r" (issueOption [] [] sampleIssue)),
         Event.call (.ListProjectIssues 1 2 100)]) :=
  ⟨(pagination_termination onePageRemote 2).1 (onePage sampleUser) 1 [] []
      (fun _ _ => rfl) (onePage_served _) (by omega)
      ⟨⟨fun _ _ => rfl, fun _ _ _ => trivial⟩, fun _ _ _ => trivial⟩,
   (pagination_termination onePageRemote 2).2.1 sampleArgs (onePage sampleGroup) 1 []
      (fun _ _ => rfl) (onePage_served _) (by omega)
      ⟨⟨fun _ => rfl, fun _ _ _ => trivial⟩, fun _ _ _ => trivial⟩,
   (pagination_termination listingRemote 2).2.2.1 sampleArgs (onePage repoA) 1 []
      (fun _ _ => rfl) (onePage_served _) (by omega)
      ⟨⟨⟨fun _ => rfl, rfl⟩, fun _ _ _ => trivial⟩, fun _ _ _ => trivial⟩,
   (pagination_termination onePageRemote 2).2.2.2.1 1 "o" "r" (onePage sampleMilestone) 1 [] []
      (fun _ _ => rfl) (onePage_served _) (by omega) rfl
      ⟨⟨fun _ => rfl, fun _ _ _ => trivial⟩, fun _ _ _ => trivial⟩,
   (pagination_termination onePageRemote 2).2.2.2.2.1 1 "o" "r" (onePage sampleLabel) 1 [] []
      (fun _ _ => rfl) (onePage_served _) (by omega) rfl
      ⟨⟨fun _ => rfl, fun _ _ _ => trivial⟩, fun _ _ _ => trivial⟩,
   (pagination_termination listingRemote 2).2.2.2.2.2 1 "o" "r" (onePage sampleIssue) 1
      (fun _ => []) 0 [] [] [] (fun _ _ => rfl) (onePage_served _) (by omega)
      (fun i hi => by
        have h0 : i = 0 := by omega
        subst h0; rfl)
      empty_served (by omega) rfl rfl
      ⟨⟨rfl, fun _ _ _ => trivial⟩, fun _ _ _ => trivial⟩⟩

/-! ## C1: idempotence of the create-only reconcilers -/

theorem forRange_first_run {α : Type} (body1 : Unit → α → Trace → Outcome Unit)
    (key : α → String) (inEx1 : String → Prop) (created : Trace → List String)
    (hmono : ∀ t evs k, k ∈ created t → k ∈ created (t ++ evs))
    (h1 : ∀ u x t, ∃ evs, body1 u x t = some (.ok (), t ++ evs) ∧
      (inEx1 (key x) ∨ key x ∈ created (t ++ evs))) (xs : List α) (t : Trace) :
    ∃ evs, forRange body1 xs () t = some (.ok (), t ++ evs) ∧
      ∀ x ∈ xs, inEx1 (key x) ∨ key x ∈ created (t ++ evs) := by
  induction xs generalizing t with
  | nil => exact ⟨[], by simp [forRange], by simp⟩
  | cons x xs ih =>
    obtain ⟨evs, hb, hx⟩ := h1 () x t
    obtain ⟨evs2, hr, hxs⟩ := ih (t ++ evs)
    refine ⟨evs ++ evs2, ?_, ?_⟩
    · rw [forRange_cons_ok body1 x xs () () t _ hb, hr, List.append_assoc]
    · intro y hy
      rcases List.mem_cons.mp hy with h | h
      · subst h
        rcases hx with h | h
        · exact Or.inl h
        · right
          rw [← List.append_assoc]
          exact hmono _ _ _ h
      · rw [← List.append_assoc]
        exact hxs y h

theorem forRange_second_run {α : Type} (body2 : Unit → α → Trace → Outcome Unit)
    (key : α → String) (cov : String → Prop)
    (h2 : ∀ u x t, cov (key x) → body2 u x t = some (.ok (), t)) (xs : List α) (t : Trace)
    (hxs : ∀ x ∈ xs, cov (key x)) : forRange body2 xs () t = some (.ok (), t) := by
  induction xs with
  | nil => rfl
  | cons x xs ih =>
    rw [forRange_cons_ok body2 x xs () () t t (h2 () x t (hxs x (List.mem_cons_self _ _)))]
    exact ih (fun y hy => hxs y (List.mem_cons_of_mem _ hy))

theorem reconcile_again {α : Type} (list : Nat → Trace → Except Err (List α) × Trace)
    (rq : Nat → Event) (src : Nat → Except Err (List α))
    (hlist : ∀ p t, list p t = (src p, t ++ [rq p]))
    (body1 body2 : Unit → α → Trace → Outcome Unit) (key : α → String)
    (inEx1 : String → Prop) (created : Trace → List String) (cov : String → Prop)
    (hmono : ∀ t evs k, k ∈ created t → k ∈ created (t ++ evs))
    (h1 : ∀ u x t, ∃ evs, body1 u x t = some (.ok (), t ++ evs) ∧
      (inEx1 (key x) ∨ key x ∈ created (t ++ evs)))
    (h2 : ∀ u x t, cov (key x) → body2 u x t = some (.ok (), t))
    (hex : ∀ k, inEx1 k → cov k) (fuel : Nat) :
    ∀ (page : Nat) (t : Trace) (r : Except Err Unit) (t1 : Trace),
      forPages list body1 fuel page () t = some (r, t1) → (∀ k ∈ created t1, cov k) →
      ∀ s, ∃ evs, forPages list body2 fuel page () s = some (r, s ++ evs) ∧
        ∀ e ∈ evs, ∃ p, e = rq p := by
  induction fuel with
  | zero => intro page t r t1 h; simp [forPages] at h
  | succ fuel ih =>
    intro page t r t1 h hcov s
    cases hs : src page with
    | error e =>
      simp only [forPages, hlist, hs, Option.some.injEq, Prod.mk.injEq] at h
      refine ⟨[rq page], ?_, ?_⟩
      · simp only [forPages, hlist, hs, h.1]
      · intro e1 he1
        exact ⟨page, by simpa using he1⟩
    | ok items =>
      by_cases hlen : items.length = 0
      · simp only [forPages, hlist, hs, hlen, if_true, Option.some.injEq, Prod.mk.injEq] at h
        refine ⟨[rq page], ?_, ?_⟩
        · simp only [forPages, hlist, hs, hlen, if_true, h.1]
        · intro e1 he1
          exact ⟨page, by simpa using he1⟩
      · obtain ⟨evs, hr, hitems⟩ := forRange_first_run body1 key inEx1 created hmono h1 items
          (t ++ [rq page])
        simp only [forPages, hlist, hs, hlen, if_false, hr] at h
        have hext : Ext (fun _ => false) (t ++ [rq page] ++ evs) t1 := by
          refine forPages_avoids (fun _ => false) list body1 ?_ ?_ fuel (page + 1) ()
            (t ++ [rq page] ++ evs) r t1 h
          · intro p t0
            exact ⟨[rq p], by rw [hlist], by simp⟩
          · intro u x t0 r0 t2 h0
            obtain ⟨evs0, hb0, _⟩ := h1 u x t0
            rw [hb0] at h0
            simp only [Option.some.injEq, Prod.mk.injEq] at h0
            exact ⟨evs0, h0.2.symm, by simp⟩
        obtain ⟨evs1, ht1, _⟩ := hext
        have hall : ∀ x ∈ items, cov (key x) := by
          intro x hx
          rcases hitems x hx with h3 | h3
          · exact hex _ h3
          · apply hcov
            rw [ht1]
            exact hmono _ _ _ h3
        obtain ⟨evs2, hrun, hrq⟩ := ih (page + 1) (t ++ [rq page] ++ evs) r t1 h hcov
          (s ++ [rq page])
        refine ⟨[rq page] ++ evs2, ?_, ?_⟩
        · simp only [forPages, hlist, hs, hlen, if_false,
            forRange_second_run body2 key cov h2 items (s ++ [rq page]) hall, hrun,
            List.append_assoc]
        · intro e1 he1
          rcases List.mem_append.mp he1 with h3 | h3
          · exact ⟨page, by simpa using h3⟩
          · exact hrq e1 h3

theorem numberLabels_names (id : Int) (os : List CreateLabelOption) :
    (numberLabels id os).map (fun x => x.Name) = os.map (fun x => x.Name) := by
  induction os generalizing id with
  | nil => rfl
  | cons o os ih => simp [numberLabels, ih]

theorem numberMilestones_titles (id : Int) (os : List CreateMilestoneOption) :
    (numberMilestones id os).map (fun x => x.Title) = os.map (fun x => x.Title) := by
  induction os generalizing id with
  | nil => rfl
  | cons o os ih => simp [numberMilestones, ih]

theorem createdLabels_append (o r : String) (t evs : Trace) :
    createdLabels o r (t ++ evs) = createdLabels o r t ++ createdLabels o r evs := by
  simp [createdLabels, List.filterMap_append]

theorem createdMilestones_append (o r : String) (t evs : Trace) :
    createdMilestones o r (t ++ evs) = createdMilestones o r t ++ createdMilestones o r evs := by
  simp [createdMilestones, List.filterMap_append]

theorem createdLabels_of_no_create (o r : String) (evs : List Event)
    (h : ∀ e ∈ evs, onCalls Call.isCreate e = false) : createdLabels o r evs = [] := by
  unfold createdLabels
  rw [List.filterMap_eq_nil_iff]
  intro e he
  have := h e he
  cases e with
  | call c => cases c <;> simp_all [onCalls, Call.isCreate]
  | log l m f => rfl
  | print s => rfl

theorem createdMilestones_of_no_create (o r : String) (evs : List Event)
    (h : ∀ e ∈ evs, onCalls Call.isCreate e = false) : createdMilestones o r evs = [] := by
  unfold createdMilestones
  rw [List.filterMap_eq_nil_iff]
  intro e he
  have := h e he
  cases e with
  | call c => cases c <;> simp_all [onCalls, Call.isCreate]
  | log l m f => rfl
  | print s => rfl

theorem repoLabels_names (init : List GiteaLabel) (o r : String) (t : Trace) (k : String) :
    k ∈ (repoLabels init o r t).map (fun x => x.Name) ↔
      k ∈ init.map (fun x => x.Name) ∨ k ∈ (createdLabels o r t).map (fun x => x.Name) := by
  unfold repoLabels
  rw [List.map_append, List.mem_append, numberLabels_names]

theorem repoMilestones_titles (init : List GiteaMilestone) (o r : String) (t : Trace)
    (k : String) :
    k ∈ (repoMilestones init o r t).map (fun x => x.Title) ↔
      k ∈ init.map (fun x => x.Title) ∨
        k ∈ (createdMilestones o r t).map (fun x => x.Title) := by
  unfold repoMilestones
  rw [List.map_append, List.mem_append, numberMilestones_titles]

theorem migrateLabels_again (srcL : Int → Nat → Except Err (List GitlabLabel))
    (srcM : Int → Nat → Except Err (List GitlabMilestone))
    (initL : String → String → List GiteaLabel)
    (initM : String → String → List GiteaMilestone) (fuel : Nat) (pid : Int) (o r : String)
    (t : Trace) (res : Except Err Unit) (t1 : Trace)
    (h : migrateLabels fuel (modelRemote srcL srcM initL initM) pid o r t = some (res, t1)) :
    ∃ evs, migrateLabels fuel (modelRemote srcL srcM initL initM) pid o r t1
        = some (res, t1 ++ evs) ∧ ∀ e ∈ evs, onCalls Call.isCreate e = false := by
  obtain ⟨ext, hext, _⟩ := migrateLabels_avoids fuel _ pid o r t res t1 h
  have hg : ∀ t0, giteaLabels (modelRemote srcL srcM initL initM) o r t0 =
      (.ok (labelIndex (repoLabels (initL o r) o r t0)),
        t0 ++ [Event.call (.ListRepoLabels o r giteaLabelsOpt)]) := fun _ => rfl
  simp only [migrateLabels, hg] at h
  obtain ⟨evs, hrun, hrq⟩ := reconcile_again
    (migrateLabelsList (modelRemote srcL srcM initL initM) pid)
    (fun p => Event.call (.ListLabels pid p 100)) (fun p => srcL pid p) (fun _ _ => rfl)
    (migrateLabelsItem (modelRemote srcL srcM initL initM) o r
      (labelIndex (repoLabels (initL o r) o r t)))
    (migrateLabelsItem (modelRemote srcL srcM initL initM) o r
      (labelIndex (repoLabels (initL o r) o r t1)))
    (fun x => x.Name)
    (fun k => ((labelIndex (repoLabels (initL o r) o r t)).get? k).isSome = true)
    (fun t0 => (createdLabels o r t0).map (fun x => x.Name))
    (fun k => ((labelIndex (repoLabels (initL o r) o r t1)).get? k).isSome = true)
    (by
      intro t0 evs k hk
      beta_reduce at hk ⊢
      rw [createdLabels_append, List.map_append]
      exact List.mem_append_left _ hk)
    (by
      intro u x t0
      by_cases hx : ((labelIndex (repoLabels (initL o r) o r t)).get? x.Name).isSome = true
      · exact ⟨[], by simp [migrateLabelsItem, hx], Or.inl hx⟩
      · refine ⟨[Event.call (.CreateLabel o r (createLabelOption x)),
          Event.log .Info "Created label"
            [("name", (createLabelOption x).Name), ("color", (createLabelOption x).Color)]],
          ?_, Or.inr ?_⟩
        · simp [migrateLabelsItem, hx, modelRemote]
        · simp [createdLabels_append, createdLabels, createLabelOption])
    (by
      intro u x t0 hx
      simp [migrateLabelsItem, hx])
    (by
      intro k hk
      rw [labelIndex_isSome, repoLabels_names] at hk ⊢
      rcases hk with hk | hk
      · exact Or.inl hk
      · right
        rw [hext, createdLabels_append, List.map_append]
        exact List.mem_append_left _ hk)
    fuel 1 (t ++ [Event.call (.ListRepoLabels o r giteaLabelsOpt)]) res t1 h
    (by
      intro k hk
      beta_reduce at hk ⊢
      rw [labelIndex_isSome, repoLabels_names]
      exact Or.inr hk)
    (t1 ++ [Event.call (.ListRepoLabels o r giteaLabelsOpt)])
  refine ⟨[Event.call (.ListRepoLabels o r giteaLabelsOpt)] ++ evs, ?_, ?_⟩
  · simp only [migrateLabels, hg, hrun, List.append_assoc]
  · intro e he
    rcases List.mem_append.mp he with h3 | h3
    · simp only [List.mem_singleton] at h3
      subst h3; rfl
    · obtain ⟨p, hp⟩ := hrq e h3
      subst hp; rfl

theorem migrateMilestones_again (srcL : Int → Nat → Except Err (List GitlabLabel))
    (srcM : Int → Nat → Except Err (List GitlabMilestone))
    (initL : String → String → List GiteaLabel)
    (initM : String → String → List GiteaMilestone) (fuel : Nat) (pid : Int) (o r : String)
    (t : Trace) (res : Except Err Unit) (t1 : Trace)
    (h : migrateMilestones fuel (modelRemote srcL srcM initL initM) pid o r t
      = some (res, t1)) :
    ∃ evs, migrateMilestones fuel (modelRemote srcL srcM initL initM) pid o r t1
        = some (res, t1 ++ evs) ∧ ∀ e ∈ evs, onCalls Call.isCreate e = false := by
  obtain ⟨ext, hext, _⟩ := migrateMilestones_avoids fuel _ pid o r t res t1 h
  have hg : ∀ t0, giteaMilestones (modelRemote srcL srcM initL initM) o r t0 =
      (.ok (milestoneIndex (repoMilestones (initM o r) o r t0)),
        t0 ++ [Event.call (.ListRepoMilestones o r giteaMilestonesOpt)]) := fun _ => rfl
  simp only [migrateMilestones, hg] at h
  obtain ⟨evs, hrun, hrq⟩ := reconcile_again
    (migrateMilestonesList (modelRemote srcL srcM initL initM) pid)
    (fun p => Event.call (.ListMilestones pid p 100 "active")) (fun p => srcM pid p)
    (fun _ _ => rfl)
    (migrateMilestonesItem (modelRemote srcL srcM initL initM) o r
      (milestoneIndex (repoMilestones (initM o r) o r t)))
    (migrateMilestonesItem (modelRemote srcL srcM initL initM) o r
      (milestoneIndex (repoMilestones (initM o r) o r t1)))
    (fun x => x.Title)
    (fun k => ((milestoneIndex (repoMilestones (initM o r) o r t)).get? k).isSome = true)
    (fun t0 => (createdMilestones o r t0).map (fun x => x.Title))
    (fun k => ((milestoneIndex (repoMilestones (initM o r) o r t1)).get? k).isSome = true)
    (by
      intro t0 evs k hk
      beta_reduce at hk ⊢
      rw [createdMilestones_append, List.map_append]
      exact List.mem_append_left _ hk)
    (by
      intro u x t0
      by_cases hx : ((milestoneIndex (repoMilestones (initM o r) o r t)).get? x.Title).isSome
          = true
      · exact ⟨[], by simp [migrateMilestonesItem, hx], Or.inl hx⟩
      · refine ⟨[Event.call (.CreateMilestone o r (createMilestoneOption x)),
          Event.log .Info "Created milestone" [("title", (createMilestoneOption x).Title)]],
          ?_, Or.inr ?_⟩
        · simp [migrateMilestonesItem, hx, modelRemote]
        · simp [createdMilestones_append, createdMilestones, createMilestoneOption])
    (by
      intro u x t0 hx
      simp [migrateMilestonesItem, hx])
    (by
      intro k hk
      rw [milestoneIndex_isSome, repoMilestones_titles] at hk ⊢
      rcases hk with hk | hk
      · exact Or.inl hk
      · right
        rw [hext, createdMilestones_append, List.map_append]
        exact List.mem_append_left _ hk)
    fuel 1 (t ++ [Event.call (.ListRepoMilestones o r giteaMilestonesOpt)]) res t1 h
    (by
      intro k hk
      beta_reduce at hk ⊢
      rw [milestoneIndex_isSome, repoMilestones_titles]
      exact Or.inr hk)
    (t1 ++ [Event.call (.ListRepoMilestones o r giteaMilestonesOpt)])
  refine ⟨[Event.call (.ListRepoMilestones o r giteaMilestonesOpt)] ++ evs, ?_, ?_⟩
  · simp only [migrateMilestones, hg, hrun, List.append_assoc]
  · intro e he
    rcases List.mem_append.mp he with h3 | h3
    · simp only [List.mem_singleton] at h3
      subst h3; rfl
    · obtain ⟨p, hp⟩ := hrq e h3
      subst hp; rfl

/-- C1: in the destination model where `CreateLabel` and `CreateMilestone` add the
entity to the repository and the listing returns the repository's entities, for
every source snapshot and every initial destination, whenever a run of
`migrateLabels` (likewise `migrateMilestones`) has returned, a second run against
the same snapshot returns the same result and issues no create request, so the
labels and milestones of every repository after the second run are those after the
first; and when the snapshot is served in pages `1..n` followed by an empty page,
the first run does return, with success, given more than `n` units of fuel. -/
theorem create_only_idempotent (srcL : Int → Nat → Except Err (List GitlabLabel))
    (srcM : Int → Nat → Except Err (List GitlabMilestone))
    (initL : String → String → List GiteaLabel)
    (initM : String → String → List GiteaMilestone) (fuel : Nat) (pid : Int) (o r : String)
    (t : Trace) :
    (∀ res t1, migrateLabels fuel (modelRemote srcL srcM initL initM) pid o r t = some (res, t1) →
      ∃ t2, migrateLabels fuel (modelRemote srcL srcM initL initM) pid o r t1 = some (res, t2) ∧
        Ext (onCalls Call.isCreate) t1 t2 ∧
        (∀ o1 r1, repoLabels (initL o1 r1) o1 r1 t2 = repoLabels (initL o1 r1) o1 r1 t1) ∧
        (∀ o1 r1, repoMilestones (initM o1 r1) o1 r1 t2
          = repoMilestones (initM o1 r1) o1 r1 t1)) ∧
    (∀ res t1, migrateMilestones fuel (modelRemote srcL srcM initL initM) pid o r t
        = some (res, t1) →
      ∃ t2, migrateMilestones fuel (modelRemote srcL srcM initL initM) pid o r t1
          = some (res, t2) ∧
        Ext (onCalls Call.isCreate) t1 t2 ∧
        (∀ o1 r1, repoLabels (initL o1 r1) o1 r1 t2 = repoLabels (initL o1 r1) o1 r1 t1) ∧
        (∀ o1 r1, repoMilestones (initM o1 r1) o1 r1 t2
          = repoMilestones (initM o1 r1) o1 r1 t1)) ∧
    (∀ (coll : Nat → List GitlabLabel) (n : Nat), (∀ p, srcL pid p = .ok (coll p)) →
      ServedInPages coll n → n < fuel →
      ∃ t1, migrateLabels fuel (modelRemote srcL srcM initL initM) pid o r t
        = some (.ok (), t1)) ∧
    (∀ (coll : Nat → List GitlabMilestone) (n : Nat), (∀ p, srcM pid p = .ok (coll p)) →
      ServedInPages coll n → n < fuel →
      ∃ t1, migrateMilestones fuel (modelRemote srcL srcM initL initM) pid o r t
        = some (.ok (), t1)) := by
  have hsame : ∀ (t1 : Trace) (evs : List Event),
      (∀ e ∈ evs, onCalls Call.isCreate e = false) →
      (∀ o1 r1, repoLabels (initL o1 r1) o1 r1 (t1 ++ evs)
        = repoLabels (initL o1 r1) o1 r1 t1) ∧
      (∀ o1 r1, repoMilestones (initM o1 r1) o1 r1 (t1 ++ evs)
        = repoMilestones (initM o1 r1) o1 r1 t1) := by
    intro t1 evs hevs
    constructor
    · intro o1 r1
      simp only [repoLabels, createdLabels_append, createdLabels_of_no_create o1 r1 evs hevs,
        List.append_nil]
    · intro o1 r1
      simp only [repoMilestones, createdMilestones_append,
        createdMilestones_of_no_create o1 r1 evs hevs, List.append_nil]
  refine ⟨?_, ?_, ?_, ?_⟩
  · intro res t1 h
    obtain ⟨evs, h1, h2⟩ := migrateLabels_again srcL srcM initL initM fuel pid o r t res t1 h
    exact ⟨t1 ++ evs, h1, ⟨evs, rfl, h2⟩, hsame t1 evs h2⟩
  · intro res t1 h
    obtain ⟨evs, h1, h2⟩ := migrateMilestones_again srcL srcM initL initM fuel pid o r t res t1 h
    exact ⟨t1 ++ evs, h1, ⟨evs, rfl, h2⟩, hsame t1 evs h2⟩
  · intro coll n hsrc hserved hfuel
    obtain ⟨evs, h1, _⟩ := migrateLabels_run (modelRemote srcL srcM initL initM) pid o r coll n
      fuel t (repoLabels (initL o r) o r t) (fun _ p => hsrc p) hserved hfuel rfl
      (eachPage_of_forall _ _ _ _ (fun _ _ _ _ => rfl) n 1 () _)
    exact ⟨_, h1⟩
  · intro coll n hsrc hserved hfuel
    obtain ⟨evs, h1, _⟩ := migrateMilestones_run (modelRemote srcL srcM initL initM) pid o r
      coll n fuel t (repoMilestones (initM o r) o r t) (fun _ p => hsrc p) hserved hfuel rfl
      (eachPage_of_forall _ _ _ _ (fun _ _ _ _ => rfl) n 1 () _)
    exact ⟨_, h1⟩

/-- C1 on the sample snapshot (one label, one milestone) and an empty destination:
after the first run has created the label (the milestone), the second run returns
success without any create request and leaves the destination as it was. -/
theorem create_only_idempotent_witness :
    (∃ t2, migrateLabels 2
        (modelRemote (fun _ p => .ok (onePage sampleLabel p))
          (fun _ p => .ok (onePage sampleMilestone p)) (fun _ _ => []) (fun _ _ => []))
        1 "o" "r"
        [Event.call (.ListRepoLabels "o" "r" giteaLabelsOpt),
         Event.call (.ListLabels 1 1 100),
         Event.call (.CreateLabel "o" "r" (createLabelOption sampleLabel)),
         Event.log .Info "Created label" [("name", "B"), ("color", "#ff0000")],
         Event.call (.ListLabels 1 2 100)] = some (.ok (), t2) ∧
      Ext (onCalls Call.isCreate)
        [Event.call (.ListRepoLabels "o" "r" giteaLabelsOpt),
         Event.call (.ListLabels 1 1 100),
         Event.call (.CreateLabel "o" "r" (createLabelOption sampleLabel)),
         Event.log .Info "Created label" [("name", "B"), ("color", "#ff0000")],
         Event.call (.ListLabels 1 2 100)] t2 ∧
      repoLabels [] "o" "r" t2 = [⟨1, "B", "#ff0000", ""⟩]) ∧
    (∃ t1, migrateMilestones 2
        (modelRemote (fun _ p => .ok (onePage sampleLabel p))
          (fun _ p => .ok (onePage sampleMilestone p)) (fun _ _ => []) (fun _ _ => []))
        1 "o" "r" [] = some (.ok (), t1)) := by
  have h := create_only_idempotent (fun _ p => .ok (onePage sampleLabel p))
    (fun _ p => .ok (onePage sampleMilestone p)) (fun _ _ => []) (fun _ _ => []) 2 1 "o" "r" []
  refine ⟨?_, h.2.2.2 (onePage sampleMilestone) 1 (fun _ => rfl) (onePage_served _) (by omega)⟩
  obtain ⟨t2, h1, h2, h3, _⟩ := h.1 (.ok ()) _ rfl
  exact ⟨t2, h1, h2, (h3 "o" "r").trans rfl⟩

/-! ## C9: duplicate natural keys in the source -/

theorem filter_filter_of_imp (q q1 : Event → Bool) (h : ∀ e, q1 e = true → q e = true)
    (l : List Event) : (l.filter q).filter q1 = l.filter q1 := by
  rw [List.filter_filter]
  apply List.filter_congr
  intro e _
  cases h1 : q1 e with
  | false => simp
  | true => simp [h e h1]

theorem flatMap_ite_singleton {α β : Type} (p : α → Prop) [DecidablePred p] (g : α → β)
    (l : List α) :
    l.flatMap (fun x => if p x then [g x] else []) = (l.filter (fun x => decide (p x))).map g := by
  induction l with
  | nil => rfl
  | cons x xs ih =>
    rw [List.flatMap_cons, ih]
    by_cases h : p x
    · simp [h]
    · simp [h]

theorem issueIndex_isSome (listed : List GiteaIssue) (k : String) :
    ((issueIndex listed).get? k).isSome = true ↔ k ∈ listed.map (fun x => x.Title) := by
  unfold issueIndex
  rw [index_isSome (fun x : GiteaIssue => x.Title)]
  simp [GoMap.get?]

theorem giteaIssues_index_complete (w : Remote) (o r : String)
    (dcoll : Nat → List GiteaIssue) (m fuel : Nat) (t : Trace)
    (hd : ∀ i, i ≤ m → w.ListRepoIssues (t ++ (issuePageCalls o r m 1).take i) o r
      ⟨1 + i, "all"⟩ = .ok (dcoll (1 + i)))
    (hserved : ServedInPages dcoll m) (hfuel : m < fuel) :
    ∃ idx, giteaIssues fuel w o r t = some (.ok idx, t ++ issuePageCalls o r m 1) ∧
      (∀ k, (idx.get? k).isSome = true ↔ k ∈ (pagesFrom dcoll m 1).map (fun x => x.Title)) ∧
      (∀ k v, idx.get? k = some v → v.Title = k ∧ v ∈ pagesFrom dcoll m 1) := by
  refine ⟨issueIndex (pagesFrom dcoll m 1), giteaIssues_run w o r dcoll m fuel t hd hserved hfuel,
    issueIndex_isSome _, ?_⟩
  intro k v hv
  rcases index_value (fun x : GiteaIssue => x.Title) (pagesFrom dcoll m 1) [] k v hv with h | h
  · exact ⟨h.2, h.1⟩
  · simp [GoMap.get?] at h

theorem keyed_run {α : Type} (q q1 : Event → Bool) (hq : ∀ e, q1 e = true → q e = true)
    (evs : List Event) (req : Nat → List Event) (contrib : α → List Event)
    (coll : Nat → List α) (n : Nat) (p : α → Prop) [DecidablePred p] (g : α → Event)
    (h : evs.filter q = pagedRun req contrib coll n 1)
    (hreq : ∀ page, (req page).filter q1 = [])
    (hcontrib : ∀ x, (contrib x).filter q1 = if p x then [g x] else []) :
    evs.filter q1 = ((pagesFrom coll n 1).filter (fun x => decide (p x))).map g := by
  rw [← filter_filter_of_imp q q1 hq evs, h, pagedRun_filter]
  have h1 : (fun page => (req page).filter q1) = fun _ => [] := funext hreq
  have h2 : (fun x => (contrib x).filter q1) = fun x => if p x then [g x] else [] :=
    funext hcontrib
  rw [h1, h2, pagedRun_nil_req, flatMap_ite_singleton]

/-- C9 fails as stated: from a destination with no entity of the key "dup", one run
of `migrateIssues` over a source with two issues titled "dup" issues two
`CreateIssue` requests with that title (and no edit), so a destination where
create adds an issue holds two issues titled "dup"; likewise one run of
`migrateLabels` and of `migrateMilestones` leaves two labels and two milestones
with the key "dup". -/
theorem collision_counterexample :
    (migrateIssues 2 dupRemote 1 "o" "r" []).map
        (fun p => ((createdIssues "o" "r" p.2).map (fun x => x.Title),
          p.2.filter (onCalls (fun c => c.isIssueStep && !c.isSourceList))))
      = some (["dup", "dup"],
          [Event.call (.CreateIssue "o" "r" ⟨"dup", "first", none, 0, []⟩),
           Event.call (.CreateIssue "o" "r" ⟨"dup", "second", none, 0, []⟩)]) ∧
    repoLabels [] "o" "r" [] = [] ∧
    (migrateLabels 2 dupRemote 1 "o" "r" []).map (fun p => repoLabels [] "o" "r" p.2)
      = some [⟨1, "dup", "#111111", "first"⟩, ⟨2, "dup", "#222222", "second"⟩] ∧
    repoMilestones [] "o" "r" [] = [] ∧
    (migrateMilestones 2 dupRemote 1 "o" "r" []).map (fun p => repoMilestones [] "o" "r" p.2)
      = some [⟨1, "dup", "first", "", none⟩, ⟨2, "dup", "second", "", none⟩] := by
  refine ⟨rfl, rfl, rfl, rfl, rfl⟩

/-- C9, amended: the existence index is built once before the loop and is not
updated by the run's own creations.  With no remote errors in the run, for a source
inventory served in pages and a key `k` absent from the destination when the index
is built (the destination listings and the acceptance of the create, edit and
replace requests are constrained only at the histories at which the run issues
them, so the destination may list what the run creates), one run of
`migrateLabels` (`migrateMilestones`, `migrateIssues`) issues one create request
for every source entity with the key `k`, in source order, and no edit for that
key; two source entities with the same key are therefore both created. -/
theorem duplicate_keys_created (w : Remote) (fuel : Nat) (k : String) :
    (∀ (pid : Int) (o r : String) (coll : Nat → List GitlabLabel) (n : Nat) (t : Trace)
      (listed : List GiteaLabel),
      (∀ t p, w.ListLabels t pid p 100 = .ok (coll p)) → ServedInPages coll n →
      n < fuel → w.ListRepoLabels t o r giteaLabelsOpt = .ok listed →
      EachPage (migrateLabelsList w pid) (migrateLabelsItem w o r (labelIndex listed)) coll
        (LabelWritesOk w o r (labelIndex listed)) n 1 ()
        (t ++ [Event.call (.ListRepoLabels o r giteaLabelsOpt)]) →
      k ∉ listed.map (fun l => l.Name) →
      ∃ evs : List Event, migrateLabels fuel w pid o r t = some (.ok (), t ++ evs) ∧
        evs.filter (onCalls (Call.isLabelNamed k)) =
          ((pagesFrom coll n 1).filter (fun x => decide (x.Name = k))).map
            (fun x => Event.call (.CreateLabel o r (createLabelOption x)))) ∧
    (∀ (pid : Int) (o r : String) (coll : Nat → List GitlabMilestone) (n : Nat) (t : Trace)
      (listed : List GiteaMilestone),
      (∀ t p, w.ListMilestones t pid p 100 "active" = .ok (coll p)) → ServedInPages coll n →
      n < fuel → w.ListRepoMilestones t o r giteaMilestonesOpt = .ok listed →
      EachPage (migrateMilestonesList w pid)
        (migrateMilestonesItem w o r (milestoneIndex listed)) coll
        (MilestoneWritesOk w o r (milestoneIndex listed)) n 1 ()
        (t ++ [Event.call (.ListRepoMilestones o r giteaMilestonesOpt)]) →
      k ∉ listed.map (fun l => l.Title) →
      ∃ evs : List Event, migrateMilestones fuel w pid o r t = some (.ok (), t ++ evs) ∧
        evs.filter (onCalls (Call.isMilestoneTitled k)) =
          ((pagesFrom coll n 1).filter (fun x => decide (x.Title = k))).map
            (fun x => Event.call (.CreateMilestone o r (createMilestoneOption x)))) ∧
    (∀ (pid : Int) (o r : String) (coll : Nat → List GitlabIssue) (n : Nat)
      (dcoll : Nat → List GiteaIssue) (m : Nat) (t : Trace) (listedM : List GiteaMilestone)
      (listedL : List GiteaLabel),
      (∀ t p, w.ListProjectIssues t pid p 100 = .ok (coll p)) → ServedInPages coll n →
      n < fuel →
      (∀ i, i ≤ m → w.ListRepoIssues (t ++ (issuePageCalls o r m 1).take i) o r
        ⟨1 + i, "all"⟩ = .ok (dcoll (1 + i))) → ServedInPages dcoll m →
      m < fuel →
      w.ListRepoMilestones (t ++ issuePageCalls o r m 1) o r giteaMilestonesOpt
        = .ok listedM →
      w.ListRepoLabels
        (t ++ issuePageCalls o r m 1 ++
          [Event.call (.ListRepoMilestones o r giteaMilestonesOpt)])
        o r giteaLabelsOpt = .ok listedL →
      EachPage (migrateIssuesList w pid)
        (migrateIssuesItem w o r (milestoneIndex listedM) (labelIndex listedL)
          (issueIndex (pagesFrom dcoll m 1))) coll
        (IssueWritesOk w o r (milestoneIndex listedM) (labelIndex listedL)
          (issueIndex (pagesFrom dcoll m 1))) n 1 ()
        (t ++ issuePageCalls o r m 1 ++
          [Event.call (.ListRepoMilestones o r giteaMilestonesOpt)] ++
          [Event.call (.ListRepoLabels o r giteaLabelsOpt)]) →
      k ∉ (pagesFrom dcoll m 1).map (fun x => x.Title) →
      ∃ evs : List Event, migrateIssues fuel w pid o r t = some (.ok (), t ++ evs) ∧
        evs.filter (onCalls (Call.isIssueTitled k)) =
          ((pagesFrom coll n 1).filter (fun x => decide (x.Title = k))).map
            (fun x => Event.call (.CreateIssue o r
              (issueOption (milestoneIndex listedM) (labelIndex listedL) x)))) := by
  refine ⟨?_, ?_, ?_⟩
  · intro pid o r coll n t listed h1 h2 h3 h4 h5 hk
    obtain ⟨evs, hrun, hf⟩ := migrateLabels_run w pid o r coll n fuel t listed h1 h2 h3 h4 h5
    refine ⟨evs, hrun, keyed_run (onCalls Call.isLabelStep) _ ?_ evs _ _ coll n
      (fun x => x.Name = k) _ hf ?_ ?_⟩
    · intro e he
      cases e with
      | call c => cases c <;> simp_all [onCalls, Call.isLabelNamed, Call.isLabelStep]
      | log l m f => simp [onCalls] at he
      | print s => simp [onCalls] at he
    · intro page; rfl
    · intro x
      by_cases hx : x.Name = k
      · have : x.Name ∉ listed.map (fun l => l.Name) := by rw [hx]; exact hk
        rw [if_neg this, if_pos hx]
        simp [hx, onCalls, Call.isLabelNamed, createLabelOption]
      · by_cases hin : x.Name ∈ listed.map (fun l => l.Name)
        · simp only [hin, if_true, hx, if_false, List.filter_nil]
        · simp [hin, hx, onCalls, Call.isLabelNamed, createLabelOption]
  · intro pid o r coll n t listed h1 h2 h3 h4 h5 hk
    obtain ⟨evs, hrun, hf⟩ := migrateMilestones_run w pid o r coll n fuel t listed h1 h2 h3 h4
      h5
    refine ⟨evs, hrun, keyed_run (onCalls Call.isMilestoneStep) _ ?_ evs _ _ coll n
      (fun x => x.Title = k) _ hf ?_ ?_⟩
    · intro e he
      cases e with
      | call c => cases c <;> simp_all [onCalls, Call.isMilestoneTitled, Call.isMilestoneStep]
      | log l m f => simp [onCalls] at he
      | print s => simp [onCalls] at he
    · intro page; rfl
    · intro x
      by_cases hx : x.Title = k
      · have : x.Title ∉ listed.map (fun l => l.Title) := by rw [hx]; exact hk
        rw [if_neg this, if_pos hx]
        simp [hx, onCalls, Call.isMilestoneTitled, createMilestoneOption]
      · by_cases hin : x.Title ∈ listed.map (fun l => l.Title)
        · simp only [hin, if_true, hx, if_false, List.filter_nil]
        · simp [hin, hx, onCalls, Call.isMilestoneTitled, createMilestoneOption]
  · intro pid o r coll n dcoll m t listedM listedL h1 h2 h3 h4 h5 h6 h7 h8 h9 hk
    obtain ⟨evs, hrun, hf⟩ := migrateIssues_run w pid o r coll n dcoll m fuel t listedM listedL
      h1 h2 h3 h4 h5 h6 h7 h8 h9
    refine ⟨evs, hrun, keyed_run (onCalls Call.isIssueStep) _ ?_ evs _ _ coll n
      (fun x => x.Title = k) _ hf ?_ ?_⟩
    · intro e he
      cases e with
      | call c => cases c <;> simp_all [onCalls, Call.isIssueTitled, Call.isIssueStep]
      | log l m f => simp [onCalls] at he
      | print s => simp [onCalls] at he
    · intro page; rfl
    · intro x
      by_cases hx : x.Title = k
      · have hnone : (issueIndex (pagesFrom dcoll m 1)).get? x.Title = none := by
          have := (issueIndex_isSome (pagesFrom dcoll m 1) x.Title).not.mpr (by rw [hx]; exact hk)
          simpa using this
        rw [if_pos hx]
        simp only [issueRequest, hnone]
        simp [hx, onCalls, Call.isIssueTitled, issueOption]
      · cases hget : (issueIndex (pagesFrom dcoll m 1)).get? x.Title with
        | none => simp [issueRequest, hget, hx, onCalls, Call.isIssueTitled, issueOption]
        | some ex =>
          simp [issueRequest, hget, hx, onCalls, Call.isIssueTitled, issueOption,
            editIssueOption]

theorem dupLabelPages_served : ServedInPages dupLabelPages 1 := by
  refine ⟨?_, rfl⟩
  intro p h1 h2
  have : p = 1 := by omega
  subst this
  simp [dupLabelPages]

theorem dupMilestonePages_served : ServedInPages dupMilestonePages 1 := by
  refine ⟨?_, rfl⟩
  intro p h1 h2
  have : p = 1 := by omega
  subst this
  simp [dupMilestonePages]

theorem dupIssuePages_served : ServedInPages dupIssuePages 1 := by
  refine ⟨?_, rfl⟩
  intro p h1 h2
  have : p = 1 := by omega
  subst this
  simp [dupIssuePages]

/-- C9, amended, on the sample inventory with two labels, two milestones and two
issues that share the key "dup" and an empty destination that lists what is
created on it: each run issues two create requests with that key, although after
the first creation the destination already lists an entity with the key. -/
theorem duplicate_keys_created_witness :
    (listedIssues "o" "r"
        [Event.call (.CreateIssue "o" "r" ⟨"dup", "first", none, 0, []⟩)] 1).map
      (fun x => x.Title) = ["dup"] ∧
    (repoLabels [] "o" "r"
        [Event.call (.CreateLabel "o" "r" ⟨"dup", "first", "#111111"⟩)]).map
      (fun x => x.Name) = ["dup"] ∧
    (∃ evs, migrateLabels 2 dupRemote 1 "o" "r" [] = some (.ok (), [] ++ evs) ∧
      evs.filter (onCalls (Call.isLabelNamed "dup")) =
        [Event.call (.CreateLabel "o" "r" ⟨"dup", "first", "#111111"⟩),
         Event.call (.CreateLabel "o" "r" ⟨"dup", "second", "#222222"⟩)]) ∧
    (∃ evs, migrateMilestones 2 dupRemote 1 "o" "r" [] = some (.ok (), [] ++ evs) ∧
      evs.filter (onCalls (Call.isMilestoneTitled "dup")) =
        [Event.call (.CreateMilestone "o" "r" ⟨"dup", "first", none, ""⟩),
         Event.call (.CreateMilestone "o" "r" ⟨"dup", "second", none, ""⟩)]) ∧
    (∃ evs, migrateIssues 2 dupListingRemote 1 "o" "r" [] = some (.ok (), [] ++ evs) ∧
      evs.filter (onCalls (Call.isIssueTitled "dup")) =
        [Event.call (.CreateIssue "o" "r" ⟨"dup", "first", none, 0, []⟩),
         Event.call (.CreateIssue "o" "r" ⟨"dup", "second", none, 0, []⟩)]) :=
  ⟨rfl, rfl,
   (duplicate_keys_created dupRemote 2 "dup").1 1 "o" "r" dupLabelPages 1 [] []
      (fun _ _ => rfl) dupLabelPages_served (by omega) rfl
      (eachPage_of_forall _ _ _ _ (fun _ _ _ _ => rfl) 1 1 () _) (by simp),
   (duplicate_keys_created dupRemote 2 "dup").2.1 1 "o" "r" dupMilestonePages 1 [] []
      (fun _ _ => rfl) dupMilestonePages_served (by omega) rfl
      (eachPage_of_forall _ _ _ _ (fun _ _ _ _ => rfl) 1 1 () _) (by simp),
   (duplicate_keys_created dupListingRemote 2 "dup").2.2 1 "o" "r" dupIssuePages 1
      (fun _ => []) 0 [] [] [] (fun _ _ => rfl) dupIssuePages_served (by omega)
      (fun i hi => by
        have h0 : i = 0 := by omega
        subst h0; rfl)
      empty_served (by omega) rfl rfl
      (eachPage_of_forall _ _ _ _ (fun _ _ _ => rfl) 1 1 () _) (by simp [pagesFrom])⟩

end Gitlab2Gitea
